import Mathlib

/-!
# Payment channels of weave (`x/paychan`)

A shallow embedding of the three payment-channel handlers of
`x/paychan/handler.go` (create, transfer, close) and of the record and bucket
of `x/paychan/model.go`, together with the collaborators they call; further
down, of the batch decorator of `x/batch/decorator.go`, of the error taxonomy
of `errors/errors.go` and of the messages of `x/cash/msg.go`.

* Go pointers (`*x.Coin`, `*Payment`, `*crypto.PublicKey`) are `Option`s; a
  dereference of a nil pointer is a run-time panic, and a function that can
  panic returns an `Option` whose `none` is that panic.
* The key-value store the handlers receive is mutated in place in Go; here
  every operation that writes takes the store and returns the store it leaves
  behind, also when it returns an error.
* `int64` heights and timeouts are only compared, never added, so they are
  `Int`.
* The authenticator and the cash controller are interface fields of the
  handler structs and are fields of `Handler`; the signature primitive, the
  wire encoding, the address hash and the messages' own `Validate` are not part
  of the sources and are fields of `Handler` as well.
-/

namespace Weave

/-! ## Bytes, addresses, errors -/

/-- The bytes of a Go byte slice, in the places where the sources never test a
slice against `nil` (keys, channel IDs, serialized payloads, the fields of the
cash messages): `nil` and the empty slice are both `[]` there. -/
abbrev Bytes := List Nat

/-- The type `weave.Address`, a byte slice that `x/paychan/model.go` tests against
`nil`: `none` is the nil slice and `some []` the empty slice that is not nil. -/
abbrev Address := Option Bytes

/-- The type `crypto.PublicKey`, kept abstract. -/
abbrev PublicKey := Bytes

/-- The type `crypto.Signature`, kept abstract. -/
abbrev Signature := Bytes

/-- Modelled from the spec: the classes of error of section 7 (the root causes
of the taxonomy and the payment channel's own kinds); `x/paychan/errors.go` and
the constructors `errors.E`, `errors.ErrUnauthorized`, `errors.ErrUnknownTxType`
are not among the sources.  `todo` is the source's `CodeTODO`. -/
inductive ErrKind
  | internal
  | unauthorized
  | notFound
  | invalidMsg
  | invalidModel
  | invalidValue
  | unknownTxType
  | missingCondition
  | invalidCondition
  | invalidChainID
  | invalidSignature
  | invalidAmount
  | notAllowed
  | todo
deriving DecidableEq, Repr

/-- Modelled from the spec: an error value is a class with a description, or a
wrap of a cause under a further description (section 4.1). -/
inductive Error
  | code (kind : ErrKind) (desc : String)
  | wrap (cause : Error) (desc : String)
deriving DecidableEq, Repr

/-- Modelled from the spec: the class of a wrapped error is the class of its
cause (section 4.1, "propagated code is the cause's code"). -/
def Error.kind : Error → ErrKind
  | .code k _ => k
  | .wrap c _ => c.kind

/-- Modelled from the spec: `errors.E(err, desc)` wraps `err`. -/
def errors.E (err : Error) (desc : String) : Error := .wrap err desc

/-- Modelled from the spec: `errors.E(code, desc)` creates an error of class `code`. -/
def errors.ECode (k : ErrKind) (desc : String) : Error := .code k desc

/-- Modelled from the spec: `errors.ErrUnauthorized()`. -/
def errors.ErrUnauthorized : Error := .code .unauthorized "unauthorized"

/-- Modelled from the spec: `errors.ErrUnknownTxType(msg)`. -/
def errors.ErrUnknownTxType : Error := .code .unknownTxType "unknown tx type"

/-- Modelled from the spec: `pkgerrors.Wrap(err, desc)` of `github.com/pkg/errors`; the
result exposes no code, which the taxonomy reads as the internal class. -/
def pkgerrors.Wrap (_err : Error) (desc : String) : Error := .code .internal desc

/-- Modelled from the spec: `ErrInvalidChainID(id)` of `x/paychan/errors.go`. -/
def ErrInvalidChainID (id : String) : Error := .code .invalidChainID id

/-- Modelled from the spec: `ErrInvalidSignature()` of `x/paychan/errors.go`. -/
def ErrInvalidSignature : Error := .code .invalidSignature "invalid signature"

/-- Modelled from the spec: `ErrNotAllowed(reason)` of `x/paychan/errors.go`. -/
def ErrNotAllowed (reason : String) : Error := .code .notAllowed reason

/-! ## Coins -/

/-- Modelled from the spec: `x.Coin` (`x/coin.go` is not among the sources): a
signed number of whole units, a fractional part and the currency ticker. -/
structure Coin where
  Whole : Int
  Fractional : Int
  Ticker : String
deriving DecidableEq, Repr

/-- Modelled from the spec: the number of fractional units in one whole unit.
The spec names a fractional precision without fixing it; nine decimal digits
are taken. -/
def FracUnit : Int := 1000000000

/-- Modelled from the spec: `ErrInvalidAmount(coin)` of `x/paychan/errors.go`. -/
def ErrInvalidAmount (_c : Option Coin) : Error := .code .invalidAmount "invalid amount"

namespace Coin

/-- Modelled from the spec: the amount of a coin in fractional units. -/
def units (c : Coin) : Int := c.Whole * FracUnit + c.Fractional

/-- Modelled from the spec: the coin of `u` fractional units, whole and fractional
part carrying the sign of `u`. -/
def ofUnits (u : Int) (ticker : String) : Coin :=
  ⟨u.tdiv FracUnit, u.tmod FracUnit, ticker⟩

/-- Modelled from the spec: `Coin.SameType`, same currency. -/
def SameType (c o : Coin) : Bool := c.Ticker == o.Ticker

/-- Modelled from the spec: `Coin.Compare`, the sign of `c - o` read on the whole
part first and the fractional part second, whatever the tickers:
`1` if `c` is larger, `-1` if `o` is, `0` if equal. -/
def Compare (c o : Coin) : Int :=
  if c.Whole < o.Whole then -1
  else if c.Whole > o.Whole then 1
  else if c.Fractional < o.Fractional then -1
  else if c.Fractional > o.Fractional then 1
  else 0

/-- Modelled from the spec: `Coin.Equals`, all three fields identical. -/
def Equals (c o : Coin) : Bool :=
  c.Ticker == o.Ticker && c.Whole == o.Whole && c.Fractional == o.Fractional

/-- Modelled from the spec: `Coin.IsZero`, no value. -/
def IsZero (c : Coin) : Bool := c.Whole == 0 && c.Fractional == 0

/-- Modelled from the spec: `Coin.IsPositive`, strictly positive. -/
def IsPositive (c : Coin) : Bool :=
  decide (c.Whole > 0) || (c.Whole == 0 && decide (c.Fractional > 0))

/-- Modelled from the spec: `Coin.IsNonNegative`, zero or more. -/
def IsNonNegative (c : Coin) : Bool :=
  decide (c.Whole ≥ 0) && decide (c.Fractional ≥ 0)

/-- Modelled from the spec: `Coin.Subtract`, the difference of two amounts of one
currency (section 4.4, `delta = amount - transferred`); amounts of different
currencies do not subtract. -/
def Subtract (c o : Coin) : Except Error Coin :=
  if c.SameType o then .ok (ofUnits (c.units - o.units) c.Ticker)
  else .error (.code .invalidValue "invalid currency")

/-- Modelled from the spec: a non-negative coin whose fractional part is below one
whole unit (section 4.2, "a valid, non-negative coin ... within defined
bounds"; no bound on the whole part and no ticker alphabet is named there). -/
def inBounds (c : Coin) : Bool :=
  decide (0 ≤ c.Whole) && decide (0 ≤ c.Fractional) && decide (c.Fractional < FracUnit)

end Coin

/-! ## The channel record and the messages -/

/-- The record `PaymentChannel` as the handler builds it (`handler.go`, lines 94-102). -/
structure PaymentChannel where
  Src : Address
  SenderPubkey : Option PublicKey
  Recipient : Address
  Total : Option Coin
  Timeout : Int
  Memo : String
  Transferred : Option Coin
deriving DecidableEq, Repr

/-- The message `CreatePaymentChannelMsg`, by the fields the handler reads. -/
structure CreatePaymentChannelMsg where
  Src : Address
  SenderPubkey : Option PublicKey
  Recipient : Address
  Total : Option Coin
  Timeout : Int
  Memo : String
deriving DecidableEq, Repr

/-- The signed part of a transfer, by the fields the handler reads. -/
structure Payment where
  ChainId : String
  ChannelId : Bytes
  Amount : Option Coin
  Memo : String
deriving DecidableEq, Repr

/-- The message `TransferPaymentChannelMsg`. -/
structure TransferPaymentChannelMsg where
  Payment : Option Payment
  Signature : Option Signature
deriving DecidableEq, Repr

/-- The message `ClosePaymentChannelMsg`. -/
structure ClosePaymentChannelMsg where
  ChannelId : Bytes
  Memo : String
deriving DecidableEq, Repr

/-- What `tx.GetMsg()` can hand to a handler's type assertion: one of the three
payment-channel messages, or anything else (a nil message included). -/
inductive Msg
  | create (m : CreatePaymentChannelMsg)
  | transfer (m : TransferPaymentChannelMsg)
  | close (m : ClosePaymentChannelMsg)
  | other (path : String)
deriving DecidableEq, Repr

/-- A transaction, by the one method the handlers call. -/
structure Tx where
  GetMsg : Except Error Msg

/-- Modelled from the spec: the request-scoped context (section 6, "returns
current block height and chain identifier"); a context may carry no height. -/
structure Context where
  Height : Option Int
  ChainID : String
deriving DecidableEq, Repr

/-- Modelled from the spec: `weave.GetHeight`, the height and whether one is set;
the zero value when none is. -/
def GetHeight (ctx : Context) : Int × Bool :=
  match ctx.Height with
  | some h => (h, true)
  | none => (0, false)

/-- Modelled from the spec: `weave.GetChainID`. -/
def GetChainID (ctx : Context) : String := ctx.ChainID

/-- The result `weave.CheckResult`. -/
structure CheckResult where
  Data : Bytes := []
  Log : String := ""
  GasAllocated : Int := 0
  GasPayment : Int := 0
deriving DecidableEq, Repr

/-- The result `weave.DeliverResult`. -/
structure DeliverResult where
  Data : Bytes := []
  Log : String := ""
  GasUsed : Int := 0
  Diff : List (Bytes × Int) := []
  Tags : List (Bytes × Bytes) := []
deriving DecidableEq, Repr

/-! ## The store, the bucket and the ledger -/

/-- Modelled from the spec: the part of the key-value store the handlers touch
(sections 3 and 6): the payment-channel records by key, the counter of the
key sequence, and the balances by address and ticker, in fractional units. -/
structure Store where
  paychans : Bytes → Option PaymentChannel
  seq : Nat
  balances : Address → String → Int

/-- The method `PaymentChannel.Validate` of `x/paychan/model.go`.  The tests
`pc.Src == nil` and `pc.Recipient == nil` are tests of a slice against nil, so
an empty slice that is not nil passes them;
`errors.E(code, description, labels...)` is the error of that code
and description, the labels left out.  `pc.Total` is dereferenced by
`pc.Transferred.Compare(*pc.Total)` only behind the check that it is there.
The currencies of `Total` and `Transferred` are not compared. -/
def PaymentChannel.Validate (pc : PaymentChannel) : Option Error :=
  if pc.Src = none then some (errors.ECode .missingCondition "missing src")
  else if pc.SenderPubkey = none then
    some (errors.ECode .missingCondition "missing sender pubkey")
  else if pc.Recipient = none then some (errors.ECode .missingCondition "missing recipient")
  else if pc.Timeout ≤ 0 then some (errors.ECode .invalidCondition "timeout too small")
  else
    match pc.Total with
    | none => some (errors.ECode .invalidCondition "non positive total")
    | some total =>
      if !total.IsPositive then some (errors.ECode .invalidCondition "non positive total")
      else if pc.Memo.utf8ByteSize > 128 then
        some (errors.ECode .invalidCondition "memo too long")
      else
        match pc.Transferred with
        | none => some (errors.ECode .invalidCondition "invalid transferred")
        | some transferred =>
          if !transferred.IsNonNegative || transferred.Compare total > 0 then
            some (errors.ECode .invalidCondition "invalid transferred")
          else none

/-- The method `PaymentChannel.Validate` of `x/paychan/model.go` with its reads
through a pointer spelled out: `none` is the panic of a read through a nil
pointer.  `pc.Total.IsPositive()`, `pc.Transferred.IsNonNegative()`,
`pc.Transferred.Compare(...)` and `*pc.Total` read through the pointer; the
operands of `||` are evaluated from the left, up to the first that is true. -/
def PaymentChannel.ValidateOrPanic (pc : PaymentChannel) : Option (Option Error) :=
  if pc.Src = none then some (some (errors.ECode .missingCondition "missing src"))
  else if pc.SenderPubkey = none then
    some (some (errors.ECode .missingCondition "missing sender pubkey"))
  else if pc.Recipient = none then
    some (some (errors.ECode .missingCondition "missing recipient"))
  else if pc.Timeout ≤ 0 then some (some (errors.ECode .invalidCondition "timeout too small"))
  else
    match (if pc.Total = none then some true else pc.Total.map fun t => !t.IsPositive) with
    | none => none
    | some true => some (some (errors.ECode .invalidCondition "non positive total"))
    | some false =>
      if pc.Memo.utf8ByteSize > 128 then
        some (some (errors.ECode .invalidCondition "memo too long"))
      else
        match (if pc.Transferred = none then some true
          else
            match pc.Transferred with
            | none => none
            | some transferred =>
              if !transferred.IsNonNegative then some true
              else pc.Total.map fun t => decide (transferred.Compare t > 0)) with
        | none => none
        | some true => some (some (errors.ECode .invalidCondition "invalid transferred"))
        | some false => some none

/-- Modelled from the spec: the key of the `n`-th record of a sequence, `n` on eight
bytes, most significant first (section 6, "assigns new integer-sequence
keys"). -/
def seqKey (n : Nat) : Bytes :=
  [7, 6, 5, 4, 3, 2, 1, 0].map fun i => n / 256 ^ i % 256

/-- Modelled from the spec: `Sequence.NextVal` of the package `orm`, which is not
among the sources: the counter of the sequence is advanced by one and the key
of its new value returned (section 6, "assigns new integer-sequence keys on
Create"). -/
def orm.Sequence.NextVal (db : Store) : Bytes × Store :=
  (seqKey (db.seq + 1), { db with seq := db.seq + 1 })

/-- Modelled from the spec: `Bucket.Save` of the package `orm`, which is not among
the sources: the invariants are enforced before every persist (section 3); a
valid record replaces what the key held. -/
def orm.Bucket.Save (db : Store) (key : Bytes) (pc : PaymentChannel) : Store × Option Error :=
  match pc.Validate with
  | some err => (db, some err)
  | none => ({ db with paychans := fun k => if k = key then some pc else db.paychans k }, none)

/-- Modelled from the spec: `Bucket.Get` of the package `orm`, which is not among
the sources: the record the key holds, `none` when it holds nothing; the
invariants are enforced on every load (section 3). -/
def orm.Bucket.Get (db : Store) (key : Bytes) : Except Error (Option PaymentChannel) :=
  match db.paychans key with
  | none => .ok none
  | some pc =>
    match pc.Validate with
    | some err => .error err
    | none => .ok (some pc)

namespace PaymentChannelBucket

/-- The method `PaymentChannelBucket.Save` of `x/paychan/model.go`: the value of
the object is a `*PaymentChannel`, so the type assertion holds and the call
goes to `Bucket.Save`. -/
def Save (db : Store) (key : Bytes) (pc : PaymentChannel) : Store × Option Error :=
  orm.Bucket.Save db key pc

/-- The method `PaymentChannelBucket.Create` of `x/paychan/model.go`: the next
value of the sequence is the key, and the object of that key and the record
is returned with what `Bucket.Save` answers. -/
def Create (db : Store) (pc : PaymentChannel) : Bytes × Store × Option Error :=
  let key := orm.Sequence.NextVal db
  let saved := orm.Bucket.Save key.2 key.1 pc
  (key.1, saved.1, saved.2)

/-- The method `PaymentChannelBucket.GetPaymentChannel` of `x/paychan/model.go`:
the error of `Bucket.Get`, not-found when there is no object, and the record
otherwise (the type assertion holds for what this bucket stores). -/
def GetPaymentChannel (db : Store) (id : Bytes) : Except Error PaymentChannel :=
  match orm.Bucket.Get db id with
  | .error err => .error err
  | .ok none => .error (errors.ECode .notFound "payment channel not found")
  | .ok (some pc) => .ok pc

/-- Modelled from the spec: `Bucket.Delete` of the package `orm`, promoted to
`PaymentChannelBucket`: the key holds nothing afterwards. -/
def Delete (db : Store) (id : Bytes) : Store × Option Error :=
  ({ db with paychans := fun k => if k = id then none else db.paychans k }, none)

end PaymentChannelBucket

/-- Modelled from the spec: the ledger controller's `MoveCoins` (`x/cash/controller.go`
is not among the sources), section 4.2: the amount must be a valid,
non-negative coin; the source is debited and the destination credited for
that ticker; if the source's balance would become negative the move fails
with invalid-value and nothing is written; an account without a record has
balance zero. -/
def cash.MoveCoins (db : Store) (src dst : Address) (amount : Coin) : Store × Option Error :=
  if !amount.inBounds then (db, some (.code .invalidValue "invalid amount"))
  else if db.balances src amount.Ticker < amount.units then
    (db, some (.code .invalidValue "insufficient funds"))
  else
    let debited : Address → String → Int := fun a t =>
      if a = src ∧ t = amount.Ticker then db.balances a t - amount.units else db.balances a t
    let credited : Address → String → Int := fun a t =>
      if a = dst ∧ t = amount.Ticker then debited a t + amount.units else debited a t
    ({ db with balances := credited }, none)

/-! ## The handlers of `x/paychan/handler.go` -/

/-- The gas a create is allotted in `Check`. -/
def createPaymentChannelCost : Int := 300

/-- The gas a transfer is allotted in `Check`. -/
def transferPaymentChannelCost : Int := 5

/-- The three handler structs hold the same collaborators: `HasAddress` is the
method of the field `auth`, `MoveCoins` the method of the field `cash` (both Go
interfaces); the field `bucket` is the concrete `PaymentChannelBucket`.  The
remaining fields are what the handlers call outside of the sources:
`Verify` is `(*crypto.PublicKey).Verify`, `Marshal` is `(*Payment).Marshal`,
`NewConditionAddress` is `weave.NewCondition(ext, typ, data).Address()`, and
`ValidateCreate`, `ValidateTransfer`, `ValidateClose` are the `Validate`
methods of the three messages (`x/paychan/msg.go`). -/
structure Handler where
  HasAddress : Context → Address → Bool
  MoveCoins : Store → Address → Address → Coin → Store × Option Error
  Verify : Option PublicKey → Bytes → Option Signature → Bool
  Marshal : Payment → Except Error Bytes
  NewConditionAddress : String → String → Bytes → Address
  ValidateCreate : CreatePaymentChannelMsg → Option Error
  ValidateTransfer : TransferPaymentChannelMsg → Option Error
  ValidateClose : ClosePaymentChannelMsg → Option Error

/-- What a `Deliver` leaves: the result, the error and the store after the call. -/
structure DeliverOut where
  res : DeliverResult
  err : Option Error
  db : Store

/-- The function `paymentChannelAccount`: the address of the escrow account of
the channel with the given ID. -/
def paymentChannelAccount (h : Handler) (paymentChannelId : Bytes) : Address :=
  h.NewConditionAddress "paychan" "seq" paymentChannelId

/-- The method `createPaymentChannelHandler.validate`: the message it returns
and the error. -/
def createPaymentChannelHandler.validate (h : Handler) (ctx : Context) (_db : Store) (tx : Tx) :
    Option CreatePaymentChannelMsg × Option Error :=
  match tx.GetMsg with
  | .error err => (none, some (errors.E err "cannot get message"))
  | .ok (.create msg) =>
    match h.ValidateCreate msg with
    | some err => (some msg, some err)
    | none =>
      if msg.Timeout ≤ (GetHeight ctx).1 then
        (some msg, some (errors.ECode .invalidCondition "timeout in the past"))
      else if !h.HasAddress ctx msg.Src then
        (some msg, some errors.ErrUnauthorized)
      else (some msg, none)
  | .ok _ => (none, some (errors.ECode .todo "unknown tx type"))

/-- The method `createPaymentChannelHandler.Check`. -/
def createPaymentChannelHandler.Check (h : Handler) (ctx : Context) (db : Store) (tx : Tx) :
    CheckResult × Option Error :=
  let res : CheckResult := {}
  match (createPaymentChannelHandler.validate h ctx db tx).2 with
  | some err => (res, some (errors.E err "invalid message"))
  | none => ({ res with GasAllocated := res.GasAllocated + createPaymentChannelCost }, none)

/-- The method `createPaymentChannelHandler.Deliver`; `none` is the panic of
`msg.Total.Ticker` on a message without total. -/
def createPaymentChannelHandler.Deliver (h : Handler) (ctx : Context) (db : Store) (tx : Tx) :
    Option DeliverOut :=
  let res : DeliverResult := {}
  match createPaymentChannelHandler.validate h ctx db tx with
  | (_, some err) => some ⟨res, some (errors.E err "invalid message"), db⟩
  | (none, none) => none
  | (some msg, none) =>
    match msg.Total with
    | none => none
    | some total =>
      let created := PaymentChannelBucket.Create db
        { Src := msg.Src
          SenderPubkey := msg.SenderPubkey
          Recipient := msg.Recipient
          Total := msg.Total
          Timeout := msg.Timeout
          Memo := msg.Memo
          Transferred := some { Whole := 0, Fractional := 0, Ticker := total.Ticker } }
      match created.2.2 with
      | some err => some ⟨res, some (errors.E err "cannot create in bucket"), created.2.1⟩
      | none =>
        let dst := paymentChannelAccount h created.1
        let moved := h.MoveCoins created.2.1 msg.Src dst total
        match moved.2 with
        | some err => some ⟨res, some (errors.E err "cannot move coins"), moved.1⟩
        | none => some ⟨{ res with Data := created.1 }, none, moved.1⟩

/-- The method `transferPaymentChannelHandler.validate`; `none` is the panic of
a nil dereference (`msg.Payment`, `Payment.Amount`, `pc.Total`,
`pc.Transferred`). -/
def transferPaymentChannelHandler.validate (h : Handler) (ctx : Context) (db : Store) (tx : Tx) :
    Option (Option TransferPaymentChannelMsg × Option Error) :=
  match tx.GetMsg with
  | .error err => some (none, some (errors.E err "cannot get message"))
  | .ok (.transfer msg) =>
    match h.ValidateTransfer msg with
    | some err => some (some msg, some err)
    | none =>
      match msg.Payment with
      | none => none
      | some payment =>
        if GetChainID ctx ≠ payment.ChainId then
          some (none, some (ErrInvalidChainID payment.ChainId))
        else
          match PaymentChannelBucket.GetPaymentChannel db payment.ChannelId with
          | .error err => some (none, some err)
          | .ok pc =>
            match h.Marshal payment with
            | .error err => some (none, some (pkgerrors.Wrap err "serialize payment"))
            | .ok raw =>
              if !h.Verify pc.SenderPubkey raw msg.Signature then
                some (some msg, some ErrInvalidSignature)
              else
                match payment.Amount with
                | none => none
                | some amount =>
                  match pc.Total with
                  | none => none
                  | some total =>
                    if !amount.SameType total then
                      some (some msg, some (ErrInvalidAmount payment.Amount))
                    else if amount.Compare total > 0 then
                      some (some msg, some (ErrInvalidAmount payment.Amount))
                    else
                      match pc.Transferred with
                      | none => none
                      | some transferred =>
                        if amount.Compare transferred ≤ 0 then
                          some (some msg, some (ErrInvalidAmount payment.Amount))
                        else some (some msg, none)
  | .ok _ => some (none, some errors.ErrUnknownTxType)

/-- The method `transferPaymentChannelHandler.Check`. -/
def transferPaymentChannelHandler.Check (h : Handler) (ctx : Context) (db : Store) (tx : Tx) :
    Option (CheckResult × Option Error) :=
  let res : CheckResult := {}
  match transferPaymentChannelHandler.validate h ctx db tx with
  | none => none
  | some (_, some err) => some (res, some (errors.E err "invalid message"))
  | some (_, none) =>
    some ({ res with GasAllocated := res.GasAllocated + transferPaymentChannelCost }, none)

/-- The method `transferPaymentChannelHandler.Deliver`. -/
def transferPaymentChannelHandler.Deliver (h : Handler) (ctx : Context) (db : Store) (tx : Tx) :
    Option DeliverOut :=
  let res : DeliverResult := {}
  match transferPaymentChannelHandler.validate h ctx db tx with
  | none => none
  | some (_, some err) => some ⟨res, some err, db⟩
  | some (none, none) => none
  | some (some msg, none) =>
    match msg.Payment with
    | none => none
    | some payment =>
      match PaymentChannelBucket.GetPaymentChannel db payment.ChannelId with
      | .error err => some ⟨res, some err, db⟩
      | .ok pc =>
        match payment.Amount with
        | none => none
        | some amount =>
          match pc.Transferred with
          | none => none
          | some transferred =>
            match amount.Subtract transferred with
            | .error _ => some ⟨res, some (ErrInvalidAmount payment.Amount), db⟩
            | .ok diff =>
              if diff.IsZero then some ⟨res, some (ErrInvalidAmount payment.Amount), db⟩
              else
                let src := paymentChannelAccount h payment.ChannelId
                let moved := h.MoveCoins db src pc.Recipient diff
                match moved.2 with
                | some err => some ⟨res, some err, moved.1⟩
                | none =>
                  let pc1 := { pc with Transferred := payment.Amount, Memo := payment.Memo }
                  match pc1.Total with
                  | none => none
                  | some total =>
                    if amount.Equals total then
                      let deleted := PaymentChannelBucket.Delete moved.1 payment.ChannelId
                      some ⟨res, deleted.2, deleted.1⟩
                    else
                      let saved := PaymentChannelBucket.Save moved.1 payment.ChannelId pc1
                      some ⟨res, saved.2, saved.1⟩

/-- The method `closePaymentChannelHandler.validate`. -/
def closePaymentChannelHandler.validate (h : Handler) (_ctx : Context) (_db : Store) (tx : Tx) :
    Option ClosePaymentChannelMsg × Option Error :=
  match tx.GetMsg with
  | .error err => (none, some err)
  | .ok (.close msg) => (some msg, h.ValidateClose msg)
  | .ok _ => (none, some errors.ErrUnknownTxType)

/-- The method `closePaymentChannelHandler.Check`. -/
def closePaymentChannelHandler.Check (h : Handler) (ctx : Context) (db : Store) (tx : Tx) :
    CheckResult × Option Error :=
  let res : CheckResult := {}
  (res, (closePaymentChannelHandler.validate h ctx db tx).2)

/-- The method `closePaymentChannelHandler.Deliver`; `none` is the panic of a
nil dereference (`pc.Total`, `pc.Transferred`). -/
def closePaymentChannelHandler.Deliver (h : Handler) (ctx : Context) (db : Store) (tx : Tx) :
    Option DeliverOut :=
  let res : DeliverResult := {}
  match closePaymentChannelHandler.validate h ctx db tx with
  | (_, some err) => some ⟨res, some err, db⟩
  | (none, none) => none
  | (some msg, none) =>
    match PaymentChannelBucket.GetPaymentChannel db msg.ChannelId with
    | .error err => some ⟨res, some err, db⟩
    | .ok pc =>
      match pc.Total with
      | none => none
      | some total =>
        match pc.Transferred with
        | none => none
        | some transferred =>
          if total.Equals transferred then
            let deleted := PaymentChannelBucket.Delete db msg.ChannelId
            some ⟨res, deleted.2, deleted.1⟩
          else if pc.Timeout > (GetHeight ctx).1 ∧ !h.HasAddress ctx pc.Recipient then
            some ⟨res, some (ErrNotAllowed "not recipient"), db⟩
          else
            match total.Subtract transferred with
            | .error err => some ⟨res, some err, db⟩
            | .ok diff =>
              let src := paymentChannelAccount h msg.ChannelId
              let moved := h.MoveCoins db src pc.Src diff
              match moved.2 with
              | some err => some ⟨res, some err, moved.1⟩
              | none =>
                let deleted := PaymentChannelBucket.Delete moved.1 msg.ChannelId
                some ⟨res, deleted.2, deleted.1⟩

/-! ## The `Check` methods of `x/paychan/handler.go`, the store handed on -/

namespace threaded

/-- The method `PaymentChannelBucket.GetPaymentChannel` of `x/paychan/model.go`
with the store of any type handed on: `Get` is `Bucket.Get` of the package
`orm`, not among the sources, which is given the store and may write to it. -/
def PaymentChannelBucket.GetPaymentChannel {σ : Type}
    (Get : σ → Bytes → Except Error (Option PaymentChannel) × σ) (db : σ) (id : Bytes) :
    Except Error PaymentChannel × σ :=
  let got := Get db id
  match got.1 with
  | .error err => (.error err, got.2)
  | .ok none => (.error (errors.ECode .notFound "payment channel not found"), got.2)
  | .ok (some pc) => (.ok pc, got.2)

/-- The method `createPaymentChannelHandler.validate`, with the store it leaves:
no call in it is given `db`. -/
def createPaymentChannelHandler.validate {σ : Type} (h : Handler) (ctx : Context) (db : σ)
    (tx : Tx) : (Option CreatePaymentChannelMsg × Option Error) × σ :=
  match tx.GetMsg with
  | .error err => ((none, some (errors.E err "cannot get message")), db)
  | .ok (.create msg) =>
    match h.ValidateCreate msg with
    | some err => ((some msg, some err), db)
    | none =>
      if msg.Timeout ≤ (GetHeight ctx).1 then
        ((some msg, some (errors.ECode .invalidCondition "timeout in the past")), db)
      else if !h.HasAddress ctx msg.Src then
        ((some msg, some errors.ErrUnauthorized), db)
      else ((some msg, none), db)
  | .ok _ => ((none, some (errors.ECode .todo "unknown tx type")), db)

/-- The method `createPaymentChannelHandler.Check`, with the store it leaves. -/
def createPaymentChannelHandler.Check {σ : Type} (h : Handler) (ctx : Context) (db : σ)
    (tx : Tx) : (CheckResult × Option Error) × σ :=
  let res : CheckResult := {}
  let validated := createPaymentChannelHandler.validate h ctx db tx
  match validated.1.2 with
  | some err => ((res, some (errors.E err "invalid message")), validated.2)
  | none =>
    (({ res with GasAllocated := res.GasAllocated + createPaymentChannelCost }, none),
      validated.2)

/-- The method `transferPaymentChannelHandler.validate`, with the store it
leaves: the one call that is given `db` is `GetPaymentChannel`.  In the first
component `none` is the panic of a nil dereference. -/
def transferPaymentChannelHandler.validate {σ : Type} (h : Handler)
    (Get : σ → Bytes → Except Error (Option PaymentChannel) × σ) (ctx : Context) (db : σ)
    (tx : Tx) : Option (Option TransferPaymentChannelMsg × Option Error) × σ :=
  match tx.GetMsg with
  | .error err => (some (none, some (errors.E err "cannot get message")), db)
  | .ok (.transfer msg) =>
    match h.ValidateTransfer msg with
    | some err => (some (some msg, some err), db)
    | none =>
      match msg.Payment with
      | none => (none, db)
      | some payment =>
        if GetChainID ctx ≠ payment.ChainId then
          (some (none, some (ErrInvalidChainID payment.ChainId)), db)
        else
          let got := PaymentChannelBucket.GetPaymentChannel Get db payment.ChannelId
          match got.1 with
          | .error err => (some (none, some err), got.2)
          | .ok pc =>
            match h.Marshal payment with
            | .error err => (some (none, some (pkgerrors.Wrap err "serialize payment")), got.2)
            | .ok raw =>
              if !h.Verify pc.SenderPubkey raw msg.Signature then
                (some (some msg, some ErrInvalidSignature), got.2)
              else
                match payment.Amount with
                | none => (none, got.2)
                | some amount =>
                  match pc.Total with
                  | none => (none, got.2)
                  | some total =>
                    if !amount.SameType total then
                      (some (some msg, some (ErrInvalidAmount payment.Amount)), got.2)
                    else if amount.Compare total > 0 then
                      (some (some msg, some (ErrInvalidAmount payment.Amount)), got.2)
                    else
                      match pc.Transferred with
                      | none => (none, got.2)
                      | some transferred =>
                        if amount.Compare transferred ≤ 0 then
                          (some (some msg, some (ErrInvalidAmount payment.Amount)), got.2)
                        else (some (some msg, none), got.2)
  | .ok _ => (some (none, some errors.ErrUnknownTxType), db)

/-- The method `transferPaymentChannelHandler.Check`, with the store it leaves. -/
def transferPaymentChannelHandler.Check {σ : Type} (h : Handler)
    (Get : σ → Bytes → Except Error (Option PaymentChannel) × σ) (ctx : Context) (db : σ)
    (tx : Tx) : Option (CheckResult × Option Error) × σ :=
  let res : CheckResult := {}
  let validated := transferPaymentChannelHandler.validate h Get ctx db tx
  match validated.1 with
  | none => (none, validated.2)
  | some (_, some err) => (some (res, some (errors.E err "invalid message")), validated.2)
  | some (_, none) =>
    (some ({ res with GasAllocated := res.GasAllocated + transferPaymentChannelCost }, none),
      validated.2)

/-- The method `closePaymentChannelHandler.validate`, with the store it leaves:
no call in it is given `db`. -/
def closePaymentChannelHandler.validate {σ : Type} (h : Handler) (_ctx : Context) (db : σ)
    (tx : Tx) : (Option ClosePaymentChannelMsg × Option Error) × σ :=
  match tx.GetMsg with
  | .error err => ((none, some err), db)
  | .ok (.close msg) => ((some msg, h.ValidateClose msg), db)
  | .ok _ => ((none, some errors.ErrUnknownTxType), db)

/-- The method `closePaymentChannelHandler.Check`, with the store it leaves. -/
def closePaymentChannelHandler.Check {σ : Type} (h : Handler) (ctx : Context) (db : σ)
    (tx : Tx) : (CheckResult × Option Error) × σ :=
  let res : CheckResult := {}
  let validated := closePaymentChannelHandler.validate h ctx db tx
  ((res, validated.1.2), validated.2)

end threaded

/-! ## Predicates used to state the properties -/

/-- The invariants of a record, with its total and its transferred amount named:
what `PaymentChannel.Validate` accepts. -/
structure PaymentChannel.Valid (pc : PaymentChannel) (total transferred : Coin) : Prop where
  src : pc.Src ≠ none
  senderPubkey : pc.SenderPubkey ≠ none
  recipient : pc.Recipient ≠ none
  timeout : 0 < pc.Timeout
  hasTotal : pc.Total = some total
  totalPositive : total.IsPositive = true
  memo : pc.Memo.utf8ByteSize ≤ 128
  hasTransferred : pc.Transferred = some transferred
  nonNegative : transferred.IsNonNegative = true
  leTotal : transferred.Compare total ≤ 0

/-- The conditions the transfer handler's `validate` checks, in its order, for a
transaction carrying `msg` with payment `payment` of amount `amount`, against
the record `pc` of total `total` of which `transferred` was paid out. -/
structure TransferAccepted (h : Handler) (ctx : Context) (db : Store) (tx : Tx)
    (msg : TransferPaymentChannelMsg) (payment : Payment) (pc : PaymentChannel)
    (amount total transferred : Coin) : Prop where
  getMsg : tx.GetMsg = .ok (.transfer msg)
  structural : h.ValidateTransfer msg = none
  hasPayment : msg.Payment = some payment
  chain : GetChainID ctx = payment.ChainId
  channel : PaymentChannelBucket.GetPaymentChannel db payment.ChannelId = .ok pc
  signed : ∃ raw, h.Marshal payment = .ok raw ∧ h.Verify pc.SenderPubkey raw msg.Signature = true
  hasAmount : payment.Amount = some amount
  hasTotal : pc.Total = some total
  sameType : amount.SameType total = true
  leTotal : amount.Compare total ≤ 0
  hasTransferred : pc.Transferred = some transferred
  gtTransferred : 0 < amount.Compare transferred

/-- The transfers `txs` delivered one after the other, each on the store the one
before it left; `none` if one of them panics. -/
def deliverTransfers (h : Handler) (ctx : Context) : Store → List Tx → Option (List DeliverOut)
  | _, [] => some []
  | db, tx :: rest =>
    match transferPaymentChannelHandler.Deliver h ctx db tx with
    | none => none
    | some out =>
      match deliverTransfers h ctx out.db rest with
      | none => none
      | some outs => some (out :: outs)

/-- A transfer for the cumulative amount `amount` on the channel `key`: the message
passes its structural validation, carries the chain ID of the context and a
memo of at most 128 bytes, its payment serializes and `pubkey` verifies the
signature over it; the amount is a coin within bounds of currency `ticker`. -/
structure SignedTransfer (h : Handler) (ctx : Context) (key : Bytes)
    (pubkey : Option PublicKey) (ticker : String) (tx : Tx) (amount : Coin) : Prop where
  wellFormed : ∃ msg payment, tx.GetMsg = .ok (.transfer msg) ∧
    h.ValidateTransfer msg = none ∧ msg.Payment = some payment ∧ payment.ChannelId = key ∧
    GetChainID ctx = payment.ChainId ∧ payment.Amount = some amount ∧
    payment.Memo.utf8ByteSize ≤ 128 ∧
    ∃ raw, h.Marshal payment = .ok raw ∧ h.Verify pubkey raw msg.Signature = true
  inBounds : amount.inBounds = true
  sameTicker : amount.Ticker = ticker

/-! ## The batch decorator of `x/batch/decorator.go` -/

/-- The constant `MaxBatchMessages`. -/
def MaxBatchMessages : Nat := 10

/-- The result of a Go `int64` computation whose exact value is `x`: `x` reduced to
the range of the 64-bit signed integers. -/
def wrapInt64 (x : Int) : Int := (x + 2 ^ 63) % 2 ^ 64 - 2 ^ 63

/-- A value of the interface `weave.Msg`, as the type assertion `msg.(Msg)` of the
decorator tells them apart: a message that does not implement `batch.Msg` (a
nil message included), or one that does, given by what its methods `Validate`
and `MsgList` return (the decorator drops the error `MsgList` returns with
the list). -/
inductive AnyMsg
  | plain (m : Msg)
  | batch (Validate : Option Error) (MsgList : List AnyMsg)

/-- A value of the interface `weave.Tx`: a transaction given by what its `GetMsg`
returns, or the struct `BatchTx` that embeds a transaction `Tx` and carries the
message `msg`. -/
inductive AnyTx
  | plain (GetMsg : Except Error AnyMsg)
  | BatchTx (Tx : AnyTx) (msg : AnyMsg)

/-- The method `GetMsg`; for a `BatchTx` it is `BatchTx.GetMsg`, which returns
`tx.msg, nil`. -/
def AnyTx.GetMsg : AnyTx → Except Error AnyMsg
  | .plain getMsg => getMsg
  | .BatchTx _ msg => .ok msg

/-- The message `ByteArrayList` of the batch codec. -/
structure ByteArrayList where
  Elements : List Bytes

/-- The struct `Decorator` has no field of its own; `Marshal` is
`(*ByteArrayList).Marshal` of the generated codec, which is not among the
sources. -/
structure Decorator where
  Marshal : ByteArrayList → Bytes × Option Error

/-- The interface `weave.Checker`, over any store `σ`: the result, the error and the
store the call leaves. -/
abbrev Checker (σ : Type) := Context → σ → AnyTx → (CheckResult × Option Error) × σ

/-- The interface `weave.Deliverer`, over any store `σ`. -/
abbrev Deliverer (σ : Type) := Context → σ → AnyTx → (DeliverResult × Option Error) × σ

/-- The `for` loop of `Decorator.Check` and of `Decorator.Deliver`: `next` is called
on a `BatchTx` for each message in turn, on the store the call before left; the
first error ends the loop and is returned, otherwise the results are. -/
def Decorator.forEachMsg {σ ρ : Type} (ctx : Context) (tx : AnyTx)
    (next : Context → σ → AnyTx → (ρ × Option Error) × σ) :
    List AnyMsg → σ → Except Error (List ρ) × σ
  | [], store => (.ok [], store)
  | msg :: rest, store =>
    let called := next ctx store (.BatchTx tx msg)
    match called.1.2 with
    | some err => (.error err, called.2)
    | none =>
      match Decorator.forEachMsg ctx tx next rest called.2 with
      | (.error err, store1) => (.error err, store1)
      | (.ok results, store1) => (.ok (called.1.1 :: results), store1)

/-- The method `Decorator.combineChecks`. -/
def Decorator.combineChecks (d : Decorator) (checks : List CheckResult) : CheckResult :=
  let acc := checks.foldl
    (fun (acc : List Bytes × List String × Int × Int) r =>
      (acc.1 ++ [r.Data], acc.2.1 ++ [r.Log], wrapInt64 (acc.2.2.1 + r.GasAllocated),
        wrapInt64 (acc.2.2.2 + r.GasPayment)))
    ([], [], 0, 0)
  { Data := (d.Marshal ⟨acc.1⟩).1
    Log := String.intercalate "\n" acc.2.1
    GasAllocated := acc.2.2.1
    GasPayment := acc.2.2.2 }

/-- The method `Decorator.combineDelivers`. -/
def Decorator.combineDelivers (d : Decorator) (delivers : List DeliverResult) : DeliverResult :=
  let acc := delivers.foldl
    (fun (acc : List Bytes × List String × Int × List (Bytes × Int) × List (Bytes × Bytes)) r =>
      (acc.1 ++ [r.Data], acc.2.1 ++ [r.Log], wrapInt64 (acc.2.2.1 + r.GasUsed),
        (if r.Diff.length > 0 then acc.2.2.2.1 ++ r.Diff else acc.2.2.2.1),
        (if r.Tags.length > 0 then acc.2.2.2.2 ++ r.Tags else acc.2.2.2.2)))
    ([], [], 0, [], [])
  { Data := (d.Marshal ⟨acc.1⟩).1
    Log := String.intercalate "\n" acc.2.1
    GasUsed := acc.2.2.1
    Diff := acc.2.2.2.1
    Tags := acc.2.2.2.2 }

/-- The method `Decorator.Check`. -/
def Decorator.Check {σ : Type} (d : Decorator) (ctx : Context) (store : σ) (tx : AnyTx)
    (next : Checker σ) : (CheckResult × Option Error) × σ :=
  let res : CheckResult := {}
  match tx.GetMsg with
  | .error err => ((res, some err), store)
  | .ok (.plain _) => next ctx store tx
  | .ok (.batch validate msgList) =>
    match validate with
    | some err => ((res, some err), store)
    | none =>
      match Decorator.forEachMsg ctx tx next msgList store with
      | (.error err, store1) => ((res, some err), store1)
      | (.ok checks, store1) => ((d.combineChecks checks, none), store1)

/-- The method `Decorator.Deliver`. -/
def Decorator.Deliver {σ : Type} (d : Decorator) (ctx : Context) (store : σ) (tx : AnyTx)
    (next : Deliverer σ) : (DeliverResult × Option Error) × σ :=
  let res : DeliverResult := {}
  match tx.GetMsg with
  | .error err => ((res, some err), store)
  | .ok (.plain _) => next ctx store tx
  | .ok (.batch validate msgList) =>
    match validate with
    | some err => ((res, some err), store)
    | none =>
      match Decorator.forEachMsg ctx tx next msgList store with
      | (.error err, store1) => ((res, some err), store1)
      | (.ok delivers, store1) => ((d.combineDelivers delivers, none), store1)

/-! ## Predicates used to state the properties of the batch decorator -/

/-- A next stage that, besides doing what `next` does, appends the context, the store
and the transaction it is called with to a record kept beside the store. -/
def logged {σ ρ : Type} (next : Context → σ → AnyTx → (ρ × Option Error) × σ) :
    Context → σ × List (Context × σ × AnyTx) → AnyTx →
      (ρ × Option Error) × (σ × List (Context × σ × AnyTx)) :=
  fun ctx store tx =>
    ((next ctx store.1 tx).1, ((next ctx store.1 tx).2, store.2 ++ [(ctx, store.1, tx)]))

/-- The store after `next` has run on a `BatchTx` for each message of the list in
turn. -/
def storeAfter {σ ρ : Type} (next : Context → σ → AnyTx → (ρ × Option Error) × σ)
    (ctx : Context) (tx : AnyTx) : List AnyMsg → σ → σ
  | [], store => store
  | msg :: rest, store => storeAfter next ctx tx rest (next ctx store (.BatchTx tx msg)).2

/-- One call of `next` per message of the list, in the order of the list: the
context, the store the calls before left, and the `BatchTx` for the message. -/
def batchCalls {σ ρ : Type} (next : Context → σ → AnyTx → (ρ × Option Error) × σ)
    (ctx : Context) (tx : AnyTx) : List AnyMsg → σ → List (Context × σ × AnyTx)
  | [], _ => []
  | msg :: rest, store =>
    (ctx, store, .BatchTx tx msg) ::
      batchCalls next ctx tx rest (next ctx store (.BatchTx tx msg)).2

/-- The results of the calls `batchCalls` lists. -/
def batchResults {σ ρ : Type} (next : Context → σ → AnyTx → (ρ × Option Error) × σ)
    (ctx : Context) (tx : AnyTx) : List AnyMsg → σ → List ρ
  | [], _ => []
  | msg :: rest, store =>
    (next ctx store (.BatchTx tx msg)).1.1 ::
      batchResults next ctx tx rest (next ctx store (.BatchTx tx msg)).2

/-! ## The error taxonomy of `errors/errors.go` -/

/-- The type `RootError`: a code (a `uint32` that is stored and compared, never
computed with) and a description. -/
structure RootError where
  code : Nat
  desc : String
deriving DecidableEq, Repr

/-- A value of the Go interface `error`, as `errors/errors.go` can meet it:

* `nil`, the nil interface;
* `root e`, a `RootError` (a struct value, compared by its fields);
* `wrapped addr Msg Parent`, a `*wrappedError`: the pointer `addr` to a record
  with the fields `Msg` and `Parent`;
* `other addr code text`, a value of a comparable error type declared elsewhere
  (a pointer, as the errors of the standard library are), with the text its
  `Error()` returns; `code` is what its `ABCICode()` returns, and `none` when
  the type has no such method;
* `uncomparable typ code text`, a value of an error type declared elsewhere
  that Go cannot compare (a slice, a map, a struct with such a field): `typ`
  names the dynamic type, `code` and `text` are as for `other`.

The comparison `a == b` of two such values is `GoError.eq`. -/
inductive GoError
  | nil
  | root (e : RootError)
  | wrapped (addr : Nat) (Msg : String) (Parent : GoError)
  | other (addr : Nat) (code : Option Nat) (text : String)
  | uncomparable (typ : Nat) (code : Option Nat) (text : String)
deriving DecidableEq, Repr

/-- The dynamic type of an error value when that type is not comparable, `none`
for the values Go can compare: `nil`, a `RootError`, a pointer. -/
def GoError.uncomparableType : GoError → Option Nat
  | .uncomparable typ _ _ => some typ
  | _ => none

/-- Go's `a == b` on two values of the interface `error`; `none` is the run-time
panic of the comparison of two values of one dynamic type that is not
comparable.  Two values of different dynamic types are unequal; otherwise the
comparison is identity of the pointer for a pointer type and equality of the
fields for a struct: among the values of one run of the program, where one
address holds one record, that is equality of the terms. -/
def GoError.eq (a b : GoError) : Option Bool :=
  match a.uncomparableType, b.uncomparableType with
  | some ta, some tb => if ta = tb then none else some false
  | _, _ => some (decide (a = b))

/-- The map `usedCodes` of type `map[uint32]RootError`. -/
abbrev Registry := Nat → Option RootError

/-- The initial value of `usedCodes`, the empty map. -/
def Registry.empty : Registry := fun _ => none

/-- The function `NewRootError`.  The first component is the value returned,
`none` for the panic; the second is `usedCodes` as the call leaves it. -/
def errors.NewRootError (usedCodes : Registry) (code : Nat) (description : String) :
    Option RootError × Registry :=
  match usedCodes code with
  | some _ => (none, usedCodes)
  | none =>
    let err : RootError := { code := code, desc := description }
    (some err, fun k => if k = err.code then some err else usedCodes k)

/-- The variable `InternalErr`, the value `NewRootError(0, "internal")` returns. -/
def errors.InternalErr : RootError := { code := 0, desc := "internal" }

/-- The variable `UnauthorizedErr`. -/
def errors.UnauthorizedErr : RootError := { code := 1, desc := "unauthorized" }

/-- The variable `NotFoundErr`. -/
def errors.NotFoundErr : RootError := { code := 2, desc := "not found" }

/-- The variable `InvalidMsgErr`. -/
def errors.InvalidMsgErr : RootError := { code := 3, desc := "invalid message" }

/-- The variable `InvalidModelErr`. -/
def errors.InvalidModelErr : RootError := { code := 4, desc := "invalid model" }

/-- The variable `InvalidValueErr`. -/
def errors.InvalidValueErr : RootError := { code := 5, desc := "invalid value" }

/-- The declarations of the `var` block, in the order they run. -/
def errors.declarations : List (Nat × String) :=
  [(0, "internal"), (1, "unauthorized"), (2, "not found"), (3, "invalid message"),
   (4, "invalid model"), (5, "invalid value")]

/-- A run of calls of `NewRootError`, one per entry, from the registry
`usedCodes`: the values returned, and `none` at the first call that panics. -/
def errors.register (usedCodes : Registry) :
    List (Nat × String) → Option (List RootError × Registry)
  | [] => some ([], usedCodes)
  | (code, description) :: rest =>
    match errors.NewRootError usedCodes code description with
    | (none, _) => none
    | (some err, next) =>
      match errors.register next rest with
      | none => none
      | some (errs, last) => some (err :: errs, last)

/-- The map `usedCodes` once the `var` block of the package has run. -/
def errors.usedCodes : Registry :=
  match errors.register Registry.empty errors.declarations with
  | some (_, reg) => reg
  | none => Registry.empty

/-- The method `RootError.Error`. -/
def RootError.Error (e : RootError) : String := e.desc

/-- The method `RootError.ABCICode`. -/
def RootError.ABCICode (e : RootError) : Nat := e.code

/-- The method `RootError.ABCILog`. -/
def RootError.ABCILog (e : RootError) : String := e.desc

/-- The type assertion `err.(coder)` followed by the call of `ABCICode`: `none`
when the value has no such method.  On a `*wrappedError` this is the method
`wrappedError.ABCICode`: the internal code without a parent or over a parent
that is no `coder`, the parent's code otherwise. -/
def GoError.ABCICode : GoError → Option Nat
  | .nil => none
  | .root e => some e.ABCICode
  | .wrapped _ _ Parent =>
    match Parent with
    | .nil => some errors.InternalErr.code
    | _ =>
      match Parent.ABCICode with
      | some c => some c
      | none => some errors.InternalErr.code
  | .other _ code _ => code
  | .uncomparable _ code _ => code

/-- The method `Error` of an error value.  On a `*wrappedError` this is
`wrappedError.Error`: the message alone without a parent, the message, a colon
and the parent's text otherwise.  A call on the nil interface does not occur
in the sources; the empty string stands for it. -/
def GoError.Error : GoError → String
  | .nil => ""
  | .root e => e.Error
  | .wrapped _ Msg Parent =>
    match Parent with
    | .nil => Msg
    | _ => Msg ++ ": " ++ Parent.Error
  | .other _ _ text => text
  | .uncomparable _ _ text => text

/-- The method `ABCILog` of the two error types of `errors/errors.go`:
`RootError.ABCILog` and `wrappedError.ABCILog`; `none` for the values of other
types. -/
def GoError.ABCILog : GoError → Option String
  | .nil => none
  | .root e => some e.ABCILog
  | .wrapped addr Msg Parent =>
    if (GoError.wrapped addr Msg Parent).ABCICode = some errors.InternalErr.code then
      some "internal error"
    else some (GoError.wrapped addr Msg Parent).Error
  | .other _ _ _ => none
  | .uncomparable _ _ _ => none

/-- The function `wrapng`; `addr` is the address of the record it allocates. -/
def errors.wrapng (addr : Nat) (err : GoError) (description : String) : GoError :=
  .wrapped addr description err

/-- The function `Wrap`, its variadic `description` as a list: `none` is the
panic on two descriptions or more.  `deprecatedLegacyWrap` is not among the
sources and is a parameter. -/
def errors.Wrap (deprecatedLegacyWrap : GoError → GoError) (addr : Nat) (err : GoError)
    (description : List String) : Option GoError :=
  match description with
  | [] => some (deprecatedLegacyWrap err)
  | [d] => some (errors.wrapng addr err d)
  | _ => none

/-- The method `RootError.New`. -/
def RootError.New (deprecatedLegacyWrap : GoError → GoError) (addr : Nat) (e : RootError)
    (description : String) : Option GoError :=
  errors.Wrap deprecatedLegacyWrap addr (.root e) [description]

/-- The function `Is`; `none` is the panic of its first line, the comparison
`a == b`. -/
def errors.Is (a b : GoError) : Option Bool :=
  match GoError.eq a b with
  | none => none
  | some true => some true
  | some false =>
    match a.ABCICode with
    | none => some false
    | some ac =>
      if ac = errors.InternalErr.code then some false
      else
        match b.ABCICode with
        | none => some false
        | some bc =>
          if bc = errors.InternalErr.code then some false
          else some (ac == bc)

/-! ## Predicates used to state the properties of the error taxonomy -/

/-- The two values are of one dynamic type that is not comparable: the case in
which Go's `a == b` panics. -/
abbrev GoError.bothUncomparable (a b : GoError) : Prop :=
  a.uncomparableType ≠ none ∧ a.uncomparableType = b.uncomparableType

/-- The root error `r` is one of the values of the registry. -/
def Registry.Registered (usedCodes : Registry) (r : RootError) : Prop :=
  ∃ code, usedCodes code = some r

/-- The registries a program can be in: the empty map, and what a call of
`NewRootError` leaves of a registry the program can be in. -/
inductive Registry.Reachable : Registry → Prop
  | start : Registry.Reachable Registry.empty
  | call {usedCodes : Registry} (h : Registry.Reachable usedCodes) (code : Nat)
      (description : String) :
      Registry.Reachable (errors.NewRootError usedCodes code description).2

/-- Successive calls of `Wrap`, each with one description and allocating at the
address given with it, the innermost first. -/
def errors.wraps (deprecatedLegacyWrap : GoError → GoError) (err : GoError) :
    List (Nat × String) → Option GoError
  | [] => some err
  | (addr, d) :: rest =>
    match errors.Wrap deprecatedLegacyWrap addr err [d] with
    | none => none
    | some e => errors.wraps deprecatedLegacyWrap e rest

/-- The error at the bottom of a chain of parents. -/
def GoError.bottom : GoError → GoError
  | .wrapped _ _ Parent => Parent.bottom
  | e => e

/-! ## The messages of `x/cash/msg.go` -/

/-- Modelled from the spec: `x.IsEmpty` (`x/coin.go` is not among the sources): no
coin, or a coin of no value. -/
def x.IsEmpty (c : Option Coin) : Bool :=
  match c with
  | none => true
  | some c => c.IsZero

/-- The constant `pathSendMsg`. -/
def pathSendMsg : String := "cash/send"

/-- The constant `sendTxCost`. -/
def sendTxCost : Int := 100

/-- The constant `maxMemoSize`. -/
def maxMemoSize : Nat := 128

/-- The constant `maxRefSize`. -/
def maxRefSize : Nat := 64

/-- The message `SendMsg`; `Amount` is a pointer, `Memo` a string whose `len` is
its number of bytes. -/
structure SendMsg where
  Src : Bytes
  Dest : Bytes
  Amount : Option Coin
  Memo : String
  Ref : Bytes
deriving DecidableEq, Repr

/-- What the messages of `x/cash/msg.go` call outside the sources:
`deprecatedLegacyWrap` of the package `errors`, the method `x.Coin.Validate`
and the method `weave.Address.Validate`; the two methods return an error or
`nil`. -/
structure Externals where
  deprecatedLegacyWrap : GoError → GoError
  CoinValidate : Coin → GoError
  AddressValidate : Bytes → GoError

/-- The method `SendMsg.Validate`: the error returned, `.nil` for a message that
passes, and `none` for a panic.  `addr` is the address at which the error
returned is allocated. -/
def SendMsg.Validate (ext : Externals) (addr : Nat) (s : SendMsg) : Option GoError :=
  match s.Amount with
  | none =>
    -- over a nil `amt` the call `amt.IsPositive()` is a nil dereference
    if x.IsEmpty none then
      errors.InvalidValueErr.New ext.deprecatedLegacyWrap addr "non-positive amount"
    else none
  | some amt =>
    if x.IsEmpty (some amt) || !amt.IsPositive then
      errors.InvalidValueErr.New ext.deprecatedLegacyWrap addr "non-positive amount"
    else if ext.CoinValidate amt ≠ .nil then
      errors.Wrap ext.deprecatedLegacyWrap addr (ext.CoinValidate amt) ["invalid amount"]
    else if ext.AddressValidate s.Src ≠ .nil then
      errors.Wrap ext.deprecatedLegacyWrap addr (ext.AddressValidate s.Src)
        ["invalid source address"]
    else if ext.AddressValidate s.Dest ≠ .nil then
      errors.Wrap ext.deprecatedLegacyWrap addr (ext.AddressValidate s.Dest)
        ["invalid destination address"]
    else if s.Memo.utf8ByteSize > maxMemoSize then
      errors.InvalidValueErr.New ext.deprecatedLegacyWrap addr "memo too long"
    else if s.Ref.length > maxRefSize then
      errors.InvalidValueErr.New ext.deprecatedLegacyWrap addr "reference too long"
    else some .nil

/-- The message `FeeInfo`; `Fees` is a pointer. -/
structure FeeInfo where
  Payer : Bytes
  Fees : Option Coin
deriving DecidableEq, Repr

/-- The method `FeeInfo.Validate`: the error returned, `.nil` for a fee that
passes, and `none` for a panic.  The receiver is a pointer, `none` when it is
nil; `ErrUnrecognizedAddress` is the constructor of that name of the package
`errors`, which is not among the sources, and `addr` is the address at which
the error returned is allocated. -/
def FeeInfo.Validate (ext : Externals) (ErrUnrecognizedAddress : Bytes → GoError) (addr : Nat)
    (f : Option FeeInfo) : Option GoError :=
  match f with
  | none => some (ErrUnrecognizedAddress [])
  | some f =>
    match f.Fees with
    | none => errors.InvalidValueErr.New ext.deprecatedLegacyWrap addr "nil fee"
    | some fee =>
      if ext.CoinValidate fee ≠ .nil then
        errors.Wrap ext.deprecatedLegacyWrap addr (ext.CoinValidate fee) ["invali fee"]
      else if !fee.IsNonNegative then
        errors.InvalidValueErr.New ext.deprecatedLegacyWrap addr "negative fee"
      else if ext.AddressValidate f.Payer ≠ .nil then
        errors.Wrap ext.deprecatedLegacyWrap addr (ext.AddressValidate f.Payer)
          ["invalid payer"]
      else some .nil

/-- A pointer `*SendMsg` that is not nil: its address and the message it points
to. -/
structure SendMsgPtr where
  addr : Nat
  msg : SendMsg
deriving DecidableEq, Repr

/-- The method `SendMsg.DefaultSource`: the pointer returned, which is the
receiver `s` itself or a message allocated at the address `fresh`.  The
getters read the fields of the receiver; nothing is written to it. -/
def SendMsg.DefaultSource (fresh : Nat) (s : SendMsgPtr) (addr : Bytes) : SendMsgPtr :=
  if s.msg.Src.length ≠ 0 then s
  else
    { addr := fresh
      msg := { Src := addr, Dest := s.msg.Dest, Amount := s.msg.Amount, Memo := s.msg.Memo,
               Ref := s.msg.Ref } }

/-! ## Predicates used to state the properties of the cash messages -/

/-- The error `err` is of the invalid-value class, as the tests check it. -/
def IsInvalidValue (err : GoError) : Prop :=
  errors.Is err (.root errors.InvalidValueErr) = some true

/-- A message with a positive amount that `x.Coin.Validate` passes, a source and
a destination that `weave.Address.Validate` passes, a memo of at most 128 bytes
and a reference of at most 64 bytes. -/
def SendMsg.WellFormed (ext : Externals) (s : SendMsg) : Prop :=
  ∃ amt, s.Amount = some amt ∧ amt.IsPositive = true ∧ ext.CoinValidate amt = .nil
    ∧ ext.AddressValidate s.Src = .nil ∧ ext.AddressValidate s.Dest = .nil
    ∧ s.Memo.utf8ByteSize ≤ 128 ∧ s.Ref.length ≤ 64

/-- A fee that passes `FeeInfo.Validate`: the fee is there, `x.Coin.Validate`
passes it, it is not negative, and `weave.Address.Validate` passes the
payer. -/
def FeeInfo.WellFormed (ext : Externals) (f : Option FeeInfo) : Prop :=
  ∃ g fee, f = some g ∧ g.Fees = some fee ∧ ext.CoinValidate fee = .nil
    ∧ fee.IsNonNegative = true ∧ ext.AddressValidate g.Payer = .nil

/-! ## A concrete setting, for the examples -/

/-- A handler for the examples: the signer is the address `[1]`, the ledger is
`cash.MoveCoins`, a payment is serialized to its channel ID, the key `[9]`
signs a payload by repeating it, and the escrow address of a channel is its
ID behind the byte `112`. -/
def demoHandler : Handler where
  HasAddress := fun _ a => a == some [1]
  MoveCoins := cash.MoveCoins
  Verify := fun pk raw sig => pk == some [9] && sig == some raw
  Marshal := fun p => .ok p.ChannelId
  NewConditionAddress := fun _ _ data => some (112 :: data)
  ValidateCreate := fun m =>
    if m.Total.isSome then none else some (.code .invalidCondition "invalid total")
  ValidateTransfer := fun m =>
    if m.Payment.isSome then none else some (.code .missingCondition "missing payment")
  ValidateClose := fun m =>
    if m.ChannelId = [] then some (.code .missingCondition "missing channel") else none

/-- A context at height 10 of the chain `chain`. -/
def demoCtx : Context := { Height := some 10, ChainID := "chain" }

/-- A channel of 100 FOO from `[1]` to `[2]`, of which `paid` whole units were
transferred, open until height 50. -/
def demoChannel (paid : Int) : PaymentChannel where
  Src := some [1]
  SenderPubkey := some [9]
  Recipient := some [2]
  Total := some ⟨100, 0, "FOO"⟩
  Timeout := 50
  Memo := ""
  Transferred := some ⟨paid, 0, "FOO"⟩

/-- A store holding `demoChannel paid` under the first key of the sequence, its
escrow account holding what is left of the 100 FOO. -/
def demoStore (paid : Int) : Store where
  paychans := fun k => if k = seqKey 1 then some (demoChannel paid) else none
  seq := 1
  balances := fun a t =>
    if a = some (112 :: seqKey 1) ∧ t = "FOO" then (100 - paid) * FracUnit else 0

/-- A transfer on the first channel for the cumulative amount of `amount` whole
FOO, with the given signature. -/
def demoTransferTx (amount : Int) (sig : Option Signature) : Tx where
  GetMsg := .ok (.transfer
    { Payment := some { ChainId := "chain", ChannelId := seqKey 1,
                        Amount := some ⟨amount, 0, "FOO"⟩, Memo := "latest" }
      Signature := sig })

/-- A close of the first channel. -/
def demoCloseTx : Tx where
  GetMsg := .ok (.close { ChannelId := seqKey 1, Memo := "" })

/-- A store without any channel, in which the address `[1]` holds `funds` whole FOO. -/
def demoFundedStore (funds : Int) : Store where
  paychans := fun _ => none
  seq := 0
  balances := fun a t => if a = some [1] ∧ t = "FOO" then funds * FracUnit else 0

/-- The message creating `demoChannel 0`. -/
def demoCreateMsg : CreatePaymentChannelMsg where
  Src := some [1]
  SenderPubkey := some [9]
  Recipient := some [2]
  Total := some ⟨100, 0, "FOO"⟩
  Timeout := 50
  Memo := ""

/-- The transaction carrying `demoCreateMsg`. -/
def demoCreateTx : Tx where
  GetMsg := .ok (.create demoCreateMsg)

/-- The store `demoStore 40` after the last 60 FOO went from the escrow account to
`[2]` and the record was deleted. -/
def demoExhaustedStore : Store :=
  (PaymentChannelBucket.Delete
    (cash.MoveCoins (demoStore 40) (some (112 :: seqKey 1)) (some [2]) ⟨60, 0, "FOO"⟩).1
    (seqKey 1)).1

/-- The store `demoStore 40` with every balance at zero: the escrow account cannot pay. -/
def demoDrainedStore : Store := { demoStore 40 with balances := fun _ _ => 0 }

/-- The context `demoCtx` at height 50, the timeout of `demoChannel`. -/
def demoLateCtx : Context := { Height := some 50, ChainID := "chain" }

/-- The handler `demoHandler` with the recipient `[2]` as the signer. -/
def demoRecipientHandler : Handler :=
  { demoHandler with HasAddress := fun _ a => a == some [2] }

/-- The record `demoChannel 40` with a memo of `n` bytes. -/
def demoMemoChannel (n : Nat) : PaymentChannel :=
  { demoChannel 40 with Memo := String.mk (List.replicate n 'a') }

/-- The record `demoChannel 40` with the amount transferred in another currency. -/
def demoMixedChannel : PaymentChannel :=
  { demoChannel 40 with Transferred := some ⟨40, 0, "BAR"⟩ }

/-- A store holding `demoMixedChannel` under the first key of the sequence. -/
def demoMixedStore : Store :=
  { demoStore 40 with
    paychans := fun k => if k = seqKey 1 then some demoMixedChannel else none }

/-- A next stage for the examples: the create handler of the payment channels behind
the batch decorator (a panic of the handler is answered as an internal error). -/
def demoDeliverer : Deliverer Store := fun ctx db tx =>
  match tx.GetMsg with
  | .error err => (({}, some err), db)
  | .ok (.batch _ _) => (({}, some errors.ErrUnknownTxType), db)
  | .ok (.plain m) =>
    match createPaymentChannelHandler.Deliver demoHandler ctx db ⟨.ok m⟩ with
    | none => (({}, some (.code .internal "panic")), db)
    | some out => ((out.res, out.err), out.db)

/-- The `Check` side of `demoDeliverer`. -/
def demoChecker : Checker Store := fun ctx db tx =>
  match tx.GetMsg with
  | .error err => (({}, some err), db)
  | .ok (.batch _ _) => (({}, some errors.ErrUnknownTxType), db)
  | .ok (.plain m) => (createPaymentChannelHandler.Check demoHandler ctx db ⟨.ok m⟩, db)

/-- A decorator for the examples: a list of byte strings is serialized by putting
the length of each in front of it. -/
def demoDecorator : Decorator where
  Marshal := fun l => ((l.Elements.map fun e => e.length :: e).flatten, none)

/-- The create message `demoCreateMsg` with the timeout `timeout`, as a `weave.Msg`. -/
def demoCreate (timeout : Int) : AnyMsg :=
  .plain (.create { demoCreateMsg with Timeout := timeout })

/-- A transaction whose message is a valid batch of the given messages. -/
def demoBatchTx (msgs : List AnyMsg) : AnyTx := .plain (.ok (.batch none msgs))

/-- Three creates of a channel of 100 FOO each, open until the heights 50, 60, 70. -/
def demoGoodBatch : List AnyMsg := [demoCreate 50, demoCreate 60, demoCreate 70]

/-- Three creates of which the second has its timeout, 5, below the height 10 of
`demoCtx`. -/
def demoBadBatch : List AnyMsg := [demoCreate 50, demoCreate 5, demoCreate 70]

/-- A batch message over the given sub-messages whose `Validate` is the size check of
the batch: at least one and at most `MaxBatchMessages` sub-messages. -/
def demoBatchMsg (msgs : List AnyMsg) : AnyMsg :=
  .batch
    (if msgs.length = 0 ∨ msgs.length > MaxBatchMessages then
      some (.code .invalidMsg "invalid batch size") else none)
    msgs

/-- An instance of the collaborators of the cash messages: a ticker is three or
four upper-case letters, an address is twenty bytes. -/
def demoExternals : Externals where
  deprecatedLegacyWrap := fun err => err
  CoinValidate := fun c =>
    if 3 ≤ c.Ticker.length ∧ c.Ticker.length ≤ 4 ∧ c.Ticker.data.all Char.isUpper = true then
      .nil
    else .wrapped 0 "invalid currency" (.root errors.InvalidValueErr)
  AddressValidate := fun a =>
    if a.length = 20 then .nil else .other 0 none "unrecognized address"

/-- An address of twenty bytes. -/
def demoAddress (b : Nat) : Bytes := List.replicate 20 b

/-- A message that sends ten `FOO` from one address to another. -/
def demoSendMsg : SendMsg :=
  { Src := demoAddress 1, Dest := demoAddress 2, Amount := some ⟨10, 0, "FOO"⟩,
    Memo := "rent", Ref := [1, 2, 3] }

/-- The message of `demoSendMsg` with an amount of the ticker "fab9". -/
def demoUglyMsg : SendMsg :=
  { demoSendMsg with Amount := some ⟨3, 4, "fab9"⟩ }

/-- The constructor `errors.ErrUnrecognizedAddress` for the examples: an error of
another type with a code of its own. -/
def demoErrUnrecognizedAddress : Bytes → GoError :=
  fun _ => .other 0 (some 1005) "unrecognized address"

/-- A fee of nothing, in `BAR`, paid by a given address. -/
def demoZeroFee : FeeInfo := { Payer := demoAddress 7, Fees := some ⟨0, 0, "BAR"⟩ }

/-- The record `demoChannel 0` with the amount transferred written as no whole
unit and a fractional part of one whole unit. -/
def demoUnnormalisedChannel : PaymentChannel :=
  { demoChannel 0 with Transferred := some ⟨0, 1000000000, "FOO"⟩ }

/-- A store holding `demoUnnormalisedChannel` under the first key of the sequence. -/
def demoUnnormalisedStore : Store :=
  { demoStore 0 with
    paychans := fun k => if k = seqKey 1 then some demoUnnormalisedChannel else none }

/-- The message `demoCreateMsg` with the escrow address of the first channel as
the recipient. -/
def demoEscrowCreateMsg : CreatePaymentChannelMsg :=
  { demoCreateMsg with Recipient := some (112 :: seqKey 1) }

/-- The transaction carrying `demoEscrowCreateMsg`. -/
def demoEscrowCreateTx : Tx where
  GetMsg := .ok (.create demoEscrowCreateMsg)

/-! ## Helper lemmas -/

theorem PaymentChannel.valid_of_validate {pc : PaymentChannel} (hv : pc.Validate = none) :
    ∃ total transferred, pc.Valid total transferred := by
  unfold PaymentChannel.Validate at hv
  split at hv
  · simp at hv
  · rename_i h1
    split at hv
    · simp at hv
    · rename_i h2
      split at hv
      · simp at hv
      · rename_i h3
        split at hv
        · simp at hv
        · rename_i h4
          split at hv
          · simp at hv
          · rename_i total htot
            split at hv
            · simp at hv
            · rename_i h5
              split at hv
              · simp at hv
              · rename_i h6
                split at hv
                · simp at hv
                · rename_i transferred htr
                  split at hv
                  · simp at hv
                  · rename_i h7
                    simp only [Bool.or_eq_true, not_or, Bool.not_eq_true, Bool.not_eq_false_eq_eq_true,
                      decide_eq_true_eq, Bool.not_eq_true', Bool.not_eq_eq_eq_not, Bool.not_true,
                      Bool.not_false] at h7 h5
                    exact ⟨total, transferred, h1, h2, h3, not_le.mp h4, htot, by simpa using h5,
                      not_lt.mp h6, htr, by simpa using h7.1, by simpa using h7.2⟩

theorem PaymentChannel.validate_of_valid {pc : PaymentChannel} {total transferred : Coin}
    (hv : pc.Valid total transferred) : pc.Validate = none := by
  have h6 := hv.leTotal
  simp [PaymentChannel.Validate, hv.src, hv.senderPubkey, hv.recipient, hv.timeout, hv.hasTotal,
    hv.totalPositive, not_lt.mpr hv.memo, hv.hasTransferred, hv.nonNegative, not_lt.mpr h6]

theorem PaymentChannelBucket.getPaymentChannel_ok_iff {db : Store} {id : Bytes}
    {pc : PaymentChannel} :
    PaymentChannelBucket.GetPaymentChannel db id = .ok pc ↔
      db.paychans id = some pc ∧ pc.Validate = none := by
  unfold PaymentChannelBucket.GetPaymentChannel orm.Bucket.Get
  cases hs : db.paychans id with
  | none => simp
  | some pc0 =>
    cases hv : pc0.Validate with
    | some e =>
      simp only [hv, Option.some.injEq, false_iff, not_and, reduceCtorEq]
      intro heq; subst heq; simp [hv]
    | none =>
      simp only [hv, Except.ok.injEq, Option.some.injEq]
      constructor
      · intro heq; subst heq; exact ⟨rfl, hv⟩
      · intro heq; exact heq.1

theorem PaymentChannelBucket.getPaymentChannel_of_valid {db : Store} {id : Bytes}
    {pc : PaymentChannel} (hs : db.paychans id = some pc) (hv : pc.Validate = none) :
    PaymentChannelBucket.GetPaymentChannel db id = .ok pc :=
  PaymentChannelBucket.getPaymentChannel_ok_iff.mpr ⟨hs, hv⟩

theorem PaymentChannelBucket.getPaymentChannel_absent {db : Store} {id : Bytes}
    (hs : db.paychans id = none) :
    PaymentChannelBucket.GetPaymentChannel db id
      = .error (errors.ECode .notFound "payment channel not found") := by
  simp [PaymentChannelBucket.GetPaymentChannel, orm.Bucket.Get, hs]

theorem transfer_validate_of_accepted {h : Handler} {ctx : Context} {db : Store} {tx : Tx}
    {msg : TransferPaymentChannelMsg} {payment : Payment} {pc : PaymentChannel}
    {amount total transferred : Coin}
    (acc : TransferAccepted h ctx db tx msg payment pc amount total transferred) :
    transferPaymentChannelHandler.validate h ctx db tx = some (some msg, none) := by
  obtain ⟨raw, hraw, hver⟩ := acc.signed
  have h1 := acc.leTotal
  have h2 := acc.gtTransferred
  simp [transferPaymentChannelHandler.validate, acc.getMsg, acc.structural, acc.hasPayment,
    acc.chain, acc.channel, hraw, hver, acc.hasAmount, acc.hasTotal, acc.sameType,
    acc.hasTransferred, not_lt.mpr h1, not_le.mpr h2]

theorem transfer_validate_accepted {h : Handler} {ctx : Context} {db : Store} {tx : Tx}
    {m : Option TransferPaymentChannelMsg}
    (hv : transferPaymentChannelHandler.validate h ctx db tx = some (m, none)) :
    ∃ msg payment pc amount total transferred, m = some msg ∧
      TransferAccepted h ctx db tx msg payment pc amount total transferred := by
  unfold transferPaymentChannelHandler.validate at hv
  split at hv
  · simp at hv
  · rename_i msg hmsg
    split at hv
    · simp at hv
    · rename_i hstruct
      split at hv
      · simp at hv
      · rename_i payment hpay
        split at hv
        · simp at hv
        · rename_i hchain
          split at hv
          · simp at hv
          · rename_i pc hpc
            split at hv
            · simp at hv
            · rename_i raw hraw
              split at hv
              · simp at hv
              · rename_i hver
                split at hv
                · simp at hv
                · rename_i amount hamt
                  split at hv
                  · simp at hv
                  · rename_i total htot
                    split at hv
                    · simp at hv
                    · rename_i hsame
                      split at hv
                      · simp at hv
                      · rename_i hle
                        split at hv
                        · simp at hv
                        · rename_i transferred htr
                          split at hv
                          · simp at hv
                          · rename_i hgt
                            simp at hv
                            exact ⟨msg, payment, pc, amount, total, transferred, hv.symm, hmsg,
                              hstruct, hpay, not_not.mp hchain, hpc,
                              ⟨raw, hraw, by simpa using hver⟩, hamt, htot, by simpa using hsame,
                              not_lt.mp hle, htr, not_le.mp hgt⟩
  · simp at hv

/-! ## Transfers: stale amounts -/

/-- Claim C1.  A transfer whose cumulative amount is not strictly greater than the
amount already transferred on the stored channel it names is rejected by the
transfer handler's `validate`, whatever the signature check answers: `Check`
and `Deliver` both return an error, and `Deliver` returns the store it was
given, no coin moved and no record saved. -/
theorem transfer_stale_amount_rejected (h : Handler) (ctx : Context) (db : Store) (tx : Tx)
    (msg : TransferPaymentChannelMsg) (payment : Payment) (amount transferred : Coin)
    (pc : PaymentChannel)
    (hmsg : tx.GetMsg = .ok (.transfer msg)) (hpay : msg.Payment = some payment)
    (hamt : payment.Amount = some amount)
    (hpc : db.paychans payment.ChannelId = some pc)
    (htr : pc.Transferred = some transferred)
    (hle : amount.Compare transferred ≤ 0) :
    ∃ m err,
      transferPaymentChannelHandler.validate h ctx db tx = some (m, some err) ∧
      transferPaymentChannelHandler.Check h ctx db tx
        = some ({}, some (errors.E err "invalid message")) ∧
      transferPaymentChannelHandler.Deliver h ctx db tx = some ⟨{}, some err, db⟩ := by
  have key : ∃ m err,
      transferPaymentChannelHandler.validate h ctx db tx = some (m, some err) := by
    unfold transferPaymentChannelHandler.validate
    simp only [hmsg, hpay]
    cases hv : h.ValidateTransfer msg with
    | some e => exact ⟨_, _, rfl⟩
    | none =>
      simp only []
      split
      · exact ⟨_, _, rfl⟩
      · cases hget : PaymentChannelBucket.GetPaymentChannel db payment.ChannelId with
        | error e => exact ⟨_, _, rfl⟩
        | ok pc0 =>
          obtain ⟨hs, hval⟩ := PaymentChannelBucket.getPaymentChannel_ok_iff.mp hget
          have hpc0 : pc0 = pc := by rw [hpc] at hs; exact (Option.some.inj hs).symm
          subst hpc0
          obtain ⟨total, tr0, valid⟩ := PaymentChannel.valid_of_validate hval
          simp only [hamt, valid.hasTotal, htr]
          cases h.Marshal payment with
          | error e => exact ⟨_, _, rfl⟩
          | ok raw =>
            simp only []
            split_ifs <;> exact ⟨_, _, rfl⟩
  obtain ⟨m, err, hv⟩ := key
  refine ⟨m, err, hv, ?_, ?_⟩
  · simp [transferPaymentChannelHandler.Check, hv]
  · simp [transferPaymentChannelHandler.Deliver, hv]

/-- Claim C1, witness: the channel has 40 of 100 FOO transferred; a transfer for
the cumulative amount 40 is rejected. -/
theorem transfer_stale_amount_rejected_witness :
    ∃ m err,
      transferPaymentChannelHandler.validate demoHandler demoCtx (demoStore 40)
        (demoTransferTx 40 (some (seqKey 1))) = some (m, some err) ∧
      transferPaymentChannelHandler.Check demoHandler demoCtx (demoStore 40)
        (demoTransferTx 40 (some (seqKey 1))) = some ({}, some (errors.E err "invalid message")) ∧
      transferPaymentChannelHandler.Deliver demoHandler demoCtx (demoStore 40)
        (demoTransferTx 40 (some (seqKey 1))) = some ⟨{}, some err, demoStore 40⟩ :=
  transfer_stale_amount_rejected demoHandler demoCtx (demoStore 40)
    (demoTransferTx 40 (some (seqKey 1))) _ _ ⟨40, 0, "FOO"⟩ ⟨40, 0, "FOO"⟩ (demoChannel 40)
    rfl rfl rfl (by simp [demoStore]) rfl (by decide)


theorem Coin.units_ofUnits (u : Int) (t : String) : (Coin.ofUnits u t).units = u := by
  simp only [Coin.units, Coin.ofUnits]
  have := Int.tdiv_add_tmod u FracUnit
  linarith

theorem Coin.isZero_ofUnits (u : Int) (t : String) :
    (Coin.ofUnits u t).IsZero = true ↔ u = 0 := by
  constructor
  · intro hz
    have hu := Coin.units_ofUnits u t
    simp only [Coin.IsZero, Bool.and_eq_true, beq_iff_eq] at hz
    simp only [Coin.units, hz.1, hz.2] at hu
    omega
  · intro hu
    subst hu
    simp [Coin.IsZero, Coin.ofUnits]

theorem Coin.units_lt_of_compare_pos {a b : Coin} (ha : a.inBounds = true)
    (hb : b.inBounds = true) (hc : 0 < a.Compare b) : b.units < a.units := by
  simp only [Coin.inBounds, Bool.and_eq_true, decide_eq_true_eq, FracUnit] at ha hb
  simp only [Coin.units, FracUnit]
  unfold Coin.Compare at hc
  split_ifs at hc <;> omega


theorem Coin.subtract_of_sameType {a b : Coin} (hs : a.SameType b = true) :
    a.Subtract b = .ok (Coin.ofUnits (a.units - b.units) a.Ticker) := by
  simp [Coin.Subtract, hs]

theorem Coin.subtract_of_not_sameType {a b : Coin} (hs : a.SameType b = false) :
    a.Subtract b = .error (.code .invalidValue "invalid currency") := by
  simp [Coin.Subtract, hs]

theorem Coin.sameType_trans_symm {a b c : Coin} (h1 : a.SameType c = true)
    (h2 : b.SameType c = true) : a.SameType b = true := by
  simp only [Coin.SameType, beq_iff_eq] at *
  rw [h1, h2]

theorem TransferAccepted.valid {h : Handler} {ctx : Context} {db : Store} {tx : Tx}
    {msg : TransferPaymentChannelMsg} {payment : Payment} {pc : PaymentChannel}
    {amount total transferred : Coin}
    (acc : TransferAccepted h ctx db tx msg payment pc amount total transferred) :
    pc.Valid total transferred := by
  obtain ⟨_, hval⟩ := PaymentChannelBucket.getPaymentChannel_ok_iff.mp acc.channel
  obtain ⟨t, tr, valid⟩ := PaymentChannel.valid_of_validate hval
  have h1 : t = total := Option.some.inj (valid.hasTotal.symm.trans acc.hasTotal)
  have h2 : tr = transferred := Option.some.inj (valid.hasTransferred.symm.trans acc.hasTransferred)
  subst h1; subst h2; exact valid

theorem transfer_deliver_of_accepted {h : Handler} {ctx : Context} {db : Store} {tx : Tx}
    {msg : TransferPaymentChannelMsg} {payment : Payment} {pc : PaymentChannel}
    {amount total transferred : Coin}
    (acc : TransferAccepted h ctx db tx msg payment pc amount total transferred)
    (hst : transferred.SameType total = true) :
    transferPaymentChannelHandler.Deliver h ctx db tx =
      if (Coin.ofUnits (amount.units - transferred.units) amount.Ticker).IsZero then
        some ⟨{}, some (ErrInvalidAmount (some amount)), db⟩
      else
        match (h.MoveCoins db (paymentChannelAccount h payment.ChannelId) pc.Recipient
            (Coin.ofUnits (amount.units - transferred.units) amount.Ticker)).2 with
        | some err => some ⟨{}, some err,
            (h.MoveCoins db (paymentChannelAccount h payment.ChannelId) pc.Recipient
              (Coin.ofUnits (amount.units - transferred.units) amount.Ticker)).1⟩
        | none =>
          if amount.Equals total then
            some ⟨{}, none, (PaymentChannelBucket.Delete
              (h.MoveCoins db (paymentChannelAccount h payment.ChannelId) pc.Recipient
                (Coin.ofUnits (amount.units - transferred.units) amount.Ticker)).1
              payment.ChannelId).1⟩
          else
            some ⟨{}, (PaymentChannelBucket.Save
              (h.MoveCoins db (paymentChannelAccount h payment.ChannelId) pc.Recipient
                (Coin.ofUnits (amount.units - transferred.units) amount.Ticker)).1
              payment.ChannelId { pc with Transferred := some amount, Memo := payment.Memo }).2,
              (PaymentChannelBucket.Save
              (h.MoveCoins db (paymentChannelAccount h payment.ChannelId) pc.Recipient
                (Coin.ofUnits (amount.units - transferred.units) amount.Ticker)).1
              payment.ChannelId { pc with Transferred := some amount, Memo := payment.Memo }).1⟩ := by
  have hsub := Coin.subtract_of_sameType (Coin.sameType_trans_symm acc.sameType hst)
  simp only [transferPaymentChannelHandler.Deliver, transfer_validate_of_accepted acc,
    acc.hasPayment, acc.channel, acc.hasAmount, acc.hasTransferred, hsub, acc.hasTotal]
  split_ifs <;> rfl


theorem transfer_deliver_of_mismatch {h : Handler} {ctx : Context} {db : Store} {tx : Tx}
    {msg : TransferPaymentChannelMsg} {payment : Payment} {pc : PaymentChannel}
    {amount total transferred : Coin}
    (acc : TransferAccepted h ctx db tx msg payment pc amount total transferred)
    (hst : transferred.SameType total = false) :
    transferPaymentChannelHandler.Deliver h ctx db tx
      = some ⟨{}, some (ErrInvalidAmount (some amount)), db⟩ := by
  have hne : amount.SameType transferred = false := by
    have h1 := acc.sameType
    simp only [Coin.SameType, beq_iff_eq, beq_eq_false_iff_ne, ne_eq] at *
    rw [h1]
    exact fun e => hst e.symm
  simp only [transferPaymentChannelHandler.Deliver, transfer_validate_of_accepted acc,
    acc.hasPayment, acc.channel, acc.hasAmount, acc.hasTransferred, Coin.Subtract, hne,
    Bool.false_eq_true, if_false]

theorem Coin.isNonNegative_of_inBounds {c : Coin} (hc : c.inBounds = true) :
    c.IsNonNegative = true := by
  simp only [Coin.inBounds, Bool.and_eq_true, decide_eq_true_eq] at hc
  simp [Coin.IsNonNegative, hc.1.1, hc.1.2]

theorem Coin.ofUnits_isZero_false {a b : Coin} (ha : a.inBounds = true)
    (hb : b.inBounds = true) (hc : 0 < a.Compare b) (t : String) :
    (Coin.ofUnits (a.units - b.units) t).IsZero = false := by
  have hlt := Coin.units_lt_of_compare_pos ha hb hc
  cases hz : (Coin.ofUnits (a.units - b.units) t).IsZero with
  | false => rfl
  | true => have := (Coin.isZero_ofUnits _ _).mp hz; omega

theorem TransferAccepted.updated_valid {h : Handler} {ctx : Context} {db : Store} {tx : Tx}
    {msg : TransferPaymentChannelMsg} {payment : Payment} {pc : PaymentChannel}
    {amount total transferred : Coin}
    (acc : TransferAccepted h ctx db tx msg payment pc amount total transferred)
    (hamt : amount.inBounds = true) (hmemo : payment.Memo.utf8ByteSize ≤ 128) :
    ({ pc with Transferred := some amount, Memo := payment.Memo } : PaymentChannel).Validate
      = none := by
  have v := acc.valid
  refine @PaymentChannel.validate_of_valid _ total amount ?_
  exact ⟨v.src, v.senderPubkey, v.recipient, v.timeout, v.hasTotal, v.totalPositive, hmemo, rfl,
      Coin.isNonNegative_of_inBounds hamt, acc.leTotal⟩

/-! ## Transfers: the effect of `Deliver` -/

/-- C2, the case that fails: against the stored record with a total of 100 FOO
and 40 BAR transferred, the signed transfer for 100 FOO, the total, passes
`validate`; `Deliver` returns the invalid-amount error and the store as it
was, so nothing is moved and the record is not deleted.  Against the stored
record with `Transferred` written as 0 whole units and 1000000000 fractional
units, the signed transfer for 1 FOO passes `validate` and `Deliver` again
returns the invalid-amount error and the store as it was. -/
theorem transfer_deliver_moves_nothing :
    demoMixedStore.paychans (seqKey 1) = some demoMixedChannel ∧
    demoMixedChannel.Validate = none ∧
    transferPaymentChannelHandler.validate demoHandler demoCtx demoMixedStore
        (demoTransferTx 100 (some (seqKey 1)))
      = some (some { Payment := some { ChainId := "chain", ChannelId := seqKey 1,
                                       Amount := some ⟨100, 0, "FOO"⟩, Memo := "latest" }
                     Signature := some (seqKey 1) }, none) ∧
    demoMixedChannel.Total = some ⟨100, 0, "FOO"⟩ ∧
    transferPaymentChannelHandler.Deliver demoHandler demoCtx demoMixedStore
        (demoTransferTx 100 (some (seqKey 1)))
      = some ⟨{}, some (ErrInvalidAmount (some ⟨100, 0, "FOO"⟩)), demoMixedStore⟩ ∧
    demoUnnormalisedStore.paychans (seqKey 1) = some demoUnnormalisedChannel ∧
    demoUnnormalisedChannel.Validate = none ∧
    transferPaymentChannelHandler.validate demoHandler demoCtx demoUnnormalisedStore
        (demoTransferTx 1 (some (seqKey 1)))
      = some (some { Payment := some { ChainId := "chain", ChannelId := seqKey 1,
                                       Amount := some ⟨1, 0, "FOO"⟩, Memo := "latest" }
                     Signature := some (seqKey 1) }, none) ∧
    transferPaymentChannelHandler.Deliver demoHandler demoCtx demoUnnormalisedStore
        (demoTransferTx 1 (some (seqKey 1)))
      = some ⟨{}, some (ErrInvalidAmount (some ⟨1, 0, "FOO"⟩)), demoUnnormalisedStore⟩ :=
  ⟨rfl, by decide, rfl, rfl, rfl, rfl, by decide, rfl, rfl⟩

/-- Claim C2, amended.  For a transfer that passes `validate` against the stored
channel `pc`, the amount transferred so far being of the currency of the total
and a coin within bounds, as in every record the handlers write, the amount of
the payment being a coin within bounds and its memo of at most 128 bytes,
`Deliver` calls `MoveCoins` from the channel's escrow account to
`pc.Recipient` for exactly `delta = Payment.Amount - pc.Transferred`; if the
move fails it returns that error; otherwise, if `Payment.Amount` equals
`pc.Total` the record is deleted, and if not the record is saved under the
same ID with `Transferred = Payment.Amount`, `Memo = Payment.Memo` and every
other field as it was. -/
theorem transfer_deliver_moves_delta (h : Handler) (ctx : Context) (db : Store) (tx : Tx)
    (msg : TransferPaymentChannelMsg) (payment : Payment) (pc : PaymentChannel)
    (amount total transferred : Coin)
    (acc : TransferAccepted h ctx db tx msg payment pc amount total transferred)
    (hst : transferred.SameType total = true)
    (hamt : amount.inBounds = true) (htr : transferred.inBounds = true)
    (hmemo : payment.Memo.utf8ByteSize ≤ 128) :
    ∃ delta moved,
      amount.Subtract transferred = .ok delta ∧
      delta.units = amount.units - transferred.units ∧
      moved = h.MoveCoins db (paymentChannelAccount h payment.ChannelId) pc.Recipient delta ∧
      transferPaymentChannelHandler.Deliver h ctx db tx =
        match moved.2 with
        | some err => some ⟨{}, some err, moved.1⟩
        | none =>
          if amount.Equals total then
            some ⟨{}, none, { moved.1 with
              paychans := fun k => if k = payment.ChannelId then none else moved.1.paychans k }⟩
          else
            some ⟨{}, none, { moved.1 with
              paychans := fun k =>
                if k = payment.ChannelId then
                  some { pc with Transferred := some amount, Memo := payment.Memo }
                else moved.1.paychans k }⟩ := by
  refine ⟨Coin.ofUnits (amount.units - transferred.units) amount.Ticker, _,
    Coin.subtract_of_sameType (Coin.sameType_trans_symm acc.sameType hst),
    Coin.units_ofUnits _ _, rfl, ?_⟩
  rw [transfer_deliver_of_accepted acc hst]
  simp only [Coin.ofUnits_isZero_false hamt htr acc.gtTransferred, Bool.false_eq_true, if_false,
    PaymentChannelBucket.Delete, PaymentChannelBucket.Save, orm.Bucket.Save,
    acc.updated_valid hamt hmemo]


theorem demo_getPaymentChannel (db : Store) (paid : Int)
    (hdb : db.paychans (seqKey 1) = some (demoChannel paid)) (h0 : 0 ≤ paid) (h1 : paid ≤ 100) :
    PaymentChannelBucket.GetPaymentChannel db (seqKey 1) = .ok (demoChannel paid) := by
  apply PaymentChannelBucket.getPaymentChannel_of_valid hdb
  apply @PaymentChannel.validate_of_valid _ ⟨100, 0, "FOO"⟩ ⟨paid, 0, "FOO"⟩
  refine ⟨by simp [demoChannel], by simp [demoChannel], by simp [demoChannel],
    by simp [demoChannel], rfl, by decide, ?_, rfl, ?_, ?_⟩
  · show ("" : String).utf8ByteSize ≤ 128
    decide
  · simp [Coin.IsNonNegative, h0]
  · simp only [Coin.Compare]
    split_ifs <;> omega

theorem demo_transfer_accepted (db : Store) (paid amount : Int)
    (hdb : db.paychans (seqKey 1) = some (demoChannel paid))
    (h0 : 0 ≤ paid) (h1 : paid < amount) (h2 : amount ≤ 100) :
    TransferAccepted demoHandler demoCtx db
      (demoTransferTx amount (some (seqKey 1)))
      { Payment := some { ChainId := "chain", ChannelId := seqKey 1,
                          Amount := some ⟨amount, 0, "FOO"⟩, Memo := "latest" }
        Signature := some (seqKey 1) }
      { ChainId := "chain", ChannelId := seqKey 1, Amount := some ⟨amount, 0, "FOO"⟩,
        Memo := "latest" }
      (demoChannel paid) ⟨amount, 0, "FOO"⟩ ⟨100, 0, "FOO"⟩ ⟨paid, 0, "FOO"⟩ := by
  refine ⟨rfl, rfl, rfl, rfl, demo_getPaymentChannel db paid hdb h0 (by omega),
    ⟨seqKey 1, rfl, rfl⟩, rfl, rfl, by simp [Coin.SameType], ?_, rfl, ?_⟩
  · simp only [Coin.Compare]
    split_ifs <;> omega
  · simp only [Coin.Compare]
    split_ifs <;> omega

/-- Claim C2, witness: on the channel with 40 of 100 FOO transferred, the signed
transfer for the cumulative amount 100. -/
theorem transfer_deliver_moves_delta_witness :
    ∃ delta moved,
      Coin.Subtract ⟨100, 0, "FOO"⟩ ⟨40, 0, "FOO"⟩ = .ok delta ∧
      delta.units = Coin.units ⟨100, 0, "FOO"⟩ - Coin.units ⟨40, 0, "FOO"⟩ ∧
      moved = demoHandler.MoveCoins (demoStore 40) (paymentChannelAccount demoHandler (seqKey 1))
        (demoChannel 40).Recipient delta ∧
      transferPaymentChannelHandler.Deliver demoHandler demoCtx (demoStore 40)
          (demoTransferTx 100 (some (seqKey 1))) =
        match moved.2 with
        | some err => some ⟨{}, some err, moved.1⟩
        | none =>
          if Coin.Equals ⟨100, 0, "FOO"⟩ ⟨100, 0, "FOO"⟩ then
            some ⟨{}, none, { moved.1 with
              paychans := fun k => if k = seqKey 1 then none else moved.1.paychans k }⟩
          else
            some ⟨{}, none, { moved.1 with
              paychans := fun k =>
                if k = seqKey 1 then
                  some { demoChannel 40 with
                    Transferred := some ⟨100, 0, "FOO"⟩, Memo := "latest" }
                else moved.1.paychans k }⟩ :=
  transfer_deliver_moves_delta demoHandler demoCtx (demoStore 40)
    (demoTransferTx 100 (some (seqKey 1))) _ _ (demoChannel 40) ⟨100, 0, "FOO"⟩ ⟨100, 0, "FOO"⟩
    ⟨40, 0, "FOO"⟩ (demo_transfer_accepted (demoStore 40) 40 100 rfl (by decide) (by decide) (by decide))
    (by decide) (by decide) (by decide) (by decide)


theorem close_validate_ok {h : Handler} {ctx : Context} {db : Store} {tx : Tx}
    {msg : ClosePaymentChannelMsg} (hmsg : tx.GetMsg = .ok (.close msg))
    (hval : h.ValidateClose msg = none) :
    closePaymentChannelHandler.validate h ctx db tx = (some msg, none) := by
  simp [closePaymentChannelHandler.validate, hmsg, hval]

theorem PaymentChannel.Valid.subtract {pc : PaymentChannel} {total transferred : Coin}
    (_v : pc.Valid total transferred) (hst : transferred.SameType total = true) :
    total.Subtract transferred
      = .ok (Coin.ofUnits (total.units - transferred.units) total.Ticker) := by
  apply Coin.subtract_of_sameType
  simp only [Coin.SameType, beq_iff_eq] at *
  exact hst.symm

/-! ## Close: the decision table -/

/-- C3, the case that fails: at height 50, the timeout of the channel, a valid
close of the stored channel with a total of 100 FOO and 40 BAR transferred is
in none of the two first rows, and `Deliver` returns the error of
`Total.Subtract(Transferred)` and the store as it was: nothing is moved and
the record is not deleted. -/
theorem close_deliver_refuses_mixed_tickers :
    demoHandler.ValidateClose { ChannelId := seqKey 1, Memo := "" } = none ∧
    PaymentChannelBucket.GetPaymentChannel demoMixedStore (seqKey 1) = .ok demoMixedChannel ∧
    Coin.Equals ⟨100, 0, "FOO"⟩ ⟨40, 0, "BAR"⟩ = false ∧
    demoMixedChannel.Timeout ≤ (GetHeight demoLateCtx).1 ∧
    closePaymentChannelHandler.Deliver demoHandler demoLateCtx demoMixedStore demoCloseTx
      = some ⟨{}, some (.code .invalidValue "invalid currency"), demoMixedStore⟩ ∧
    demoMixedStore.paychans (seqKey 1) = some demoMixedChannel :=
  ⟨by decide, rfl, by decide, by decide, rfl, rfl⟩

/-- Claim C3, amended.  For a close message that passes its `Validate` and names
an existing channel `pc`, at block height `GetHeight ctx`, `Deliver` does this:
(1) if `pc.Total` equals `pc.Transferred` it deletes the record and moves no
coin, whoever signed; (2) otherwise, if `pc.Timeout` is above the height and
the signers do not include `pc.Recipient`, it fails with the not-allowed error
and returns the store as it was; (3) otherwise (the recipient signed, or the
height has reached `pc.Timeout`), if the amount transferred is of the currency
of the total, it calls `MoveCoins` from the escrow account to `pc.Src` for
`pc.Total - pc.Transferred` and, the move done, deletes the record; (4) in the
case of (3) with the amount transferred of another currency than the total,
it returns the error of `pc.Total.Subtract` and the store as it was. -/
theorem close_deliver_decision_table (h : Handler) (ctx : Context) (db : Store) (tx : Tx)
    (msg : ClosePaymentChannelMsg) (pc : PaymentChannel) (total transferred : Coin)
    (hmsg : tx.GetMsg = .ok (.close msg)) (hval : h.ValidateClose msg = none)
    (hget : PaymentChannelBucket.GetPaymentChannel db msg.ChannelId = .ok pc)
    (htot : pc.Total = some total) (htr : pc.Transferred = some transferred) :
    (total.Equals transferred = true →
      closePaymentChannelHandler.Deliver h ctx db tx = some ⟨{}, none, { db with
        paychans := fun k => if k = msg.ChannelId then none else db.paychans k }⟩) ∧
    (total.Equals transferred = false → (GetHeight ctx).1 < pc.Timeout →
      h.HasAddress ctx pc.Recipient = false →
      closePaymentChannelHandler.Deliver h ctx db tx
        = some ⟨{}, some (ErrNotAllowed "not recipient"), db⟩) ∧
    (total.Equals transferred = false →
      (h.HasAddress ctx pc.Recipient = true ∨ pc.Timeout ≤ (GetHeight ctx).1) →
      transferred.SameType total = true →
      ∃ delta moved,
        total.Subtract transferred = .ok delta ∧
        delta.units = total.units - transferred.units ∧
        moved = h.MoveCoins db (paymentChannelAccount h msg.ChannelId) pc.Src delta ∧
        closePaymentChannelHandler.Deliver h ctx db tx =
          match moved.2 with
          | some err => some ⟨{}, some err, moved.1⟩
          | none => some ⟨{}, none, { moved.1 with
              paychans := fun k => if k = msg.ChannelId then none else moved.1.paychans k }⟩) ∧
    (total.Equals transferred = false →
      (h.HasAddress ctx pc.Recipient = true ∨ pc.Timeout ≤ (GetHeight ctx).1) →
      transferred.SameType total = false →
      ∃ err,
        total.Subtract transferred = .error err ∧
        closePaymentChannelHandler.Deliver h ctx db tx = some ⟨{}, some err, db⟩) := by
  obtain ⟨_, hv⟩ := PaymentChannelBucket.getPaymentChannel_ok_iff.mp hget
  obtain ⟨t, tr, valid⟩ := PaymentChannel.valid_of_validate hv
  have h1 : t = total := Option.some.inj (valid.hasTotal.symm.trans htot)
  have h2 : tr = transferred := Option.some.inj (valid.hasTransferred.symm.trans htr)
  subst h1; subst h2
  refine ⟨?_, ?_, ?_, ?_⟩
  · intro heq
    simp [closePaymentChannelHandler.Deliver, close_validate_ok hmsg hval, hget, htot, htr, heq,
      PaymentChannelBucket.Delete]
  · intro hne hlt hauth
    simp [closePaymentChannelHandler.Deliver, close_validate_ok hmsg hval, hget, htot, htr, hne,
      hlt, hauth]
  · intro hne hor hst
    refine ⟨Coin.ofUnits (t.units - tr.units) t.Ticker, _, valid.subtract hst,
      Coin.units_ofUnits _ _, rfl, ?_⟩
    have hguard : ¬ (pc.Timeout > (GetHeight ctx).1 ∧ (!h.HasAddress ctx pc.Recipient) = true) := by
      rintro ⟨hgt, hna⟩
      rcases hor with hauth | hle
      · simp [hauth] at hna
      · omega
    simp only [closePaymentChannelHandler.Deliver, close_validate_ok hmsg hval, hget, htot, htr,
      hne, hguard, valid.subtract hst, PaymentChannelBucket.Delete, Bool.false_eq_true, if_false]
  · intro hne hor hst
    have hsub : t.Subtract tr = .error (.code .invalidValue "invalid currency") := by
      apply Coin.subtract_of_not_sameType
      simp only [Coin.SameType] at hst ⊢
      rw [Bool.eq_false_iff] at hst ⊢
      intro h0
      apply hst
      simp only [beq_iff_eq] at h0 ⊢
      exact h0.symm
    refine ⟨_, hsub, ?_⟩
    have hguard : ¬ (pc.Timeout > (GetHeight ctx).1 ∧ (!h.HasAddress ctx pc.Recipient) = true) := by
      rintro ⟨hgt, hna⟩
      rcases hor with hauth | hle
      · simp [hauth] at hna
      · omega
    simp only [closePaymentChannelHandler.Deliver, close_validate_ok hmsg hval, hget, htot, htr,
      hne, hguard, hsub, Bool.false_eq_true, if_false]

/-- Claim C3, witness: at height 50, the timeout of the channel, the depositor `[1]`
closes the channel that has 40 of 100 FOO transferred: row (3) of the table. -/
theorem close_deliver_decision_table_witness :
    ∃ delta moved,
      Coin.Subtract ⟨100, 0, "FOO"⟩ ⟨40, 0, "FOO"⟩ = .ok delta ∧
      delta.units = Coin.units ⟨100, 0, "FOO"⟩ - Coin.units ⟨40, 0, "FOO"⟩ ∧
      moved = demoHandler.MoveCoins (demoStore 40) (paymentChannelAccount demoHandler (seqKey 1))
        (demoChannel 40).Src delta ∧
      closePaymentChannelHandler.Deliver demoHandler demoLateCtx (demoStore 40) demoCloseTx =
        match moved.2 with
        | some err => some ⟨{}, some err, moved.1⟩
        | none => some ⟨{}, none, { moved.1 with
            paychans := fun k => if k = seqKey 1 then none else moved.1.paychans k }⟩ :=
  (close_deliver_decision_table demoHandler demoLateCtx (demoStore 40) demoCloseTx
    { ChannelId := seqKey 1, Memo := "" } (demoChannel 40) ⟨100, 0, "FOO"⟩ ⟨40, 0, "FOO"⟩
    rfl (by decide) (demo_getPaymentChannel (demoStore 40) 40 rfl (by decide) (by decide))
    rfl rfl).2.2.1 (by decide) (Or.inr (by decide)) (by decide)

theorem create_record_valid {msg : CreatePaymentChannelMsg} {total : Coin}
    (htot : msg.Total = some total) (hsrc : msg.Src ≠ none) (hkey : msg.SenderPubkey ≠ none)
    (hrcp : msg.Recipient ≠ none) (htime : 0 < msg.Timeout) (hpos : total.IsPositive = true)
    (hmemo : msg.Memo.utf8ByteSize ≤ 128) :
    ({ Src := msg.Src, SenderPubkey := msg.SenderPubkey, Recipient := msg.Recipient,
       Total := msg.Total, Timeout := msg.Timeout, Memo := msg.Memo,
       Transferred := some { Whole := 0, Fractional := 0, Ticker := total.Ticker } }
      : PaymentChannel).Valid total { Whole := 0, Fractional := 0, Ticker := total.Ticker } := by
  refine ⟨hsrc, hkey, hrcp, htime, htot, hpos, hmemo, rfl, by simp [Coin.IsNonNegative], ?_⟩
  simp only [Coin.IsPositive, Bool.or_eq_true, decide_eq_true_eq, Bool.and_eq_true,
    beq_iff_eq] at hpos
  simp only [Coin.Compare]
  split_ifs <;> omega

/-! ## Create: the effect of `Deliver` -/

/-- Claim C4.  For a create message that passes `validate` (its fields being what
the message's structural validation lets through: source, sender key and
recipient present, positive timeout, positive total, memo of at most 128
bytes), `Deliver` saves under the next key `k` of the sequence the record
with the message's `Src`, `SenderPubkey`, `Recipient`, `Total`, `Timeout`,
`Memo` and with `Transferred` the zero coin of the total's ticker; it then
calls `MoveCoins` from `msg.Src` to the escrow account of `k` for exactly
`msg.Total`, and, the move done, returns `k` as the result's `Data`. -/
theorem create_deliver_effect (h : Handler) (ctx : Context) (db : Store) (tx : Tx)
    (msg : CreatePaymentChannelMsg) (total : Coin)
    (hv : createPaymentChannelHandler.validate h ctx db tx = (some msg, none))
    (htot : msg.Total = some total) (hsrc : msg.Src ≠ none) (hkey : msg.SenderPubkey ≠ none)
    (hrcp : msg.Recipient ≠ none) (htime : 0 < msg.Timeout) (hpos : total.IsPositive = true)
    (hmemo : msg.Memo.utf8ByteSize ≤ 128) :
    ∃ k pc created moved,
      k = seqKey (db.seq + 1) ∧
      pc = { Src := msg.Src, SenderPubkey := msg.SenderPubkey, Recipient := msg.Recipient,
             Total := msg.Total, Timeout := msg.Timeout, Memo := msg.Memo,
             Transferred := some { Whole := 0, Fractional := 0, Ticker := total.Ticker } } ∧
      created = { db with
        seq := db.seq + 1
        paychans := fun x => if x = k then some pc else db.paychans x } ∧
      moved = h.MoveCoins created msg.Src (paymentChannelAccount h k) total ∧
      createPaymentChannelHandler.Deliver h ctx db tx =
        match moved.2 with
        | some err => some ⟨{}, some (errors.E err "cannot move coins"), moved.1⟩
        | none => some ⟨{ Data := k }, none, moved.1⟩ := by
  refine ⟨_, _, _, _, rfl, rfl, rfl, rfl, ?_⟩
  have hvalid := PaymentChannel.validate_of_valid
    (create_record_valid htot hsrc hkey hrcp htime hpos hmemo)
  simp only [createPaymentChannelHandler.Deliver, hv, htot, PaymentChannelBucket.Create,
    orm.Sequence.NextVal, orm.Bucket.Save]
  rw [htot] at hvalid
  simp only [hvalid]


/-- Claim C4, witness: `[1]`, holding 100 FOO, opens a channel of 100 FOO to `[2]`. -/
theorem create_deliver_effect_witness :
    ∃ k pc created moved,
      k = seqKey ((demoFundedStore 100).seq + 1) ∧
      pc = { Src := demoCreateMsg.Src, SenderPubkey := demoCreateMsg.SenderPubkey,
             Recipient := demoCreateMsg.Recipient, Total := demoCreateMsg.Total,
             Timeout := demoCreateMsg.Timeout, Memo := demoCreateMsg.Memo,
             Transferred := some { Whole := 0, Fractional := 0, Ticker := "FOO" } } ∧
      created = { demoFundedStore 100 with
        seq := (demoFundedStore 100).seq + 1
        paychans := fun x => if x = k then some pc else (demoFundedStore 100).paychans x } ∧
      moved = demoHandler.MoveCoins created demoCreateMsg.Src
        (paymentChannelAccount demoHandler k) ⟨100, 0, "FOO"⟩ ∧
      createPaymentChannelHandler.Deliver demoHandler demoCtx (demoFundedStore 100) demoCreateTx =
        match moved.2 with
        | some err => some ⟨{}, some (errors.E err "cannot move coins"), moved.1⟩
        | none => some ⟨{ Data := k }, none, moved.1⟩ :=
  create_deliver_effect demoHandler demoCtx (demoFundedStore 100) demoCreateTx demoCreateMsg
    ⟨100, 0, "FOO"⟩ (by decide) rfl (by decide) (by decide) (by decide) (by decide) (by decide)
    (by decide)


/-! ## Create: what `validate` accepts -/

/-- Claim C5.  For a create message that passes its structural `Validate`, the
create handler's `validate` returns no error if and only if `msg.Timeout` is
strictly above the current block height and the authenticator reports
`msg.Src` among the signers.  A timeout at or below the height (so one equal
to it too) is rejected with the invalid-condition error, whatever the
authenticator says; a timeout above the height without the signature of
`msg.Src` is rejected as unauthorized. -/
theorem create_validate_iff (h : Handler) (ctx : Context) (db : Store) (tx : Tx)
    (msg : CreatePaymentChannelMsg)
    (hmsg : tx.GetMsg = .ok (.create msg)) (hval : h.ValidateCreate msg = none) :
    ((createPaymentChannelHandler.validate h ctx db tx).2 = none ↔
      (GetHeight ctx).1 < msg.Timeout ∧ h.HasAddress ctx msg.Src = true) ∧
    (msg.Timeout ≤ (GetHeight ctx).1 →
      createPaymentChannelHandler.validate h ctx db tx
        = (some msg, some (errors.ECode .invalidCondition "timeout in the past"))) ∧
    ((GetHeight ctx).1 < msg.Timeout → h.HasAddress ctx msg.Src = false →
      createPaymentChannelHandler.validate h ctx db tx
        = (some msg, some errors.ErrUnauthorized)) ∧
    ((GetHeight ctx).1 < msg.Timeout → h.HasAddress ctx msg.Src = true →
      createPaymentChannelHandler.validate h ctx db tx = (some msg, none)) := by
  simp only [createPaymentChannelHandler.validate, hmsg, hval]
  refine ⟨?_, ?_, ?_, ?_⟩
  · by_cases hle : msg.Timeout ≤ (GetHeight ctx).1
    · simp [hle, not_lt.mpr hle]
    · cases ha : h.HasAddress ctx msg.Src <;> simp [hle, not_le.mp hle, ha]
  · intro hle
    simp [hle]
  · intro hlt ha
    simp [not_le.mpr hlt, ha]
  · intro hlt ha
    simp [not_le.mpr hlt, ha]

/-- Claim C5, witness: at height 10 a create with timeout 10 is rejected with the
invalid-condition error although its source signed. -/
theorem create_validate_iff_witness :
    createPaymentChannelHandler.validate demoHandler demoCtx (demoFundedStore 100)
        ⟨.ok (.create { demoCreateMsg with Timeout := 10 })⟩
      = (some { demoCreateMsg with Timeout := 10 },
          some (errors.ECode .invalidCondition "timeout in the past")) :=
  (create_validate_iff demoHandler demoCtx (demoFundedStore 100)
    ⟨.ok (.create { demoCreateMsg with Timeout := 10 })⟩ { demoCreateMsg with Timeout := 10 }
    rfl (by decide)).2.1 (by decide)


/-! ## Transfers: what `validate` accepts -/

/-- Claim C6.  For a transfer message that passes its structural `Validate` (its
payment and amount present, the payment serializable, and the record it names,
if there is one, satisfying the record invariants), the transfer handler's
`validate` accepts if and only if the context's chain ID is the payment's,
the channel exists, its `SenderPubkey` verifies the signature over the
serialized payment, and the amount has the total's currency, is at most the
total and is strictly above the transferred amount.  The checks are made in
that order and the first to fail decides the error: invalid chain ID,
not-found, invalid signature, invalid amount. -/
theorem transfer_validate_iff (h : Handler) (ctx : Context) (db : Store) (tx : Tx)
    (msg : TransferPaymentChannelMsg) (payment : Payment) (amount : Coin) (raw : Bytes)
    (hmsg : tx.GetMsg = .ok (.transfer msg)) (hval : h.ValidateTransfer msg = none)
    (hpay : msg.Payment = some payment) (hamt : payment.Amount = some amount)
    (hraw : h.Marshal payment = .ok raw)
    (hstore : ∀ pc, db.paychans payment.ChannelId = some pc → pc.Validate = none) :
    (transferPaymentChannelHandler.validate h ctx db tx = some (some msg, none) ↔
      GetChainID ctx = payment.ChainId ∧
      ∃ pc total transferred,
        db.paychans payment.ChannelId = some pc ∧ pc.Total = some total ∧
        pc.Transferred = some transferred ∧
        h.Verify pc.SenderPubkey raw msg.Signature = true ∧
        amount.SameType total = true ∧ amount.Compare total ≤ 0 ∧
        0 < amount.Compare transferred) ∧
    (GetChainID ctx ≠ payment.ChainId →
      transferPaymentChannelHandler.validate h ctx db tx
        = some (none, some (ErrInvalidChainID payment.ChainId))) ∧
    (GetChainID ctx = payment.ChainId → db.paychans payment.ChannelId = none →
      ∃ err, transferPaymentChannelHandler.validate h ctx db tx = some (none, some err) ∧
        err.kind = .notFound) ∧
    (∀ pc total transferred, GetChainID ctx = payment.ChainId →
      db.paychans payment.ChannelId = some pc → pc.Total = some total →
      pc.Transferred = some transferred →
      (h.Verify pc.SenderPubkey raw msg.Signature = false →
        transferPaymentChannelHandler.validate h ctx db tx
          = some (some msg, some ErrInvalidSignature)) ∧
      (h.Verify pc.SenderPubkey raw msg.Signature = true →
        (amount.SameType total = false ∨ 0 < amount.Compare total ∨
          amount.Compare transferred ≤ 0) →
        transferPaymentChannelHandler.validate h ctx db tx
          = some (some msg, some (ErrInvalidAmount (some amount))))) := by
  refine ⟨⟨?_, ?_⟩, ?_, ?_, ?_⟩
  · intro hv
    obtain ⟨msg1, payment1, pc, amount1, total, transferred, hm, acc⟩ :=
      transfer_validate_accepted hv
    have e1 : msg1 = msg := (Option.some.inj hm).symm
    subst e1
    have e2 : payment1 = payment := Option.some.inj (acc.hasPayment.symm.trans hpay)
    subst e2
    have e3 : amount1 = amount := Option.some.inj (acc.hasAmount.symm.trans hamt)
    subst e3
    obtain ⟨raw1, hraw1, hver⟩ := acc.signed
    have e4 : raw1 = raw := Except.ok.inj (hraw1.symm.trans hraw)
    subst e4
    exact ⟨acc.chain, pc, total, transferred,
      (PaymentChannelBucket.getPaymentChannel_ok_iff.mp acc.channel).1, acc.hasTotal,
      acc.hasTransferred, hver, acc.sameType, acc.leTotal, acc.gtTransferred⟩
  · rintro ⟨hchain, pc, total, transferred, hpc, htot, htr, hver, hsame, hle, hgt⟩
    exact transfer_validate_of_accepted
      ⟨hmsg, hval, hpay, hchain,
        PaymentChannelBucket.getPaymentChannel_of_valid hpc (hstore pc hpc),
        ⟨raw, hraw, hver⟩, hamt, htot, hsame, hle, htr, hgt⟩
  · intro hchain
    simp [transferPaymentChannelHandler.validate, hmsg, hval, hpay, hchain]
  · intro hchain hnone
    refine ⟨errors.ECode .notFound "payment channel not found", ?_, rfl⟩
    simp [transferPaymentChannelHandler.validate, hmsg, hval, hpay, hchain,
      PaymentChannelBucket.getPaymentChannel_absent hnone]
  · intro pc total transferred hchain hpc htot htr
    have hget := PaymentChannelBucket.getPaymentChannel_of_valid hpc (hstore pc hpc)
    refine ⟨?_, ?_⟩
    · intro hver
      simp [transferPaymentChannelHandler.validate, hmsg, hval, hpay, hchain, hget, hraw, hver]
    · intro hver hbad
      simp only [transferPaymentChannelHandler.validate, hmsg, hval, hpay, hchain, hget, hraw,
        hver, hamt, htot, htr]
      rcases hbad with hb | hb | hb
      · simp [hb]
      · simp [hb]
      · simp only [hb]
        split_ifs <;> first | rfl | simp_all

/-- Claim C6, witness: on the channel with 40 of 100 FOO transferred, the signed
transfer for the cumulative amount 70 is accepted. -/
theorem transfer_validate_iff_witness :
    transferPaymentChannelHandler.validate demoHandler demoCtx (demoStore 40)
        (demoTransferTx 70 (some (seqKey 1)))
      = some (some { Payment := some { ChainId := "chain", ChannelId := seqKey 1,
                                       Amount := some ⟨70, 0, "FOO"⟩, Memo := "latest" }
                     Signature := some (seqKey 1) }, none) :=
  (transfer_validate_iff demoHandler demoCtx (demoStore 40) (demoTransferTx 70 (some (seqKey 1)))
    _ _ ⟨70, 0, "FOO"⟩ (seqKey 1) rfl rfl rfl rfl rfl
    (by
      intro pc hpc
      have hget := demo_getPaymentChannel (demoStore 40) 40 rfl (by decide) (by decide)
      have := (PaymentChannelBucket.getPaymentChannel_ok_iff.mp hget)
      rw [this.1] at hpc
      rw [← Option.some.inj hpc]
      exact this.2)).1.mpr
    ⟨rfl, demoChannel 40, ⟨100, 0, "FOO"⟩, ⟨40, 0, "FOO"⟩, by simp [demoStore], rfl, rfl, rfl,
      by decide, by decide, by decide⟩


theorem transfer_validate_absent {h : Handler} {ctx : Context} {db : Store} {tx : Tx}
    {msg : TransferPaymentChannelMsg} {payment : Payment}
    (hmsg : tx.GetMsg = .ok (.transfer msg)) (hval : h.ValidateTransfer msg = none)
    (hpay : msg.Payment = some payment) (hchain : GetChainID ctx = payment.ChainId)
    (hnone : db.paychans payment.ChannelId = none) :
    transferPaymentChannelHandler.validate h ctx db tx
      = some (none, some (errors.ECode .notFound "payment channel not found")) := by
  simp [transferPaymentChannelHandler.validate, hmsg, hval, hpay, hchain,
    PaymentChannelBucket.getPaymentChannel_absent hnone]

/-! ## Transfers: replay after the channel is exhausted -/

/-- Claim C8.  Once a transfer whose amount equals the channel's total has been
delivered, the record is gone, and in every store in which it is still gone a
transfer naming that channel ID (one that passes the structural validation
and carries the chain ID, such as an earlier payment submitted again) fails
with the not-found error that `GetPaymentChannel` reports, in `Check` and in
`Deliver`, and `Deliver` returns the store as it was given. -/
theorem transfer_replay_not_found (h : Handler) (ctx : Context) (db : Store) (tx : Tx)
    (msg : TransferPaymentChannelMsg) (payment : Payment) (pc : PaymentChannel)
    (amount total transferred : Coin)
    (acc : TransferAccepted h ctx db tx msg payment pc amount total transferred)
    (hfull : amount.Equals total = true) (out : DeliverOut)
    (hout : transferPaymentChannelHandler.Deliver h ctx db tx = some out)
    (hok : out.err = none) :
    out.db.paychans payment.ChannelId = none ∧
    ∀ (later : Store), later.paychans payment.ChannelId = none →
      ∃ err, err.kind = .notFound ∧
        PaymentChannelBucket.GetPaymentChannel later payment.ChannelId = .error err ∧
        ∀ (ctx1 : Context) (tx1 : Tx) (msg1 : TransferPaymentChannelMsg) (payment1 : Payment),
          tx1.GetMsg = .ok (.transfer msg1) → h.ValidateTransfer msg1 = none →
          msg1.Payment = some payment1 → payment1.ChannelId = payment.ChannelId →
          GetChainID ctx1 = payment1.ChainId →
          transferPaymentChannelHandler.Check h ctx1 later tx1
            = some ({}, some (errors.E err "invalid message")) ∧
          (errors.E err "invalid message").kind = .notFound ∧
          transferPaymentChannelHandler.Deliver h ctx1 later tx1
            = some ⟨{}, some err, later⟩ := by
  constructor
  · have hst : transferred.SameType total = true := by
      cases hc : transferred.SameType total with
      | true => rfl
      | false =>
        rw [transfer_deliver_of_mismatch acc hc, Option.some.injEq] at hout
        rw [← hout] at hok
        simp at hok
    rw [transfer_deliver_of_accepted acc hst] at hout
    split_ifs at hout with hz
    · simp only [Option.some.injEq] at hout
      rw [← hout] at hok
      simp at hok
    · split at hout
      · simp only [Option.some.injEq] at hout
        rw [← hout] at hok
        simp at hok
      · simp only [Option.some.injEq] at hout
        rw [← hout]
        simp [PaymentChannelBucket.Delete]
  · intro later hnone
    refine ⟨errors.ECode .notFound "payment channel not found", rfl,
      PaymentChannelBucket.getPaymentChannel_absent hnone, ?_⟩
    intro ctx1 tx1 msg1 payment1 hmsg1 hval1 hpay1 hid hchain1
    have hv := @transfer_validate_absent h ctx1 later tx1 msg1 payment1 hmsg1 hval1 hpay1 hchain1
      (by rw [hid]; exact hnone)
    refine ⟨?_, rfl, ?_⟩
    · simp [transferPaymentChannelHandler.Check, hv]
    · simp [transferPaymentChannelHandler.Deliver, hv]


/-- Claim C8, witness: after the transfer for 100 of 100 FOO, the transfer for the
cumulative amount 40 submitted again fails with not-found. -/
theorem transfer_replay_not_found_witness :
    ∃ err, err.kind = .notFound ∧
      transferPaymentChannelHandler.Check demoHandler demoCtx demoExhaustedStore
          (demoTransferTx 40 (some (seqKey 1)))
        = some ({}, some (errors.E err "invalid message")) ∧
      transferPaymentChannelHandler.Deliver demoHandler demoCtx demoExhaustedStore
          (demoTransferTx 40 (some (seqKey 1)))
        = some ⟨{}, some err, demoExhaustedStore⟩ :=
  have key := transfer_replay_not_found demoHandler demoCtx (demoStore 40)
    (demoTransferTx 100 (some (seqKey 1))) _ _ (demoChannel 40) ⟨100, 0, "FOO"⟩ ⟨100, 0, "FOO"⟩
    ⟨40, 0, "FOO"⟩ (demo_transfer_accepted (demoStore 40) 40 100 rfl (by decide) (by decide) (by decide))
    (by decide) ⟨{}, none, demoExhaustedStore⟩ (by rfl) rfl
  match key.2 demoExhaustedStore key.1 with
  | ⟨err, hkind, _, hrest⟩ =>
    ⟨err, hkind,
      (hrest demoCtx (demoTransferTx 40 (some (seqKey 1))) _ _ rfl rfl rfl rfl rfl).1,
      (hrest demoCtx (demoTransferTx 40 (some (seqKey 1))) _ _ rfl rfl rfl rfl rfl).2.2⟩


theorem cash.moveCoins_failure_unchanged (db : Store) (src dst : Address) (amount : Coin)
    (hfail : (cash.MoveCoins db src dst amount).2 ≠ none) :
    (cash.MoveCoins db src dst amount).1 = db := by
  unfold cash.MoveCoins at hfail ⊢
  split_ifs at hfail ⊢ <;> simp_all

/-! ## Failing ledger moves -/

/-- Claim C9, as stated, fails for the create handler: `[1]` holds nothing, so the
move of 100 FOO into escrow fails and `Deliver` returns an error, yet the
store it leaves has the sequence counter advanced from 0 to 1 and the new
record saved under the first key. -/
theorem create_deliver_keeps_record_on_failed_move :
    ∃ out,
      createPaymentChannelHandler.Deliver demoHandler demoCtx (demoFundedStore 0) demoCreateTx
        = some out ∧
      out.err = some (errors.E (.code .invalidValue "insufficient funds") "cannot move coins") ∧
      (demoFundedStore 0).seq = 0 ∧ out.db.seq = 1 ∧
      (demoFundedStore 0).paychans (seqKey 1) = none ∧
      out.db.paychans (seqKey 1) = some (demoChannel 0) :=
  ⟨_, rfl, rfl, rfl, rfl, rfl, rfl⟩

/-- Claim C9, amended.  With a ledger that writes nothing when it fails: if the
`MoveCoins` call made by the transfer handler's or by the close handler's
`Deliver` fails (the call is made when the amount transferred is of the
currency of the total), `Deliver` returns that error and the store exactly as
it was given.  If the call made by the create handler's `Deliver` fails, `Deliver`
returns an error as well, and the store it leaves is the given one with the
sequence counter advanced and the new record saved under the new key: the
handler does not undo them. -/
theorem deliver_on_failed_move (h : Handler)
    (hledger : ∀ db src dst amount, (h.MoveCoins db src dst amount).2 ≠ none →
      (h.MoveCoins db src dst amount).1 = db) :
    (∀ ctx db tx msg payment pc amount total transferred err,
      TransferAccepted h ctx db tx msg payment pc amount total transferred →
      transferred.SameType total = true →
      (Coin.ofUnits (amount.units - transferred.units) amount.Ticker).IsZero = false →
      (h.MoveCoins db (paymentChannelAccount h payment.ChannelId) pc.Recipient
        (Coin.ofUnits (amount.units - transferred.units) amount.Ticker)).2 = some err →
      transferPaymentChannelHandler.Deliver h ctx db tx = some ⟨{}, some err, db⟩) ∧
    (∀ ctx db tx msg pc total transferred err,
      tx.GetMsg = .ok (.close msg) → h.ValidateClose msg = none →
      PaymentChannelBucket.GetPaymentChannel db msg.ChannelId = .ok pc →
      pc.Total = some total → pc.Transferred = some transferred →
      transferred.SameType total = true →
      total.Equals transferred = false →
      (h.HasAddress ctx pc.Recipient = true ∨ pc.Timeout ≤ (GetHeight ctx).1) →
      (h.MoveCoins db (paymentChannelAccount h msg.ChannelId) pc.Src
        (Coin.ofUnits (total.units - transferred.units) total.Ticker)).2 = some err →
      closePaymentChannelHandler.Deliver h ctx db tx = some ⟨{}, some err, db⟩) ∧
    (∀ ctx db tx msg total err,
      createPaymentChannelHandler.validate h ctx db tx = (some msg, none) →
      msg.Total = some total → msg.Src ≠ none → msg.SenderPubkey ≠ none → msg.Recipient ≠ none →
      0 < msg.Timeout → total.IsPositive = true → msg.Memo.utf8ByteSize ≤ 128 →
      (h.MoveCoins
        { db with
          seq := db.seq + 1
          paychans := fun x => if x = seqKey (db.seq + 1) then
            some { Src := msg.Src, SenderPubkey := msg.SenderPubkey, Recipient := msg.Recipient,
                   Total := msg.Total, Timeout := msg.Timeout, Memo := msg.Memo,
                   Transferred := some { Whole := 0, Fractional := 0, Ticker := total.Ticker } }
            else db.paychans x }
        msg.Src (paymentChannelAccount h (seqKey (db.seq + 1))) total).2 = some err →
      createPaymentChannelHandler.Deliver h ctx db tx =
        some ⟨{}, some (errors.E err "cannot move coins"),
          { db with
            seq := db.seq + 1
            paychans := fun x => if x = seqKey (db.seq + 1) then
              some { Src := msg.Src, SenderPubkey := msg.SenderPubkey,
                     Recipient := msg.Recipient, Total := msg.Total, Timeout := msg.Timeout,
                     Memo := msg.Memo,
                     Transferred := some { Whole := 0, Fractional := 0,
                                           Ticker := total.Ticker } }
              else db.paychans x }⟩) := by
  refine ⟨?_, ?_, ?_⟩
  · intro ctx db tx msg payment pc amount total transferred err acc hst hz hfail
    rw [transfer_deliver_of_accepted acc hst]
    have hsame := hledger db (paymentChannelAccount h payment.ChannelId) pc.Recipient
      (Coin.ofUnits (amount.units - transferred.units) amount.Ticker) (by rw [hfail]; simp)
    simp only [hz, Bool.false_eq_true, if_false, hfail, hsame]
  · intro ctx db tx msg pc total transferred err hmsg hval hget htot htr hst hne hor hfail
    obtain ⟨_, hv⟩ := PaymentChannelBucket.getPaymentChannel_ok_iff.mp hget
    obtain ⟨t, tr, valid⟩ := PaymentChannel.valid_of_validate hv
    have h1 : t = total := Option.some.inj (valid.hasTotal.symm.trans htot)
    have h2 : tr = transferred := Option.some.inj (valid.hasTransferred.symm.trans htr)
    subst h1; subst h2
    have hguard : ¬ (pc.Timeout > (GetHeight ctx).1 ∧ (!h.HasAddress ctx pc.Recipient) = true) := by
      rintro ⟨hgt, hna⟩
      rcases hor with hauth | hle
      · simp [hauth] at hna
      · omega
    have hsame := hledger db (paymentChannelAccount h msg.ChannelId) pc.Src
      (Coin.ofUnits (t.units - tr.units) t.Ticker) (by rw [hfail]; simp)
    simp only [closePaymentChannelHandler.Deliver, close_validate_ok hmsg hval, hget, htot, htr,
      hne, hguard, valid.subtract hst, Bool.false_eq_true, if_false, hfail, hsame]
  · intro ctx db tx msg total err hv htot hsrc hkey hrcp htime hpos hmemo hfail
    have hvalid := PaymentChannel.validate_of_valid
      (create_record_valid htot hsrc hkey hrcp htime hpos hmemo)
    rw [htot] at hvalid
    have hsame := hledger _ _ _ _ (by rw [hfail]; simp)
    rw [htot] at hfail hsame
    simp only [createPaymentChannelHandler.Deliver, hv, htot, PaymentChannelBucket.Create,
      orm.Sequence.NextVal, orm.Bucket.Save, hvalid, hfail, hsame]


/-- Claim C9 amended, witness, with the ledger `cash.MoveCoins`: a transfer the
escrow account cannot pay leaves the store as it was; a create its source
cannot pay leaves the counter advanced and the record saved. -/
theorem deliver_on_failed_move_witness :
    transferPaymentChannelHandler.Deliver demoHandler demoCtx demoDrainedStore
        (demoTransferTx 100 (some (seqKey 1)))
      = some ⟨{}, some (.code .invalidValue "insufficient funds"), demoDrainedStore⟩ ∧
    createPaymentChannelHandler.Deliver demoHandler demoCtx (demoFundedStore 0) demoCreateTx
      = some ⟨{}, some (errors.E (.code .invalidValue "insufficient funds") "cannot move coins"),
          { demoFundedStore 0 with
            seq := 1
            paychans := fun x => if x = seqKey 1 then some (demoChannel 0) else none }⟩ :=
  have key := deliver_on_failed_move demoHandler cash.moveCoins_failure_unchanged
  ⟨key.1 demoCtx demoDrainedStore (demoTransferTx 100 (some (seqKey 1))) _ _ (demoChannel 40)
      ⟨100, 0, "FOO"⟩ ⟨100, 0, "FOO"⟩ ⟨40, 0, "FOO"⟩ _
      (demo_transfer_accepted demoDrainedStore 40 100 rfl (by decide) (by decide) (by decide))
      (by decide) (by decide) rfl,
    key.2.2 demoCtx (demoFundedStore 0) demoCreateTx demoCreateMsg ⟨100, 0, "FOO"⟩ _
      (by decide) rfl (by decide) (by decide) (by decide) (by decide) (by decide) (by decide)
      rfl⟩


/-! ## Close before the timeout -/

/-- Claim C10, as stated, fails: at height 10 the depositor `[1]` signs the close of
the channel that is open until height 50 and has 40 of 100 FOO transferred;
`Deliver` answers not-allowed and returns the store as it was, record
included. -/
theorem close_by_depositor_before_timeout_refused :
    demoHandler.HasAddress demoCtx (demoChannel 40).Src = true ∧
    (GetHeight demoCtx).1 < (demoChannel 40).Timeout ∧
    Coin.Equals ⟨100, 0, "FOO"⟩ ⟨40, 0, "FOO"⟩ = false ∧
    closePaymentChannelHandler.Deliver demoHandler demoCtx (demoStore 40) demoCloseTx
      = some ⟨{}, some (ErrNotAllowed "not recipient"), demoStore 40⟩ ∧
    (demoStore 40).paychans (seqKey 1) = some (demoChannel 40) :=
  ⟨rfl, by decide, rfl, rfl, rfl⟩

/-- Claim C10, amended.  A close of a channel that is not exhausted, submitted before
the timeout height, goes through at once only when the recipient is among the
signers: `Deliver` then calls `MoveCoins` from the escrow account to the
source for the unspent remainder (the amount transferred being of the
currency of the total) and, the move done, deletes the record.
Without the recipient's signature it fails with the not-allowed error and
returns the store as it was, also when the depositor signed. -/
theorem close_before_timeout (h : Handler) (ctx : Context) (db : Store) (tx : Tx)
    (msg : ClosePaymentChannelMsg) (pc : PaymentChannel) (total transferred : Coin)
    (hmsg : tx.GetMsg = .ok (.close msg)) (hval : h.ValidateClose msg = none)
    (hget : PaymentChannelBucket.GetPaymentChannel db msg.ChannelId = .ok pc)
    (htot : pc.Total = some total) (htr : pc.Transferred = some transferred)
    (hne : total.Equals transferred = false) (hlt : (GetHeight ctx).1 < pc.Timeout) :
    (h.HasAddress ctx pc.Recipient = true → transferred.SameType total = true →
      ∃ delta moved,
        total.Subtract transferred = .ok delta ∧
        delta.units = total.units - transferred.units ∧
        moved = h.MoveCoins db (paymentChannelAccount h msg.ChannelId) pc.Src delta ∧
        closePaymentChannelHandler.Deliver h ctx db tx =
          match moved.2 with
          | some err => some ⟨{}, some err, moved.1⟩
          | none => some ⟨{}, none, { moved.1 with
              paychans := fun k => if k = msg.ChannelId then none else moved.1.paychans k }⟩) ∧
    (h.HasAddress ctx pc.Recipient = false →
      closePaymentChannelHandler.Deliver h ctx db tx
        = some ⟨{}, some (ErrNotAllowed "not recipient"), db⟩) := by
  obtain ⟨_, hv⟩ := PaymentChannelBucket.getPaymentChannel_ok_iff.mp hget
  obtain ⟨t, tr, valid⟩ := PaymentChannel.valid_of_validate hv
  have h1 : t = total := Option.some.inj (valid.hasTotal.symm.trans htot)
  have h2 : tr = transferred := Option.some.inj (valid.hasTransferred.symm.trans htr)
  subst h1; subst h2
  refine ⟨?_, ?_⟩
  · intro hauth hst
    refine ⟨Coin.ofUnits (t.units - tr.units) t.Ticker, _, valid.subtract hst,
      Coin.units_ofUnits _ _, rfl, ?_⟩
    simp only [closePaymentChannelHandler.Deliver, close_validate_ok hmsg hval, hget, htot, htr,
      hne, hauth, valid.subtract hst, PaymentChannelBucket.Delete, Bool.false_eq_true, if_false,
      Bool.not_true, and_false]
  · intro hauth
    simp [closePaymentChannelHandler.Deliver, close_validate_ok hmsg hval, hget, htot, htr, hne,
      hlt, hauth]

/-- Claim C10 amended, witness: at height 10 the recipient `[2]` closes the channel
that has 40 of 100 FOO transferred. -/
theorem close_before_timeout_witness :
    ∃ delta moved,
      Coin.Subtract ⟨100, 0, "FOO"⟩ ⟨40, 0, "FOO"⟩ = .ok delta ∧
      delta.units = Coin.units ⟨100, 0, "FOO"⟩ - Coin.units ⟨40, 0, "FOO"⟩ ∧
      moved = demoRecipientHandler.MoveCoins (demoStore 40)
        (paymentChannelAccount demoRecipientHandler (seqKey 1)) (demoChannel 40).Src delta ∧
      closePaymentChannelHandler.Deliver demoRecipientHandler demoCtx (demoStore 40) demoCloseTx =
        match moved.2 with
        | some err => some ⟨{}, some err, moved.1⟩
        | none => some ⟨{}, none, { moved.1 with
            paychans := fun k => if k = seqKey 1 then none else moved.1.paychans k }⟩ :=
  (close_before_timeout demoRecipientHandler demoCtx (demoStore 40) demoCloseTx
    { ChannelId := seqKey 1, Memo := "" } (demoChannel 40) ⟨100, 0, "FOO"⟩ ⟨40, 0, "FOO"⟩
    rfl (by decide) (demo_getPaymentChannel (demoStore 40) 40 rfl (by decide) (by decide))
    rfl rfl (by decide) (by decide)).1 (by decide) (by decide)


theorem Coin.equals_iff (a b : Coin) : a.Equals b = true ↔ a = b := by
  cases a; cases b
  simp only [Coin.Equals, Bool.and_eq_true, beq_iff_eq, Coin.mk.injEq]
  tauto

theorem Coin.units_le_of_compare_le {a b : Coin} (ha : a.inBounds = true)
    (hb : b.inBounds = true) (hc : a.Compare b ≤ 0) : a.units ≤ b.units := by
  simp only [Coin.inBounds, Bool.and_eq_true, decide_eq_true_eq, FracUnit] at ha hb
  simp only [Coin.units, FracUnit]
  unfold Coin.Compare at hc
  split_ifs at hc <;> omega

theorem Coin.ofUnits_inBounds {u : Int} (hu : 0 ≤ u) (t : String) :
    (Coin.ofUnits u t).inBounds = true := by
  have h1 : u.tdiv 1000000000 = u / 1000000000 := Int.tdiv_eq_ediv hu (by decide)
  have h2 : u.tmod 1000000000 = u % 1000000000 := Int.tmod_eq_emod hu (by decide)
  simp only [Coin.inBounds, Coin.ofUnits, FracUnit, h1, h2, Bool.and_eq_true, decide_eq_true_eq]
  omega

theorem cash.moveCoins_ok (db : Store) (src dst : Address) (amount : Coin)
    (hb : amount.inBounds = true) (hfunds : amount.units ≤ db.balances src amount.Ticker) :
    cash.MoveCoins db src dst amount =
      ({ db with balances := fun a t =>
          if a = dst ∧ t = amount.Ticker then
            (if a = src ∧ t = amount.Ticker then db.balances a t - amount.units
              else db.balances a t) + amount.units
          else if a = src ∧ t = amount.Ticker then db.balances a t - amount.units
          else db.balances a t }, none) := by
  simp [cash.MoveCoins, hb, not_lt.mpr hfunds]


theorem transfer_step (h : Handler) (hledger : h.MoveCoins = cash.MoveCoins) (ctx : Context)
    (db : Store) (tx : Tx) (k : Bytes) (pc : PaymentChannel) (T prev a : Coin)
    (hpc : db.paychans k = some pc) (hvalid : pc.Valid T prev)
    (hpst : prev.SameType T = true) (hprev : prev.inBounds = true)
    (hesc : db.balances (paymentChannelAccount h k) T.Ticker = T.units - prev.units)
    (hrcpt : pc.Recipient ≠ paymentChannelAccount h k)
    (hs : SignedTransfer h ctx k pc.SenderPubkey T.Ticker tx a)
    (hgt : 0 < a.Compare prev) (hle : a.Compare T ≤ 0) (hT : T.inBounds = true) :
    ∃ out, transferPaymentChannelHandler.Deliver h ctx db tx = some out ∧ out.err = none ∧
      out.db.balances (paymentChannelAccount h k) T.Ticker = T.units - a.units ∧
      out.db.balances pc.Recipient T.Ticker
        = db.balances pc.Recipient T.Ticker + (a.units - prev.units) ∧
      (a = T → out.db.paychans k = none) ∧
      (a ≠ T → ∃ pc1, out.db.paychans k = some pc1 ∧ pc1.Valid T a ∧
        pc1.Recipient = pc.Recipient ∧ pc1.SenderPubkey = pc.SenderPubkey) := by
  obtain ⟨msg, payment, hmsg, hval, hpay, hid, hchain, hamt, hmemo, raw, hraw, hver⟩ :=
    hs.wellFormed
  subst hid
  have hsame : a.SameType T = true := by simp [Coin.SameType, hs.sameTicker]
  have acc : TransferAccepted h ctx db tx msg payment pc a T prev :=
    ⟨hmsg, hval, hpay, hchain,
      PaymentChannelBucket.getPaymentChannel_of_valid hpc (PaymentChannel.validate_of_valid hvalid),
      ⟨raw, hraw, hver⟩, hamt, hvalid.hasTotal, hsame, hle, hvalid.hasTransferred, hgt⟩
  have hlt := Coin.units_lt_of_compare_pos hs.inBounds hprev hgt
  have hleu := Coin.units_le_of_compare_le hs.inBounds hT hle
  have hdb : (Coin.ofUnits (a.units - prev.units) a.Ticker).inBounds = true :=
    Coin.ofUnits_inBounds (by omega) _
  have hdu := Coin.units_ofUnits (a.units - prev.units) a.Ticker
  have hdt : (Coin.ofUnits (a.units - prev.units) a.Ticker).Ticker = T.Ticker := hs.sameTicker
  have hmove := cash.moveCoins_ok db (paymentChannelAccount h payment.ChannelId) pc.Recipient
    (Coin.ofUnits (a.units - prev.units) a.Ticker) hdb (by rw [hdt, hesc, hdu]; omega)
  rw [transfer_deliver_of_accepted acc hpst, hledger, hmove]
  simp only [Coin.ofUnits_isZero_false hs.inBounds hprev hgt, Bool.false_eq_true, if_false,
    PaymentChannelBucket.Delete, PaymentChannelBucket.Save, orm.Bucket.Save,
    acc.updated_valid hs.inBounds hmemo]
  by_cases heq : a = T
  · have he : a.Equals T = true := (Coin.equals_iff a T).mpr heq
    simp only [he, if_true]
    refine ⟨_, rfl, rfl, ?_, ?_, ?_, ?_⟩
    · simp only [hdt, hdu, hesc, hrcpt.symm, false_and, if_false, and_self, if_true]
      omega
    · simp only [hdt, hdu, hrcpt, false_and, if_false, and_self, if_true]
    · intro _; simp
    · intro hne; exact absurd heq hne
  · have he : a.Equals T = false := by
      cases hb : a.Equals T with
      | false => rfl
      | true => exact absurd ((Coin.equals_iff a T).mp hb) heq
    simp only [he, Bool.false_eq_true, if_false]
    refine ⟨_, rfl, rfl, ?_, ?_, ?_, ?_⟩
    · simp only [hdt, hdu, hesc, hrcpt.symm, false_and, if_false, and_self, if_true]
      omega
    · simp only [hdt, hdu, hrcpt, false_and, if_false, and_self, if_true]
    · intro hh; exact absurd hh heq
    · intro _
      refine ⟨{ pc with Transferred := some a, Memo := payment.Memo }, by simp, ?_, rfl, rfl⟩
      exact ⟨hvalid.src, hvalid.senderPubkey, hvalid.recipient, hvalid.timeout, hvalid.hasTotal,
        hvalid.totalPositive, hmemo, rfl, Coin.isNonNegative_of_inBounds hs.inBounds, hle⟩


theorem Coin.compare_self (a : Coin) : a.Compare a = 0 := by
  simp [Coin.Compare]

theorem Coin.compare_le_of_lt_of_le {a b c : Coin} (hab : 0 < b.Compare a)
    (hbc : b.Compare c ≤ 0) : a.Compare c ≤ 0 := by
  unfold Coin.Compare at *
  split_ifs at hab hbc ⊢ <;> omega

theorem chain_compare_le_last :
    ∀ (amounts : List Coin) (prev T : Coin),
      List.Chain (fun x y => 0 < y.Compare x) prev amounts →
      amounts.getLast? = some T → ∀ a ∈ amounts, a.Compare T ≤ 0 := by
  intro amounts
  induction amounts with
  | nil => intro _ _ _ _ a ha; simp at ha
  | cons b rest ih =>
    intro prev T hchain hlast a ha
    rw [List.chain_cons] at hchain
    cases rest with
    | nil =>
      simp only [List.getLast?_singleton, Option.some.injEq] at hlast
      simp only [List.mem_singleton] at ha
      subst hlast; subst ha
      rw [Coin.compare_self]
    | cons c rest2 =>
      have hlast2 : (c :: rest2).getLast? = some T := by
        simpa [List.getLast?_cons_cons] using hlast
      have ih2 := ih b T hchain.2 hlast2
      rcases List.mem_cons.mp ha with hab | hin
      · subst hab
        have hc := ih2 c (List.mem_cons_self _ _)
        rw [List.chain_cons] at hchain
        exact Coin.compare_le_of_lt_of_le hchain.2.1 hc
      · exact ih2 a hin

theorem transfers_run (h : Handler) (hledger : h.MoveCoins = cash.MoveCoins) (ctx : Context)
    (k : Bytes) (T : Coin) (hT : T.inBounds = true) (rcpt : Address)
    (pubkey : Option PublicKey) (hrcpt : rcpt ≠ paymentChannelAccount h k) (r0 : Int) :
    ∀ (pays : List (Tx × Coin)) (prev : Coin) (db : Store) (pc : PaymentChannel),
      db.paychans k = some pc → pc.Valid T prev → prev.SameType T = true →
      pc.Recipient = rcpt → pc.SenderPubkey = pubkey → prev.inBounds = true →
      db.balances (paymentChannelAccount h k) T.Ticker = T.units - prev.units →
      db.balances rcpt T.Ticker = r0 + prev.units →
      (∀ p ∈ pays, SignedTransfer h ctx k pubkey T.Ticker p.1 p.2 ∧ p.2.Compare T ≤ 0) →
      List.Chain (fun x y => 0 < y.Compare x) prev (pays.map Prod.snd) →
      ∃ outs, deliverTransfers h ctx db (pays.map Prod.fst) = some outs ∧
        List.Forall₂ (fun out a =>
          out.err = none ∧ out.db.balances rcpt T.Ticker = r0 + a.units ∧
          out.db.balances (paymentChannelAccount h k) T.Ticker = T.units - a.units ∧
          (a = T → out.db.paychans k = none) ∧ (a ≠ T → out.db.paychans k ≠ none))
          outs (pays.map Prod.snd) := by
  intro pays
  induction pays with
  | nil =>
    intro prev db pc _ _ _ _ _ _ _ _ _ _
    exact ⟨[], rfl, List.Forall₂.nil⟩
  | cons p rest ih =>
    intro prev db pc hpc hvalid hpst hr hk hprev hesc hbal hsigned hchain
    simp only [List.map_cons, List.chain_cons] at hchain
    obtain ⟨hgt, hchain2⟩ := hchain
    obtain ⟨hs, hle⟩ := hsigned p (List.mem_cons_self _ _)
    subst hr; subst hk
    obtain ⟨out, hout, herr, hesc1, hbal1, hdel, hkeep⟩ :=
      transfer_step h hledger ctx db p.1 k pc T prev p.2 hpc hvalid hpst hprev hesc hrcpt hs hgt
        hle hT
    have hbal2 : out.db.balances pc.Recipient T.Ticker = r0 + p.2.units := by
      rw [hbal1, hbal]; ring
    by_cases heq : p.2 = T
    · cases rest with
      | nil =>
        refine ⟨[out], ?_, ?_⟩
        · simp [deliverTransfers, hout]
        · exact List.Forall₂.cons ⟨herr, hbal2, hesc1, hdel, fun hne => absurd heq hne⟩
            List.Forall₂.nil
      | cons q rest2 =>
        exfalso
        simp only [List.map_cons, List.chain_cons] at hchain2
        have hq := (hsigned q (List.mem_cons_of_mem _ (List.mem_cons_self _ _))).2
        rw [heq] at hchain2
        omega
    · obtain ⟨pc1, hpc1, hvalid1, hr1, hk1⟩ := hkeep heq
      have hst1 : p.2.SameType T = true := by simp [Coin.SameType, hs.sameTicker]
      obtain ⟨outs, houts, hall⟩ := ih p.2 out.db pc1 hpc1 hvalid1 hst1 hr1 hk1 hs.inBounds hesc1
        hbal2
        (fun q hq => hsigned q (List.mem_cons_of_mem _ hq)) hchain2
      refine ⟨out :: outs, ?_, ?_⟩
      · simp [deliverTransfers, hout, houts]
      · refine List.Forall₂.cons ⟨herr, hbal2, hesc1, hdel, fun _ => ?_⟩ hall
        rw [hpc1]; simp


theorem forall2_getLast {α β : Type} {R : α → β → Prop} :
    ∀ {l1 : List α} {l2 : List β}, List.Forall₂ R l1 l2 →
      ∀ b, l2.getLast? = some b → ∃ a, l1.getLast? = some a ∧ R a b := by
  intro l1 l2 hall
  induction hall with
  | nil => intro b hb; simp at hb
  | cons hab hrest ih =>
    rename_i a1 b1 t1 t2
    intro b hb
    cases hrest with
    | nil =>
      simp only [List.getLast?_singleton, Option.some.injEq] at hb
      subst hb
      exact ⟨a1, by simp, hab⟩
    | cons hab2 hrest2 =>
      rename_i a2 b2 t3 t4
      have hb2 : (b2 :: t4).getLast? = some b := by
        simpa [List.getLast?_cons_cons] using hb
      obtain ⟨a, ha, hr⟩ := ih b hb2
      exact ⟨a, by simpa [List.getLast?_cons_cons] using ha, hr⟩

theorem create_deliver_eq {h : Handler} {ctx : Context} {db : Store} {tx : Tx}
    {msg : CreatePaymentChannelMsg} {total : Coin}
    (hv : createPaymentChannelHandler.validate h ctx db tx = (some msg, none))
    (htot : msg.Total = some total) (hsrc : msg.Src ≠ none) (hkey : msg.SenderPubkey ≠ none)
    (hrcp : msg.Recipient ≠ none) (htime : 0 < msg.Timeout) (hpos : total.IsPositive = true)
    (hmemo : msg.Memo.utf8ByteSize ≤ 128) :
    createPaymentChannelHandler.Deliver h ctx db tx =
      match (h.MoveCoins
          { db with
            seq := db.seq + 1
            paychans := fun x => if x = seqKey (db.seq + 1) then
              some { Src := msg.Src, SenderPubkey := msg.SenderPubkey,
                     Recipient := msg.Recipient, Total := msg.Total, Timeout := msg.Timeout,
                     Memo := msg.Memo,
                     Transferred := some { Whole := 0, Fractional := 0,
                                           Ticker := total.Ticker } }
              else db.paychans x }
          msg.Src (paymentChannelAccount h (seqKey (db.seq + 1))) total).2 with
      | some err => some ⟨{}, some (errors.E err "cannot move coins"),
          (h.MoveCoins
            { db with
              seq := db.seq + 1
              paychans := fun x => if x = seqKey (db.seq + 1) then
                some { Src := msg.Src, SenderPubkey := msg.SenderPubkey,
                       Recipient := msg.Recipient, Total := msg.Total, Timeout := msg.Timeout,
                       Memo := msg.Memo,
                       Transferred := some { Whole := 0, Fractional := 0,
                                             Ticker := total.Ticker } }
                else db.paychans x }
            msg.Src (paymentChannelAccount h (seqKey (db.seq + 1))) total).1⟩
      | none => some ⟨{ Data := seqKey (db.seq + 1) }, none,
          (h.MoveCoins
            { db with
              seq := db.seq + 1
              paychans := fun x => if x = seqKey (db.seq + 1) then
                some { Src := msg.Src, SenderPubkey := msg.SenderPubkey,
                       Recipient := msg.Recipient, Total := msg.Total, Timeout := msg.Timeout,
                       Memo := msg.Memo,
                       Transferred := some { Whole := 0, Fractional := 0,
                                             Ticker := total.Ticker } }
                else db.paychans x }
            msg.Src (paymentChannelAccount h (seqKey (db.seq + 1))) total).1⟩ := by
  have hvalid := PaymentChannel.validate_of_valid
    (create_record_valid htot hsrc hkey hrcp htime hpos hmemo)
  simp only [createPaymentChannelHandler.Deliver, hv, htot, PaymentChannelBucket.Create,
    orm.Sequence.NextVal, orm.Bucket.Save]
  rw [htot] at hvalid
  simp only [hvalid]

theorem Coin.units_pos_of_isPositive {c : Coin} (hb : c.inBounds = true)
    (hp : c.IsPositive = true) : 0 < c.units := by
  simp only [Coin.inBounds, Bool.and_eq_true, decide_eq_true_eq, FracUnit] at hb
  simp only [Coin.IsPositive, Bool.or_eq_true, decide_eq_true_eq, Bool.and_eq_true,
    beq_iff_eq] at hp
  simp only [Coin.units, FracUnit]
  omega

theorem create_step (h : Handler) (hledger : h.MoveCoins = cash.MoveCoins)
    (ctx0 : Context) (db0 : Store) (txc : Tx) (cm : CreatePaymentChannelMsg) (T : Coin)
    (hv : createPaymentChannelHandler.validate h ctx0 db0 txc = (some cm, none))
    (htot : cm.Total = some T) (hsrc : cm.Src ≠ none) (hkey : cm.SenderPubkey ≠ none)
    (hrcp : cm.Recipient ≠ none) (htime : 0 < cm.Timeout) (hmemo : cm.Memo.utf8ByteSize ≤ 128)
    (hpos : T.IsPositive = true) (hT : T.inBounds = true)
    (hesc0 : db0.balances (paymentChannelAccount h (seqKey (db0.seq + 1))) T.Ticker = 0)
    (hfunds : T.units ≤ db0.balances cm.Src T.Ticker) :
    ∃ created pc,
      createPaymentChannelHandler.Deliver h ctx0 db0 txc = some created ∧
      created.err = none ∧ created.res.Data = seqKey (db0.seq + 1) ∧
      created.db.paychans (seqKey (db0.seq + 1)) = some pc ∧
      pc.Valid T ⟨0, 0, T.Ticker⟩ ∧ pc.Recipient = cm.Recipient ∧
      pc.SenderPubkey = cm.SenderPubkey ∧
      created.db.balances (paymentChannelAccount h (seqKey (db0.seq + 1))) T.Ticker
        = T.units := by
  have hTpos := Coin.units_pos_of_isPositive hT hpos
  have hsrcne : cm.Src ≠ paymentChannelAccount h (seqKey (db0.seq + 1)) := by
    intro heq
    rw [heq, hesc0] at hfunds
    omega
  have hmove := cash.moveCoins_ok
    { db0 with
      seq := db0.seq + 1
      paychans := fun x => if x = seqKey (db0.seq + 1) then
        some { Src := cm.Src, SenderPubkey := cm.SenderPubkey, Recipient := cm.Recipient,
               Total := cm.Total, Timeout := cm.Timeout, Memo := cm.Memo,
               Transferred := some { Whole := 0, Fractional := 0, Ticker := T.Ticker } }
        else db0.paychans x }
    cm.Src (paymentChannelAccount h (seqKey (db0.seq + 1))) T hT hfunds
  have hcreate := create_deliver_eq hv htot hsrc hkey hrcp htime hpos hmemo
  rw [hledger, hmove] at hcreate
  simp only at hcreate
  refine ⟨_, _, hcreate, rfl, rfl, by simp,
    create_record_valid htot hsrc hkey hrcp htime hpos hmemo, rfl, rfl, ?_⟩
  simp [hsrcne, hsrcne.symm, hesc0]

theorem Coin.compare_neg_of_lt_of_le {a b c : Coin} (hab : 0 < b.Compare a)
    (hbc : b.Compare c ≤ 0) : a.Compare c < 0 := by
  unfold Coin.Compare at *
  split_ifs at hab hbc ⊢ <;> omega

theorem chain_dropLast_ne :
    ∀ (amounts : List Coin) (prev T : Coin),
      List.Chain (fun x y => 0 < y.Compare x) prev amounts →
      amounts.getLast? = some T → ∀ a ∈ amounts.dropLast, a ≠ T := by
  intro amounts
  induction amounts with
  | nil => intro _ _ _ _ a ha; simp at ha
  | cons b rest ih =>
    intro prev T hchain hlast a ha
    rw [List.chain_cons] at hchain
    cases rest with
    | nil => simp at ha
    | cons c rest2 =>
      have hlast2 : (c :: rest2).getLast? = some T := by
        simpa [List.getLast?_cons_cons] using hlast
      rw [List.dropLast_cons₂] at ha
      rcases List.mem_cons.mp ha with hab | hin
      · subst hab
        have hc := chain_compare_le_last _ _ T hchain.2 hlast2 c (List.mem_cons_self _ _)
        have hcb := (List.chain_cons.mp hchain.2).1
        have hneg := Coin.compare_neg_of_lt_of_le hcb hc
        intro heq
        rw [heq, Coin.compare_self] at hneg
        omega
      · exact ih b T hchain.2 hlast2 a hin

theorem forall2_dropLast_mem {α β : Type} {R : α → β → Prop} :
    ∀ {l1 : List α} {l2 : List β}, List.Forall₂ R l1 l2 →
      ∀ a ∈ l1.dropLast, ∃ b ∈ l2.dropLast, R a b := by
  intro l1 l2 hall
  induction hall with
  | nil => intro a ha; simp at ha
  | cons hab hrest ih =>
    rename_i a1 b1 t1 t2
    intro a ha
    cases hrest with
    | nil => simp at ha
    | cons hab2 hrest2 =>
      rename_i a2 b2 t3 t4
      rw [List.dropLast_cons₂] at ha ⊢
      rcases List.mem_cons.mp ha with h1 | h2
      · subst h1
        exact ⟨b1, List.mem_cons_self _ _, hab⟩
      · obtain ⟨b, hb, hr⟩ := ih a h2
        exact ⟨b, List.mem_cons_of_mem _ hb, hr⟩

/-! ## The round trip of a channel -/

/-- C7, the case that fails: `[1]` holds 100 FOO, the escrow account of the next
key holds nothing, and the create names that escrow account as the recipient.
The create and the signed transfers for the cumulative amounts 40 and 100 all
succeed, the record is deleted by the last transfer and not before, and the
escrow account ends with the 100 FOO, not with nothing. -/
theorem channel_round_trip_escrow_recipient :
    (demoFundedStore 100).balances (some (112 :: seqKey 1)) "FOO" = 0 ∧
    ∃ created out1 out2,
      createPaymentChannelHandler.Deliver demoHandler demoCtx (demoFundedStore 100)
        demoEscrowCreateTx = some created ∧
      created.err = none ∧ created.res.Data = seqKey 1 ∧
      paymentChannelAccount demoHandler (seqKey 1) = some (112 :: seqKey 1) ∧
      deliverTransfers demoHandler demoCtx created.db
        [demoTransferTx 40 (some (seqKey 1)), demoTransferTx 100 (some (seqKey 1))]
        = some [out1, out2] ∧
      out1.err = none ∧ out2.err = none ∧
      out1.db.paychans (seqKey 1) ≠ none ∧
      out2.db.paychans (seqKey 1) = none ∧
      out2.db.balances (some (112 :: seqKey 1)) "FOO" = Coin.units ⟨100, 0, "FOO"⟩ ∧
      out2.db.balances (some (112 :: seqKey 1)) "FOO" ≠ 0 :=
  ⟨rfl, _, _, _, rfl, rfl, rfl, rfl, rfl, rfl, rfl, by decide, rfl, by decide, by decide⟩

/-- Claim C7, amended.  Round trip, with the ledger of section 4.2.  Let `T` be a positive
total and `pays` transfers on the new channel, signed by the channel's sender
key, whose cumulative amounts increase strictly from above zero up to the
last one, which is `T`.  Starting from a store in which the escrow account of
the next key holds nothing, the source holds at least `T` and the recipient
is not the escrow account: the create succeeds, returns the key and puts `T`
in escrow; every transfer then succeeds, the one for the cumulative amount
`a` leaving the recipient with `a` received in all (so it moved `a` minus the
amount before it) and `T - a` in escrow, with the record still stored unless
`a` is `T`; the record is stored after every transfer but the last; after the
last transfer the record is deleted, the escrow account is back at zero and
the recipient has received `T`. -/
theorem channel_round_trip (h : Handler) (hledger : h.MoveCoins = cash.MoveCoins)
    (ctx0 ctx : Context) (db0 : Store) (txc : Tx) (cm : CreatePaymentChannelMsg) (T : Coin)
    (pays : List (Tx × Coin))
    (hv : createPaymentChannelHandler.validate h ctx0 db0 txc = (some cm, none))
    (htot : cm.Total = some T) (hsrc : cm.Src ≠ none) (hkey : cm.SenderPubkey ≠ none)
    (hrcp : cm.Recipient ≠ none) (htime : 0 < cm.Timeout) (hmemo : cm.Memo.utf8ByteSize ≤ 128)
    (hpos : T.IsPositive = true) (hT : T.inBounds = true)
    (hesc0 : db0.balances (paymentChannelAccount h (seqKey (db0.seq + 1))) T.Ticker = 0)
    (hfunds : T.units ≤ db0.balances cm.Src T.Ticker)
    (hrcpt : cm.Recipient ≠ paymentChannelAccount h (seqKey (db0.seq + 1)))
    (hsigned : ∀ p ∈ pays,
      SignedTransfer h ctx (seqKey (db0.seq + 1)) cm.SenderPubkey T.Ticker p.1 p.2)
    (hinc : List.Chain (fun x y => 0 < y.Compare x) ⟨0, 0, T.Ticker⟩ (pays.map Prod.snd))
    (hlast : (pays.map Prod.snd).getLast? = some T) :
    ∃ created outs last,
      createPaymentChannelHandler.Deliver h ctx0 db0 txc = some created ∧
      created.err = none ∧ created.res.Data = seqKey (db0.seq + 1) ∧
      created.db.balances (paymentChannelAccount h (seqKey (db0.seq + 1))) T.Ticker = T.units ∧
      deliverTransfers h ctx created.db (pays.map Prod.fst) = some outs ∧
      List.Forall₂ (fun out a =>
        out.err = none ∧
        out.db.balances cm.Recipient T.Ticker
          = created.db.balances cm.Recipient T.Ticker + a.units ∧
        out.db.balances (paymentChannelAccount h (seqKey (db0.seq + 1))) T.Ticker
          = T.units - a.units ∧
        (a = T → out.db.paychans (seqKey (db0.seq + 1)) = none) ∧
        (a ≠ T → out.db.paychans (seqKey (db0.seq + 1)) ≠ none))
        outs (pays.map Prod.snd) ∧
      (∀ out ∈ outs.dropLast, out.db.paychans (seqKey (db0.seq + 1)) ≠ none) ∧
      outs.getLast? = some last ∧
      last.db.paychans (seqKey (db0.seq + 1)) = none ∧
      last.db.balances (paymentChannelAccount h (seqKey (db0.seq + 1))) T.Ticker = 0 ∧
      last.db.balances cm.Recipient T.Ticker
        = created.db.balances cm.Recipient T.Ticker + T.units := by
  obtain ⟨created, pc, hcreate, herr, hdata, hpc, hvalid, hr, hk, hesc⟩ :=
    create_step h hledger ctx0 db0 txc cm T hv htot hsrc hkey hrcp htime hmemo hpos hT hesc0 hfunds
  have hzero : (⟨0, 0, T.Ticker⟩ : Coin).units = 0 := by simp [Coin.units]
  have hle := chain_compare_le_last _ _ T hinc hlast
  obtain ⟨outs, houts, hall⟩ := transfers_run h hledger ctx (seqKey (db0.seq + 1)) T hT
    cm.Recipient cm.SenderPubkey hrcpt (created.db.balances cm.Recipient T.Ticker)
    pays ⟨0, 0, T.Ticker⟩ created.db pc hpc hvalid (by simp [Coin.SameType]) hr hk
    (by simp [Coin.inBounds, FracUnit])
    (by rw [hesc, hzero]; ring) (by rw [hzero]; ring)
    (fun p hp => ⟨hsigned p hp, hle p.2 (List.mem_map_of_mem _ hp)⟩) hinc
  obtain ⟨last, hlastout, _, hl2, hl3, hl4, _⟩ := forall2_getLast hall T hlast
  refine ⟨created, outs, last, hcreate, herr, hdata, hesc, houts, hall, ?_, hlastout, hl4 rfl,
    by rw [hl3]; ring, hl2⟩
  intro out hout
  obtain ⟨a, ha, _, _, _, _, hkeep⟩ := forall2_dropLast_mem hall out hout
  exact hkeep (chain_dropLast_ne _ _ T hinc hlast a ha)


theorem demo_signed (amount : Int) (h0 : 0 ≤ amount) :
    SignedTransfer demoHandler demoCtx (seqKey 1) (some [9]) "FOO"
      (demoTransferTx amount (some (seqKey 1))) ⟨amount, 0, "FOO"⟩ := by
  refine ⟨⟨_, _, rfl, rfl, rfl, rfl, rfl, rfl, ?_, seqKey 1, rfl, rfl⟩, ?_, rfl⟩
  · show ("latest" : String).utf8ByteSize ≤ 128
    decide
  · simp [Coin.inBounds, FracUnit, h0]

/-- Claim C7, witness: `[1]` holds 100 FOO and opens a channel of 100 FOO to `[2]`;
the signed transfers for the cumulative amounts 40 and then 100 follow. -/
theorem channel_round_trip_witness :
    ∃ created outs last,
      createPaymentChannelHandler.Deliver demoHandler demoCtx (demoFundedStore 100) demoCreateTx
        = some created ∧
      created.err = none ∧ created.res.Data = seqKey 1 ∧
      created.db.balances (some (112 :: seqKey 1)) "FOO" = Coin.units ⟨100, 0, "FOO"⟩ ∧
      deliverTransfers demoHandler demoCtx created.db
        [demoTransferTx 40 (some (seqKey 1)), demoTransferTx 100 (some (seqKey 1))]
        = some outs ∧
      List.Forall₂ (fun (out : DeliverOut) (a : Coin) =>
        out.err = none ∧
        out.db.balances (some [2]) "FOO" = created.db.balances (some [2]) "FOO" + a.units ∧
        out.db.balances (some (112 :: seqKey 1)) "FOO" = Coin.units ⟨100, 0, "FOO"⟩ - a.units ∧
        (a = ⟨100, 0, "FOO"⟩ → out.db.paychans (seqKey 1) = none) ∧
        (a ≠ ⟨100, 0, "FOO"⟩ → out.db.paychans (seqKey 1) ≠ none))
        outs ([⟨40, 0, "FOO"⟩, ⟨100, 0, "FOO"⟩] : List Coin) ∧
      (∀ out ∈ outs.dropLast, out.db.paychans (seqKey 1) ≠ none) ∧
      outs.getLast? = some last ∧
      last.db.paychans (seqKey 1) = none ∧
      last.db.balances (some (112 :: seqKey 1)) "FOO" = 0 ∧
      last.db.balances (some [2]) "FOO"
        = created.db.balances (some [2]) "FOO" + Coin.units ⟨100, 0, "FOO"⟩ :=
  channel_round_trip demoHandler rfl demoCtx demoCtx (demoFundedStore 100) demoCreateTx
    demoCreateMsg ⟨100, 0, "FOO"⟩
    [(demoTransferTx 40 (some (seqKey 1)), ⟨40, 0, "FOO"⟩),
     (demoTransferTx 100 (some (seqKey 1)), ⟨100, 0, "FOO"⟩)]
    (by decide) rfl (by decide) (by decide) (by decide) (by decide) (by decide) (by decide)
    (by decide) (by decide) (by decide) (by decide)
    (by
      intro p hp
      simp only [List.mem_cons, List.mem_singleton, List.not_mem_nil, or_false] at hp
      rcases hp with hp | hp
      · subst hp; exact demo_signed 40 (by decide)
      · subst hp; exact demo_signed 100 (by decide))
    (List.Chain.cons (by decide) (List.Chain.cons (by decide) List.Chain.nil))
    rfl

set_option maxRecDepth 100000 in
theorem demoMemoChannel_accepted : (demoMemoChannel 128).Validate = none := by
  decide

set_option maxRecDepth 100000 in
theorem demoMemoChannel_rejected :
    (demoMemoChannel 129).Validate = some (.code .invalidCondition "memo too long") := by
  decide

/-! ## The record invariants -/

theorem PaymentChannel.validateOrPanic_eq (pc : PaymentChannel) :
    pc.ValidateOrPanic = some pc.Validate := by
  obtain ⟨src, key, rcp, total, timeout, memo, transferred⟩ := pc
  unfold PaymentChannel.ValidateOrPanic PaymentChannel.Validate
  by_cases h1 : src = none
  · simp only [h1, if_true]
  by_cases h2 : key = none
  · simp only [h1, h2, if_true, if_false]
  by_cases h3 : rcp = none
  · simp only [h1, h2, h3, if_true, if_false]
  by_cases h4 : timeout ≤ 0
  · simp only [h1, h2, h3, h4, if_true, if_false]
  simp only [h1, h2, h3, h4, if_false]
  cases total with
  | none => rfl
  | some total =>
    simp only [reduceCtorEq, if_false, Option.map_some']
    cases hp : total.IsPositive with
    | false => rfl
    | true =>
      simp only [Bool.not_true, Bool.false_eq_true, if_false]
      by_cases h5 : memo.utf8ByteSize > 128
      · simp only [h5, if_true]
      simp only [h5, if_false]
      cases transferred with
      | none => rfl
      | some transferred =>
        simp only [reduceCtorEq, if_false]
        cases hn : transferred.IsNonNegative with
        | false => rfl
        | true =>
          simp only [Bool.not_true, Bool.false_eq_true, if_false, Bool.false_or]
          by_cases hc : transferred.Compare total > 0
          · simp [hc]
          · simp [hc]

/-- Claim C11.  `PaymentChannel.Validate` returns on every record, a record without
total or without transferred amount included: with every read through a
pointer spelled out, no nil pointer is read and the answer is an error of the
invalid-condition code.  It returns nil exactly when `Src`, `SenderPubkey` and
`Recipient` are present (not nil: an empty address that is not nil is
present), `Timeout > 0`, `Total` is present and strictly positive, `Memo` has
at most 128 bytes (128 accepted, 129 rejected), and `Transferred` is present,
non-negative and not greater than `Total`, the two compared as amounts
whatever their tickers.  A missing `Src`, `SenderPubkey` or `Recipient` yields
the missing-condition code and every other failure the invalid-condition
code. -/
theorem paymentChannel_validate_iff (pc : PaymentChannel) :
    (pc.Validate = none ↔
      pc.Src ≠ none ∧ pc.SenderPubkey ≠ none ∧ pc.Recipient ≠ none ∧ 0 < pc.Timeout ∧
      (∃ total, pc.Total = some total ∧ total.IsPositive = true ∧
        ∃ transferred, pc.Transferred = some transferred ∧
          transferred.IsNonNegative = true ∧ transferred.Compare total ≤ 0) ∧
      pc.Memo.utf8ByteSize ≤ 128) ∧
    (∀ err, pc.Validate = some err →
      ((pc.Src = none ∨ pc.SenderPubkey = none ∨ pc.Recipient = none) →
        err.kind = .missingCondition) ∧
      (pc.Src ≠ none → pc.SenderPubkey ≠ none → pc.Recipient ≠ none →
        err.kind = .invalidCondition)) ∧
    (pc.Total = none → ∃ err, pc.Validate = some err) ∧
    (pc.Transferred = none → ∃ err, pc.Validate = some err) ∧
    (demoMemoChannel 128).Validate = none ∧
    (demoMemoChannel 129).Validate = some (.code .invalidCondition "memo too long") ∧
    pc.ValidateOrPanic = some pc.Validate ∧
    ({ demoChannel 40 with Src := some [], Recipient := some [] } : PaymentChannel).Validate
      = none := by
  refine ⟨⟨?_, ?_⟩, ?_, ?_, ?_, ?_, ?_, PaymentChannel.validateOrPanic_eq pc, by decide⟩
  · intro hv
    obtain ⟨total, transferred, v⟩ := PaymentChannel.valid_of_validate hv
    exact ⟨v.src, v.senderPubkey, v.recipient, v.timeout,
      ⟨total, v.hasTotal, v.totalPositive, transferred, v.hasTransferred, v.nonNegative,
        v.leTotal⟩, v.memo⟩
  · rintro ⟨h1, h2, h3, h4, ⟨total, h5, h6, transferred, h7, h8, h9⟩, h11⟩
    exact PaymentChannel.validate_of_valid ⟨h1, h2, h3, h4, h5, h6, h11, h7, h8, h9⟩
  · intro err hv
    unfold PaymentChannel.Validate at hv
    refine ⟨?_, ?_⟩
    · intro hmiss
      split_ifs at hv with h1 h2 h3
      · cases hv; rfl
      · cases hv; rfl
      · cases hv; rfl
      all_goals (exfalso; rcases hmiss with h | h | h <;> contradiction)
    · intro h1 h2 h3
      simp only [h1, h2, h3, if_false] at hv
      repeat' split at hv
      all_goals first | (cases hv; rfl) | (simp at hv)
  · intro hnone
    cases hv : pc.Validate with
    | some err => exact ⟨err, rfl⟩
    | none =>
      obtain ⟨total, _, v⟩ := PaymentChannel.valid_of_validate hv
      have hsome := v.hasTotal
      rw [hnone] at hsome
      simp at hsome
  · intro hnone
    cases hv : pc.Validate with
    | some err => exact ⟨err, rfl⟩
    | none =>
      obtain ⟨_, transferred, v⟩ := PaymentChannel.valid_of_validate hv
      have hsome := v.hasTransferred
      rw [hnone] at hsome
      simp at hsome
  · exact demoMemoChannel_accepted
  · exact demoMemoChannel_rejected

/-- Claim C12, as stated, fails: the record with a total of 100 FOO of which 40 BAR
are said to be transferred is accepted by `PaymentChannel.Validate`, which
does not compare the two tickers. -/
theorem paymentChannel_validate_mixed_tickers :
    demoMixedChannel.Validate = none ∧
    demoMixedChannel.Total = some ⟨100, 0, "FOO"⟩ ∧
    demoMixedChannel.Transferred = some ⟨40, 0, "BAR"⟩ ∧
    Coin.SameType ⟨40, 0, "BAR"⟩ ⟨100, 0, "FOO"⟩ = false := by
  decide

/-- Claim C12, amended.  Every record `PaymentChannel.Validate` accepts has a total
and a transferred amount with `0 ≤ Transferred ≤ Total`, the two compared on
their whole and fractional parts; nothing is said of their tickers. -/
theorem paymentChannel_validate_bounds (pc : PaymentChannel) (hv : pc.Validate = none) :
    ∃ total transferred, pc.Total = some total ∧ pc.Transferred = some transferred ∧
      0 ≤ transferred.Whole ∧ 0 ≤ transferred.Fractional ∧
      transferred.Compare total ≤ 0 := by
  obtain ⟨total, transferred, v⟩ := PaymentChannel.valid_of_validate hv
  have hnn := v.nonNegative
  simp only [Coin.IsNonNegative, Bool.and_eq_true, decide_eq_true_eq] at hnn
  exact ⟨total, transferred, v.hasTotal, v.hasTransferred, hnn.1, hnn.2, v.leTotal⟩

/-- Claim C12 amended, witness: the channel with 40 of 100 FOO transferred. -/
theorem paymentChannel_validate_bounds_witness :
    ∃ total transferred, (demoChannel 40).Total = some total ∧
      (demoChannel 40).Transferred = some transferred ∧
      0 ≤ transferred.Whole ∧ 0 ≤ transferred.Fractional ∧
      transferred.Compare total ≤ 0 :=
  paymentChannel_validate_bounds (demoChannel 40) (by decide)

/-! ## `Check` of the payment-channel handlers -/

theorem threaded_getPaymentChannel_snd {σ : Type}
    (Get : σ → Bytes → Except Error (Option PaymentChannel) × σ) (db : σ) (id : Bytes) :
    (threaded.PaymentChannelBucket.GetPaymentChannel Get db id).2 = (Get db id).2 := by
  unfold threaded.PaymentChannelBucket.GetPaymentChannel
  simp only
  split <;> rfl

theorem threaded_getPaymentChannel_read (db : Store) (id : Bytes) :
    threaded.PaymentChannelBucket.GetPaymentChannel (fun s k => (orm.Bucket.Get s k, s)) db id
      = (PaymentChannelBucket.GetPaymentChannel db id, db) := by
  unfold threaded.PaymentChannelBucket.GetPaymentChannel PaymentChannelBucket.GetPaymentChannel
  simp only
  split <;> simp_all

theorem threaded_create_validate_eq {σ : Type} (h : Handler) (ctx : Context) (s : σ) (db : Store)
    (tx : Tx) :
    threaded.createPaymentChannelHandler.validate h ctx s tx
      = (createPaymentChannelHandler.validate h ctx db tx, s) := by
  unfold threaded.createPaymentChannelHandler.validate createPaymentChannelHandler.validate
  cases tx.GetMsg with
  | error err => rfl
  | ok m =>
    cases m with
    | create msg =>
      simp only
      cases h.ValidateCreate msg with
      | some err => rfl
      | none =>
        simp only
        split_ifs <;> rfl
    | _ => rfl

theorem threaded_transfer_validate_snd {σ : Type} (h : Handler)
    (Get : σ → Bytes → Except Error (Option PaymentChannel) × σ) (ctx : Context) (s : σ)
    (tx : Tx) :
    (threaded.transferPaymentChannelHandler.validate h Get ctx s tx).2 = s
    ∨ ∃ id, (threaded.transferPaymentChannelHandler.validate h Get ctx s tx).2 = (Get s id).2 := by
  unfold threaded.transferPaymentChannelHandler.validate
  cases tx.GetMsg with
  | error err => exact Or.inl rfl
  | ok m =>
    cases m with
    | transfer msg =>
      simp only
      cases h.ValidateTransfer msg with
      | some err => exact Or.inl rfl
      | none =>
        simp only
        cases msg.Payment with
        | none => exact Or.inl rfl
        | some payment =>
          simp only
          split_ifs
          · exact Or.inl rfl
          · right
            refine ⟨payment.ChannelId, ?_⟩
            rw [← threaded_getPaymentChannel_snd]
            repeat' split
            all_goals rfl
    | _ => exact Or.inl rfl

theorem threaded_transfer_validate_eq (h : Handler) (ctx : Context) (db : Store) (tx : Tx) :
    threaded.transferPaymentChannelHandler.validate h (fun s k => (orm.Bucket.Get s k, s))
        ctx db tx
      = (transferPaymentChannelHandler.validate h ctx db tx, db) := by
  unfold threaded.transferPaymentChannelHandler.validate transferPaymentChannelHandler.validate
  simp only [threaded_getPaymentChannel_read]
  cases tx.GetMsg with
  | error err => rfl
  | ok m =>
    cases m with
    | transfer msg =>
      simp only
      cases h.ValidateTransfer msg with
      | some err => rfl
      | none =>
        simp only
        cases msg.Payment with
        | none => rfl
        | some payment =>
          simp only
          split_ifs
          · rfl
          · cases PaymentChannelBucket.GetPaymentChannel db payment.ChannelId with
            | error err => rfl
            | ok pc =>
              simp only
              cases h.Marshal payment with
              | error err => rfl
              | ok raw =>
                simp only
                split_ifs
                · rfl
                · cases payment.Amount with
                  | none => rfl
                  | some amount =>
                    simp only
                    cases pc.Total with
                    | none => rfl
                    | some total =>
                      simp only
                      split_ifs
                      · rfl
                      · rfl
                      · cases pc.Transferred with
                        | none => rfl
                        | some transferred =>
                          simp only
                          split_ifs <;> rfl
    | _ => rfl

/-- Claim C13.  `Check` of each of the three handlers writes nothing to the store
it is given.  With the store of any type handed on through every call that
receives it, `Check` of the create and of the close handler hands it to no
call and leaves it as it was; `Check` of the transfer handler hands it to at
most one call, the `Get` of the bucket inside `GetPaymentChannel`, and leaves
what that call left, so the store as it was since `Get` is a read.  `Check`
succeeds exactly when the handler's `validate` succeeds, and the gas it then
allots is a constant: 300 for a create, 5 for a transfer, 0 for a close.  The
close handler's `Check` does not depend on the store, so it succeeds for a
valid close message whatever the channel ID. -/
theorem check_follows_validate (h : Handler) (ctx : Context) (db : Store) (tx : Tx) :
    (∀ (σ : Type) (Get : σ → Bytes → Except Error (Option PaymentChannel) × σ) (s : σ),
      threaded.createPaymentChannelHandler.Check h ctx s tx
        = (createPaymentChannelHandler.Check h ctx db tx, s)
      ∧ threaded.closePaymentChannelHandler.Check h ctx s tx
        = (closePaymentChannelHandler.Check h ctx db tx, s)
      ∧ ((threaded.transferPaymentChannelHandler.Check h Get ctx s tx).2 = s
        ∨ ∃ id, (threaded.transferPaymentChannelHandler.Check h Get ctx s tx).2 = (Get s id).2)
      ∧ ((∀ s0 id, (Get s0 id).2 = s0) →
          (threaded.transferPaymentChannelHandler.Check h Get ctx s tx).2 = s))
    ∧ threaded.transferPaymentChannelHandler.Check h (fun s k => (orm.Bucket.Get s k, s)) ctx db tx
        = (transferPaymentChannelHandler.Check h ctx db tx, db)
    ∧ (((createPaymentChannelHandler.Check h ctx db tx).2 = none ↔
        (createPaymentChannelHandler.validate h ctx db tx).2 = none) ∧
      ((createPaymentChannelHandler.Check h ctx db tx).2 = none →
        (createPaymentChannelHandler.Check h ctx db tx).1 = { GasAllocated := 300 })) ∧
    (((∃ res, transferPaymentChannelHandler.Check h ctx db tx = some (res, none)) ↔
        (∃ msg, transferPaymentChannelHandler.validate h ctx db tx = some (msg, none))) ∧
      (∀ res, transferPaymentChannelHandler.Check h ctx db tx = some (res, none) →
        res = { GasAllocated := 5 })) ∧
    (((closePaymentChannelHandler.Check h ctx db tx).2 = none ↔
        (closePaymentChannelHandler.validate h ctx db tx).2 = none) ∧
      (closePaymentChannelHandler.Check h ctx db tx).1 = { GasAllocated := 0 } ∧
      (∀ other : Store, closePaymentChannelHandler.Check h ctx other tx
        = closePaymentChannelHandler.Check h ctx db tx) ∧
      (∀ msg, tx.GetMsg = .ok (.close msg) → h.ValidateClose msg = none →
        closePaymentChannelHandler.Check h ctx db tx = ({}, none))) := by
  have hsnd : ∀ (σ : Type) (Get : σ → Bytes → Except Error (Option PaymentChannel) × σ) (s : σ),
      (threaded.transferPaymentChannelHandler.Check h Get ctx s tx).2
        = (threaded.transferPaymentChannelHandler.validate h Get ctx s tx).2 := by
    intro σ Get s
    unfold threaded.transferPaymentChannelHandler.Check
    simp only
    cases (threaded.transferPaymentChannelHandler.validate h Get ctx s tx).1 with
    | none => rfl
    | some r =>
      obtain ⟨m, e⟩ := r
      cases e <;> rfl
  refine ⟨fun σ Get s => ⟨?_, ?_, ?_, ?_⟩, ?_, ⟨?_, ?_⟩, ⟨?_, ?_⟩, ⟨?_, ?_, ?_, ?_⟩⟩
  · unfold threaded.createPaymentChannelHandler.Check createPaymentChannelHandler.Check
    simp only [threaded_create_validate_eq h ctx s db tx]
    cases (createPaymentChannelHandler.validate h ctx db tx).2 <;> rfl
  · unfold threaded.closePaymentChannelHandler.Check closePaymentChannelHandler.Check
      threaded.closePaymentChannelHandler.validate closePaymentChannelHandler.validate
    cases tx.GetMsg with
    | error err => rfl
    | ok m => cases m <;> rfl
  · rw [hsnd]
    exact threaded_transfer_validate_snd h Get ctx s tx
  · intro hread
    rw [hsnd]
    rcases threaded_transfer_validate_snd h Get ctx s tx with h0 | ⟨id, h0⟩
    · exact h0
    · rw [h0, hread]
  · unfold threaded.transferPaymentChannelHandler.Check transferPaymentChannelHandler.Check
    simp only [threaded_transfer_validate_eq]
    cases transferPaymentChannelHandler.validate h ctx db tx with
    | none => rfl
    | some r =>
      obtain ⟨m, e⟩ := r
      cases e <;> rfl
  · unfold createPaymentChannelHandler.Check
    cases hv : (createPaymentChannelHandler.validate h ctx db tx).2 <;> simp
  · unfold createPaymentChannelHandler.Check
    cases hv : (createPaymentChannelHandler.validate h ctx db tx).2 <;>
      simp [createPaymentChannelCost]
  · unfold transferPaymentChannelHandler.Check
    cases hv : transferPaymentChannelHandler.validate h ctx db tx with
    | none => simp
    | some r =>
      obtain ⟨m, e⟩ := r
      cases e <;> simp
  · intro res
    unfold transferPaymentChannelHandler.Check
    cases hv : transferPaymentChannelHandler.validate h ctx db tx with
    | none => simp
    | some r =>
      obtain ⟨m, e⟩ := r
      cases e with
      | none =>
        simp only [Option.some.injEq, Prod.mk.injEq, and_true, transferPaymentChannelCost]
        intro heq
        rw [← heq]
        rfl
      | some err => simp
  · simp [closePaymentChannelHandler.Check]
  · simp [closePaymentChannelHandler.Check]
  · intro other
    simp [closePaymentChannelHandler.Check, closePaymentChannelHandler.validate]
  · intro msg hmsg hval
    simp [closePaymentChannelHandler.Check, closePaymentChannelHandler.validate, hmsg, hval]

theorem forEachMsg_ok {σ ρ : Type} (ctx : Context) (tx : AnyTx)
    (next : Context → σ → AnyTx → (ρ × Option Error) × σ) :
    ∀ (msgs : List AnyMsg) (store : σ),
      (∀ c ∈ batchCalls next ctx tx msgs store, (next c.1 c.2.1 c.2.2).1.2 = none) →
      Decorator.forEachMsg ctx tx next msgs store
        = (.ok (batchResults next ctx tx msgs store), storeAfter next ctx tx msgs store) := by
  intro msgs
  induction msgs with
  | nil => intro store _; rfl
  | cons msg rest ih =>
    intro store hall
    have h1 := hall (ctx, store, .BatchTx tx msg) (by simp [batchCalls])
    have h2 := ih (next ctx store (.BatchTx tx msg)).2
      (fun c hc => hall c (by simp [batchCalls, hc]))
    simp only at h1
    simp only [Decorator.forEachMsg, h1, h2, batchResults, storeAfter]

theorem forEachMsg_fail {σ ρ : Type} (ctx : Context) (tx : AnyTx)
    (next : Context → σ → AnyTx → (ρ × Option Error) × σ) (msg : AnyMsg) (post : List AnyMsg)
    (err : Error) :
    ∀ (pre : List AnyMsg) (store : σ),
      (∀ c ∈ batchCalls next ctx tx pre store, (next c.1 c.2.1 c.2.2).1.2 = none) →
      (next ctx (storeAfter next ctx tx pre store) (.BatchTx tx msg)).1.2 = some err →
      Decorator.forEachMsg ctx tx next (pre ++ msg :: post) store
        = (.error err, (next ctx (storeAfter next ctx tx pre store) (.BatchTx tx msg)).2) := by
  intro pre
  induction pre with
  | nil =>
    intro store _ hfail
    simp only [storeAfter] at hfail
    simp only [List.nil_append, Decorator.forEachMsg, hfail, storeAfter]
  | cons first rest ih =>
    intro store hall hfail
    have h1 := hall (ctx, store, .BatchTx tx first) (by simp [batchCalls])
    have h2 := ih (next ctx store (.BatchTx tx first)).2
      (fun c hc => hall c (by simp [batchCalls, hc])) hfail
    simp only at h1
    show Decorator.forEachMsg ctx tx next (first :: (rest ++ msg :: post)) store = _
    rw [Decorator.forEachMsg]
    simp only [h1]
    rw [h2]
    simp only [storeAfter]

theorem forEachMsg_logged_ok {σ ρ : Type} (ctx : Context) (tx : AnyTx)
    (next : Context → σ → AnyTx → (ρ × Option Error) × σ) :
    ∀ (msgs : List AnyMsg) (store : σ) (record : List (Context × σ × AnyTx)),
      (∀ c ∈ batchCalls next ctx tx msgs store, (next c.1 c.2.1 c.2.2).1.2 = none) →
      Decorator.forEachMsg ctx tx (logged next) msgs (store, record)
        = (.ok (batchResults next ctx tx msgs store),
            (storeAfter next ctx tx msgs store, record ++ batchCalls next ctx tx msgs store)) := by
  intro msgs
  induction msgs with
  | nil => intro store record _; simp [Decorator.forEachMsg, batchResults, storeAfter, batchCalls]
  | cons msg rest ih =>
    intro store record hall
    have h1 := hall (ctx, store, .BatchTx tx msg) (by simp [batchCalls])
    have h2 := ih (next ctx store (.BatchTx tx msg)).2 (record ++ [(ctx, store, .BatchTx tx msg)])
      (fun c hc => hall c (by simp [batchCalls, hc]))
    simp only at h1
    simp only [Decorator.forEachMsg, logged, h1, h2, batchResults, storeAfter, batchCalls,
      List.append_assoc, List.singleton_append]

theorem forEachMsg_logged_fail {σ ρ : Type} (ctx : Context) (tx : AnyTx)
    (next : Context → σ → AnyTx → (ρ × Option Error) × σ) (msg : AnyMsg) (post : List AnyMsg)
    (err : Error) :
    ∀ (pre : List AnyMsg) (store : σ) (record : List (Context × σ × AnyTx)),
      (∀ c ∈ batchCalls next ctx tx pre store, (next c.1 c.2.1 c.2.2).1.2 = none) →
      (next ctx (storeAfter next ctx tx pre store) (.BatchTx tx msg)).1.2 = some err →
      Decorator.forEachMsg ctx tx (logged next) (pre ++ msg :: post) (store, record)
        = (.error err, ((next ctx (storeAfter next ctx tx pre store) (.BatchTx tx msg)).2,
            record ++ batchCalls next ctx tx (pre ++ [msg]) store)) := by
  intro pre
  induction pre with
  | nil =>
    intro store record _ hfail
    simp only [storeAfter] at hfail
    simp only [List.nil_append, Decorator.forEachMsg, logged, hfail, storeAfter, batchCalls]
  | cons first rest ih =>
    intro store record hall hfail
    have h1 := hall (ctx, store, .BatchTx tx first) (by simp [batchCalls])
    have h2 := ih (next ctx store (.BatchTx tx first)).2
      (record ++ [(ctx, store, .BatchTx tx first)])
      (fun c hc => hall c (by simp [batchCalls, hc])) hfail
    simp only at h1
    show Decorator.forEachMsg ctx tx (logged next) (first :: (rest ++ msg :: post))
      (store, record) = _
    rw [Decorator.forEachMsg]
    simp only [logged, h1]
    simp only [logged] at h2
    rw [h2]
    simp only [storeAfter, List.cons_append, batchCalls, List.append_assoc,
      List.singleton_append, List.nil_append]
    rfl

theorem batchCalls_map {σ ρ : Type} (ctx : Context) (tx : AnyTx)
    (next : Context → σ → AnyTx → (ρ × Option Error) × σ) :
    ∀ (msgs : List AnyMsg) (store : σ),
      (batchCalls next ctx tx msgs store).map (fun c => (c.1, c.2.2))
        = msgs.map (fun m => (ctx, AnyTx.BatchTx tx m)) := by
  intro msgs
  induction msgs with
  | nil => intro _; rfl
  | cons msg rest ih => intro store; simp [batchCalls, ih]

theorem batchCalls_length {σ ρ : Type} (ctx : Context) (tx : AnyTx)
    (next : Context → σ → AnyTx → (ρ × Option Error) × σ) (msgs : List AnyMsg) (store : σ) :
    (batchCalls next ctx tx msgs store).length = msgs.length := by
  have := congrArg List.length (batchCalls_map ctx tx next msgs store)
  simpa using this

/-! ## The batch decorator: one call of `next` per sub-message -/

/-- Claim C14.  For a transaction whose message is a batch that passes its validation,
with sub-messages `msgs`, and a next stage that succeeds on each of them:
`Decorator.Check` and `Decorator.Deliver` call `next` once per sub-message, in
the order of the list, with the context they were given and with the store as
the call before left it; the call for the message `m` receives the `BatchTx`
that embeds the transaction `tx` and whose `GetMsg` returns `m` and no error.
The record kept by `logged next` is the list of those calls. -/
theorem batch_calls_next_in_order {σ : Type} (d : Decorator) (ctx : Context) (store : σ)
    (tx : AnyTx) (msgs : List AnyMsg) (hmsg : tx.GetMsg = .ok (.batch none msgs)) :
    (∀ next : Checker σ,
      (∀ c ∈ batchCalls next ctx tx msgs store, (next c.1 c.2.1 c.2.2).1.2 = none) →
      d.Check ctx store tx next
        = ((d.combineChecks (batchResults next ctx tx msgs store), none),
            storeAfter next ctx tx msgs store) ∧
      (d.Check ctx (store, []) tx (logged next)).2.2 = batchCalls next ctx tx msgs store ∧
      (batchCalls next ctx tx msgs store).map (fun c => (c.1, c.2.2))
        = msgs.map (fun m => (ctx, AnyTx.BatchTx tx m))) ∧
    (∀ next : Deliverer σ,
      (∀ c ∈ batchCalls next ctx tx msgs store, (next c.1 c.2.1 c.2.2).1.2 = none) →
      d.Deliver ctx store tx next
        = ((d.combineDelivers (batchResults next ctx tx msgs store), none),
            storeAfter next ctx tx msgs store) ∧
      (d.Deliver ctx (store, []) tx (logged next)).2.2 = batchCalls next ctx tx msgs store ∧
      (batchCalls next ctx tx msgs store).map (fun c => (c.1, c.2.2))
        = msgs.map (fun m => (ctx, AnyTx.BatchTx tx m))) ∧
    (∀ m, (AnyTx.BatchTx tx m).GetMsg = .ok m) := by
  refine ⟨?_, ?_, fun _ => rfl⟩
  · intro next hall
    refine ⟨?_, ?_, batchCalls_map ctx tx next msgs store⟩
    · simp only [Decorator.Check, hmsg, forEachMsg_ok ctx tx next msgs store hall]
    · simp only [Decorator.Check, hmsg, forEachMsg_logged_ok ctx tx next msgs store [] hall,
        List.nil_append]
  · intro next hall
    refine ⟨?_, ?_, batchCalls_map ctx tx next msgs store⟩
    · simp only [Decorator.Deliver, hmsg, forEachMsg_ok ctx tx next msgs store hall]
    · simp only [Decorator.Deliver, hmsg, forEachMsg_logged_ok ctx tx next msgs store [] hall,
        List.nil_append]

/-! ## The batch decorator: the first failing sub-message -/

/-- Claim C15.  For a valid batch `pre ++ m :: post` in which `next` succeeds on the
sub-messages of `pre` and fails on `m` with the error `err` (so `m` is the
first to fail): `Decorator.Check`, and likewise `Decorator.Deliver`, returns
exactly `err` with the zero-value result, and the calls made are those for
`pre` and for `m`, none for a sub-message of `post`. -/
theorem batch_first_failure {σ : Type} (d : Decorator) (ctx : Context) (store : σ)
    (tx : AnyTx) (pre : List AnyMsg) (m : AnyMsg) (post : List AnyMsg)
    (hmsg : tx.GetMsg = .ok (.batch none (pre ++ m :: post))) :
    (∀ (next : Checker σ) (err : Error),
      (∀ c ∈ batchCalls next ctx tx pre store, (next c.1 c.2.1 c.2.2).1.2 = none) →
      (next ctx (storeAfter next ctx tx pre store) (.BatchTx tx m)).1.2 = some err →
      (d.Check ctx store tx next).1 = ({}, some err) ∧
      (d.Check ctx (store, []) tx (logged next)).2.2
        = batchCalls next ctx tx (pre ++ [m]) store ∧
      (batchCalls next ctx tx (pre ++ [m]) store).map (fun c => (c.1, c.2.2))
        = (pre ++ [m]).map (fun m => (ctx, AnyTx.BatchTx tx m))) ∧
    (∀ (next : Deliverer σ) (err : Error),
      (∀ c ∈ batchCalls next ctx tx pre store, (next c.1 c.2.1 c.2.2).1.2 = none) →
      (next ctx (storeAfter next ctx tx pre store) (.BatchTx tx m)).1.2 = some err →
      (d.Deliver ctx store tx next).1 = ({}, some err) ∧
      (d.Deliver ctx (store, []) tx (logged next)).2.2
        = batchCalls next ctx tx (pre ++ [m]) store ∧
      (batchCalls next ctx tx (pre ++ [m]) store).map (fun c => (c.1, c.2.2))
        = (pre ++ [m]).map (fun m => (ctx, AnyTx.BatchTx tx m))) := by
  refine ⟨?_, ?_⟩
  · intro next err hall hfail
    refine ⟨?_, ?_, batchCalls_map ctx tx next _ store⟩
    · simp only [Decorator.Check, hmsg, forEachMsg_fail ctx tx next m post err pre store hall hfail]
    · simp only [Decorator.Check, hmsg,
        forEachMsg_logged_fail ctx tx next m post err pre store [] hall hfail, List.nil_append]
  · intro next err hall hfail
    refine ⟨?_, ?_, batchCalls_map ctx tx next _ store⟩
    · simp only [Decorator.Deliver, hmsg,
        forEachMsg_fail ctx tx next m post err pre store hall hfail]
    · simp only [Decorator.Deliver, hmsg,
        forEachMsg_logged_fail ctx tx next m post err pre store [] hall hfail, List.nil_append]

theorem demo_goodBatch_succeeds :
    ∀ c ∈ batchCalls demoDeliverer demoCtx (demoBatchTx demoGoodBatch) demoGoodBatch
        (demoFundedStore 300),
      (demoDeliverer c.1 c.2.1 c.2.2).1.2 = none := by
  intro c hc
  simp only [demoGoodBatch, batchCalls, List.mem_cons, List.mem_singleton, List.not_mem_nil,
    or_false] at hc
  rcases hc with rfl | rfl | rfl <;> rfl

/-- Claim C14, witness: a batch of three creates delivered on a store in which the
source holds 300 FOO. -/
theorem batch_calls_next_in_order_witness :
    demoDecorator.Deliver demoCtx (demoFundedStore 300) (demoBatchTx demoGoodBatch) demoDeliverer
      = ((demoDecorator.combineDelivers
            (batchResults demoDeliverer demoCtx (demoBatchTx demoGoodBatch) demoGoodBatch
              (demoFundedStore 300)), none),
          storeAfter demoDeliverer demoCtx (demoBatchTx demoGoodBatch) demoGoodBatch
            (demoFundedStore 300)) ∧
    (demoDecorator.Deliver demoCtx (demoFundedStore 300, []) (demoBatchTx demoGoodBatch)
        (logged demoDeliverer)).2.2
      = batchCalls demoDeliverer demoCtx (demoBatchTx demoGoodBatch) demoGoodBatch
          (demoFundedStore 300) ∧
    (batchCalls demoDeliverer demoCtx (demoBatchTx demoGoodBatch) demoGoodBatch
        (demoFundedStore 300)).map (fun c => (c.1, c.2.2))
      = demoGoodBatch.map (fun m => (demoCtx, AnyTx.BatchTx (demoBatchTx demoGoodBatch) m)) :=
  (batch_calls_next_in_order demoDecorator demoCtx (demoFundedStore 300)
    (demoBatchTx demoGoodBatch) demoGoodBatch rfl).2.1 demoDeliverer demo_goodBatch_succeeds

/-- Claim C15, witness: of three creates the second has its timeout in the past. -/
theorem batch_first_failure_witness :
    (demoDecorator.Deliver demoCtx (demoFundedStore 300) (demoBatchTx demoBadBatch)
        demoDeliverer).1
      = ({}, some (errors.E (errors.ECode .invalidCondition "timeout in the past")
          "invalid message")) ∧
    (demoDecorator.Deliver demoCtx (demoFundedStore 300, []) (demoBatchTx demoBadBatch)
        (logged demoDeliverer)).2.2
      = batchCalls demoDeliverer demoCtx (demoBatchTx demoBadBatch)
          ([demoCreate 50] ++ [demoCreate 5]) (demoFundedStore 300) ∧
    (batchCalls demoDeliverer demoCtx (demoBatchTx demoBadBatch)
        ([demoCreate 50] ++ [demoCreate 5]) (demoFundedStore 300)).map (fun c => (c.1, c.2.2))
      = ([demoCreate 50] ++ [demoCreate 5]).map
          (fun m => (demoCtx, AnyTx.BatchTx (demoBatchTx demoBadBatch) m)) :=
  (batch_first_failure demoDecorator demoCtx (demoFundedStore 300) (demoBatchTx demoBadBatch)
    [demoCreate 50] (demoCreate 5) [demoCreate 70] rfl).2 demoDeliverer _
    (by
      intro c hc
      simp only [batchCalls, List.mem_singleton] at hc
      subst hc
      rfl)
    rfl

/-! ## The batch decorator: what a failed batch leaves in the store -/

/-- Claim C16, as stated, fails: of three creates the second has its timeout in the
past; `Decorator.Deliver` returns its error, and the store it leaves holds
what the first create wrote: the sequence counter at 1, the record of the
first channel, and its 100 FOO moved from the source to the escrow account. -/
theorem batch_deliver_keeps_earlier_changes :
    (demoDecorator.Deliver demoCtx (demoFundedStore 300) (demoBatchTx demoBadBatch)
        demoDeliverer).1.2
      = some (errors.E (errors.ECode .invalidCondition "timeout in the past")
          "invalid message") ∧
    (demoFundedStore 300).seq = 0 ∧
    (demoDecorator.Deliver demoCtx (demoFundedStore 300) (demoBatchTx demoBadBatch)
        demoDeliverer).2.seq = 1 ∧
    (demoFundedStore 300).paychans (seqKey 1) = none ∧
    (demoDecorator.Deliver demoCtx (demoFundedStore 300) (demoBatchTx demoBadBatch)
        demoDeliverer).2.paychans (seqKey 1) = some (demoChannel 0) ∧
    (demoFundedStore 300).balances (some [1]) "FOO" = 300 * FracUnit ∧
    (demoDecorator.Deliver demoCtx (demoFundedStore 300) (demoBatchTx demoBadBatch)
        demoDeliverer).2.balances (some [1]) "FOO" = 200 * FracUnit :=
  ⟨rfl, rfl, rfl, rfl, rfl, rfl, rfl⟩

/-- Claim C16, amended.  When `next` succeeds on the sub-messages `pre` of a valid
batch and fails on the next one, `m`, with the error `err`, `Decorator.Deliver`
returns the single error `err` with the zero-value result, and the store it
leaves is the one the failing call left, after the calls for `pre`: the
changes of the sub-messages delivered before the failure are kept, the
decorator undoes nothing.  If the failing call leaves the store as it found
it, the store is exactly what the deliveries of `pre` made of it. -/
theorem batch_deliver_failure_store {σ : Type} (d : Decorator) (ctx : Context) (store : σ)
    (tx : AnyTx) (pre : List AnyMsg) (m : AnyMsg) (post : List AnyMsg) (next : Deliverer σ)
    (err : Error)
    (hmsg : tx.GetMsg = .ok (.batch none (pre ++ m :: post)))
    (hpre : ∀ c ∈ batchCalls next ctx tx pre store, (next c.1 c.2.1 c.2.2).1.2 = none)
    (hfail : (next ctx (storeAfter next ctx tx pre store) (.BatchTx tx m)).1.2 = some err) :
    d.Deliver ctx store tx next
      = (({}, some err), (next ctx (storeAfter next ctx tx pre store) (.BatchTx tx m)).2) ∧
    ((next ctx (storeAfter next ctx tx pre store) (.BatchTx tx m)).2
        = storeAfter next ctx tx pre store →
      (d.Deliver ctx store tx next).2 = storeAfter next ctx tx pre store) := by
  have key : d.Deliver ctx store tx next
      = (({}, some err), (next ctx (storeAfter next ctx tx pre store) (.BatchTx tx m)).2) := by
    simp only [Decorator.Deliver, hmsg, forEachMsg_fail ctx tx next m post err pre store hpre hfail]
  refine ⟨key, ?_⟩
  intro hsame
  rw [key, hsame]

/-- Claim C16 amended, witness: the batch of three creates with the second failing. -/
theorem batch_deliver_failure_store_witness :
    (demoDecorator.Deliver demoCtx (demoFundedStore 300) (demoBatchTx demoBadBatch)
        demoDeliverer).2
      = storeAfter demoDeliverer demoCtx (demoBatchTx demoBadBatch) [demoCreate 50]
          (demoFundedStore 300) :=
  (batch_deliver_failure_store demoDecorator demoCtx (demoFundedStore 300)
    (demoBatchTx demoBadBatch) [demoCreate 50] (demoCreate 5) [demoCreate 70] demoDeliverer _ rfl
    (by
      intro c hc
      simp only [batchCalls, List.mem_singleton] at hc
      subst hc
      rfl)
    rfl).2 rfl

/-! ## The batch decorator: invalid batches and other messages -/

/-- Claim C17.  For a transaction whose message is a batch that fails the batch's own
`Validate` with the error `err`, `Decorator.Check` and `Decorator.Deliver`
return `err` with the zero-value result and the store as it was, and `next` is
not called: the record of `logged next` stays empty.  The same holds for the
error `err` of a failing `tx.GetMsg`. -/
theorem batch_invalid_fails_fast {σ : Type} (d : Decorator) (ctx : Context) (store : σ)
    (tx : AnyTx) (err : Error)
    (hmsg : (∃ msgs, tx.GetMsg = .ok (.batch (some err) msgs)) ∨ tx.GetMsg = .error err) :
    (∀ next : Checker σ,
      d.Check ctx store tx next = (({}, some err), store) ∧
      d.Check ctx (store, []) tx (logged next) = (({}, some err), (store, []))) ∧
    (∀ next : Deliverer σ,
      d.Deliver ctx store tx next = (({}, some err), store) ∧
      d.Deliver ctx (store, []) tx (logged next) = (({}, some err), (store, []))) := by
  rcases hmsg with ⟨msgs, hmsg⟩ | hmsg
  · refine ⟨fun next => ⟨?_, ?_⟩, fun next => ⟨?_, ?_⟩⟩ <;>
      simp only [Decorator.Check, Decorator.Deliver, hmsg]
  · refine ⟨fun next => ⟨?_, ?_⟩, fun next => ⟨?_, ?_⟩⟩ <;>
      simp only [Decorator.Check, Decorator.Deliver, hmsg]

/-- Claim C17, witness: a batch of eleven creates, one more than `MaxBatchMessages`. -/
theorem batch_invalid_fails_fast_witness :
    demoDecorator.Deliver demoCtx (demoFundedStore 300, [])
        (.plain (.ok (demoBatchMsg (List.replicate 11 (demoCreate 50))))) (logged demoDeliverer)
      = (({}, some (.code .invalidMsg "invalid batch size")), (demoFundedStore 300, [])) :=
  ((batch_invalid_fails_fast demoDecorator demoCtx (demoFundedStore 300)
    (.plain (.ok (demoBatchMsg (List.replicate 11 (demoCreate 50)))))
    (.code .invalidMsg "invalid batch size") (Or.inl ⟨_, rfl⟩)).2 demoDeliverer).2

/-- Claim C18.  For a transaction whose message is not a batch message,
`Decorator.Check` returns exactly what `next` returns for the same context,
the same store and the transaction itself, and leaves the store `next` leaves;
`next` is called once, with these arguments.  The same holds for
`Decorator.Deliver`. -/
theorem batch_passes_other_messages {σ : Type} (d : Decorator) (ctx : Context) (store : σ)
    (tx : AnyTx) (m : Msg) (hmsg : tx.GetMsg = .ok (.plain m)) :
    (∀ next : Checker σ,
      d.Check ctx store tx next = next ctx store tx ∧
      (d.Check ctx (store, []) tx (logged next)).2.2 = [(ctx, store, tx)]) ∧
    (∀ next : Deliverer σ,
      d.Deliver ctx store tx next = next ctx store tx ∧
      (d.Deliver ctx (store, []) tx (logged next)).2.2 = [(ctx, store, tx)]) := by
  refine ⟨fun next => ⟨?_, ?_⟩, fun next => ⟨?_, ?_⟩⟩ <;>
    simp only [Decorator.Check, Decorator.Deliver, hmsg, logged, List.nil_append]

/-- Claim C18, witness: a transaction carrying one create. -/
theorem batch_passes_other_messages_witness :
    demoDecorator.Deliver demoCtx (demoFundedStore 300) (.plain (.ok (demoCreate 50)))
        demoDeliverer
      = demoDeliverer demoCtx (demoFundedStore 300) (.plain (.ok (demoCreate 50))) ∧
    (demoDecorator.Deliver demoCtx (demoFundedStore 300, []) (.plain (.ok (demoCreate 50)))
        (logged demoDeliverer)).2.2
      = [(demoCtx, demoFundedStore 300, .plain (.ok (demoCreate 50)))] :=
  (batch_passes_other_messages demoDecorator demoCtx (demoFundedStore 300)
    (.plain (.ok (demoCreate 50))) _ rfl).2 demoDeliverer

theorem wrapInt64_add (a b : Int) : wrapInt64 (wrapInt64 a + b) = wrapInt64 (a + b) := by
  unfold wrapInt64
  omega

theorem wrapInt64_of_inRange (a : Int) (h1 : -(2 ^ 63) ≤ a) (h2 : a < 2 ^ 63) :
    wrapInt64 a = a := by
  unfold wrapInt64
  omega

theorem combineChecks_fold (checks : List CheckResult) :
    ∀ (datas : List Bytes) (logs : List String) (a p : Int),
      checks.foldl
        (fun (acc : List Bytes × List String × Int × Int) r =>
          (acc.1 ++ [r.Data], acc.2.1 ++ [r.Log], wrapInt64 (acc.2.2.1 + r.GasAllocated),
            wrapInt64 (acc.2.2.2 + r.GasPayment)))
        (datas, logs, wrapInt64 a, wrapInt64 p)
      = (datas ++ checks.map (fun r => r.Data), logs ++ checks.map (fun r => r.Log),
          wrapInt64 (a + (checks.map (fun r => r.GasAllocated)).sum),
          wrapInt64 (p + (checks.map (fun r => r.GasPayment)).sum)) := by
  induction checks with
  | nil => intro datas logs a p; simp
  | cons r rest ih =>
    intro datas logs a p
    simp only [List.foldl_cons, wrapInt64_add, ih, List.map_cons, List.sum_cons,
      List.append_assoc, List.singleton_append, add_assoc]

theorem combineDelivers_fold (delivers : List DeliverResult) :
    ∀ (datas : List Bytes) (logs : List String) (g : Int) (diffs : List (Bytes × Int))
      (tags : List (Bytes × Bytes)),
      delivers.foldl
        (fun (acc : List Bytes × List String × Int × List (Bytes × Int) × List (Bytes × Bytes))
            r =>
          (acc.1 ++ [r.Data], acc.2.1 ++ [r.Log], wrapInt64 (acc.2.2.1 + r.GasUsed),
            (if r.Diff.length > 0 then acc.2.2.2.1 ++ r.Diff else acc.2.2.2.1),
            (if r.Tags.length > 0 then acc.2.2.2.2 ++ r.Tags else acc.2.2.2.2)))
        (datas, logs, wrapInt64 g, diffs, tags)
      = (datas ++ delivers.map (fun r => r.Data), logs ++ delivers.map (fun r => r.Log),
          wrapInt64 (g + (delivers.map (fun r => r.GasUsed)).sum),
          diffs ++ (delivers.map (fun r => r.Diff)).flatten,
          tags ++ (delivers.map (fun r => r.Tags)).flatten) := by
  induction delivers with
  | nil => intro datas logs g diffs tags; simp
  | cons r rest ih =>
    intro datas logs g diffs tags
    have hd : (if r.Diff.length > 0 then diffs ++ r.Diff else diffs) = diffs ++ r.Diff := by
      split_ifs with h
      · rfl
      · have : r.Diff = [] := List.length_eq_zero.mp (by omega)
        simp [this]
    have ht : (if r.Tags.length > 0 then tags ++ r.Tags else tags) = tags ++ r.Tags := by
      split_ifs with h
      · rfl
      · have : r.Tags = [] := List.length_eq_zero.mp (by omega)
        simp [this]
    simp only [List.foldl_cons, wrapInt64_add, hd, ht, ih, List.map_cons, List.sum_cons,
      List.append_assoc, List.singleton_append, add_assoc, List.flatten_cons]

/-! ## The batch decorator: combining the results -/

/-- Claim C19.  For every list of check results, `combineChecks` returns the result
whose `GasAllocated` and `GasPayment` are the sums of those of the list in
64-bit signed arithmetic (the exact sums reduced to the 64-bit range, hence
the exact sums when these are in range), whose `Log` is the logs of the list
joined with a newline, in order, and whose `Data` is the serialized
`ByteArrayList` of the `Data` of the list, in order. -/
theorem combineChecks_spec (d : Decorator) (checks : List CheckResult) :
    (d.combineChecks checks).GasAllocated
      = wrapInt64 (checks.map (fun r => r.GasAllocated)).sum ∧
    (d.combineChecks checks).GasPayment
      = wrapInt64 (checks.map (fun r => r.GasPayment)).sum ∧
    (-(2 ^ 63) ≤ (checks.map (fun r => r.GasAllocated)).sum ∧
        (checks.map (fun r => r.GasAllocated)).sum < 2 ^ 63 →
      (d.combineChecks checks).GasAllocated = (checks.map (fun r => r.GasAllocated)).sum) ∧
    (-(2 ^ 63) ≤ (checks.map (fun r => r.GasPayment)).sum ∧
        (checks.map (fun r => r.GasPayment)).sum < 2 ^ 63 →
      (d.combineChecks checks).GasPayment = (checks.map (fun r => r.GasPayment)).sum) ∧
    (d.combineChecks checks).Log = String.intercalate "\n" (checks.map (fun r => r.Log)) ∧
    (d.combineChecks checks).Data
      = (d.Marshal { Elements := checks.map (fun r => r.Data) }).1 := by
  have hzero : (0 : Int) = wrapInt64 0 := by decide
  have key := combineChecks_fold checks [] [] 0 0
  rw [← hzero] at key
  simp only [List.nil_append, zero_add] at key
  refine ⟨?_, ?_, ?_, ?_, ?_, ?_⟩
  · simp only [Decorator.combineChecks, key]
  · simp only [Decorator.combineChecks, key]
  · rintro ⟨h1, h2⟩
    simp only [Decorator.combineChecks, key]
    exact wrapInt64_of_inRange _ h1 h2
  · rintro ⟨h1, h2⟩
    simp only [Decorator.combineChecks, key]
    exact wrapInt64_of_inRange _ h1 h2
  · simp only [Decorator.combineChecks, key]
  · simp only [Decorator.combineChecks, key]

/-- Claim C20.  For every list of deliver results, `combineDelivers` returns the result
whose `GasUsed` is the sum of those of the list (in 64-bit signed arithmetic),
whose `Tags` is the concatenation of the `Tags` of the list and whose `Diff`
the concatenation of the `Diff` of the list, both in the order of the list
and of each result, whose `Log` is the logs joined with a newline and whose
`Data` is the serialized `ByteArrayList` of the `Data` of the list, in
order. -/
theorem combineDelivers_spec (d : Decorator) (delivers : List DeliverResult) :
    (d.combineDelivers delivers).GasUsed
      = wrapInt64 (delivers.map (fun r => r.GasUsed)).sum ∧
    (-(2 ^ 63) ≤ (delivers.map (fun r => r.GasUsed)).sum ∧
        (delivers.map (fun r => r.GasUsed)).sum < 2 ^ 63 →
      (d.combineDelivers delivers).GasUsed = (delivers.map (fun r => r.GasUsed)).sum) ∧
    (d.combineDelivers delivers).Tags = (delivers.map (fun r => r.Tags)).flatten ∧
    (d.combineDelivers delivers).Diff = (delivers.map (fun r => r.Diff)).flatten ∧
    (d.combineDelivers delivers).Log
      = String.intercalate "\n" (delivers.map (fun r => r.Log)) ∧
    (d.combineDelivers delivers).Data
      = (d.Marshal { Elements := delivers.map (fun r => r.Data) }).1 := by
  have hzero : (0 : Int) = wrapInt64 0 := by decide
  have key := combineDelivers_fold delivers [] [] 0 [] []
  rw [← hzero] at key
  simp only [List.nil_append, zero_add] at key
  refine ⟨?_, ?_, ?_, ?_, ?_, ?_⟩
  · simp only [Decorator.combineDelivers, key]
  · rintro ⟨h1, h2⟩
    simp only [Decorator.combineDelivers, key]
    exact wrapInt64_of_inRange _ h1 h2
  · simp only [Decorator.combineDelivers, key]
  · simp only [Decorator.combineDelivers, key]
  · simp only [Decorator.combineDelivers, key]
  · simp only [Decorator.combineDelivers, key]

/-! ## The error taxonomy: helper lemmas -/

theorem GoError.abciCode_wrapped (addr : Nat) (Msg : String) (Parent : GoError) :
    (GoError.wrapped addr Msg Parent).ABCICode
      = some (Parent.ABCICode.getD errors.InternalErr.code) := by
  cases Parent <;> simp only [GoError.ABCICode] <;> try rfl
  all_goals (split <;> simp_all)

theorem GoError.error_wrapped (addr : Nat) (Msg : String) (Parent : GoError)
    (h : Parent ≠ .nil) :
    (GoError.wrapped addr Msg Parent).Error = Msg ++ ": " ++ Parent.Error := by
  cases Parent <;> simp_all [GoError.Error]

theorem errors.wrap_one (legacy : GoError → GoError) (addr : Nat) (err : GoError)
    (d : String) : errors.Wrap legacy addr err [d] = some (errors.wrapng addr err d) := rfl

theorem errors.wraps_eq (legacy : GoError → GoError) (ws : List (Nat × String))
    (err : GoError) :
    errors.wraps legacy err ws
      = some (ws.foldl (fun e p => errors.wrapng p.1 e p.2) err) := by
  induction ws generalizing err with
  | nil => rfl
  | cons w rest ih =>
    obtain ⟨addr, d⟩ := w
    simp only [errors.wraps, errors.wrap_one, List.foldl_cons]
    exact ih _

theorem GoError.abciCode_foldl (ws : List (Nat × String)) (err : GoError) (c : Nat)
    (h : err.ABCICode = some c) :
    (ws.foldl (fun e p => errors.wrapng p.1 e p.2) err).ABCICode = some c := by
  induction ws generalizing err with
  | nil => exact h
  | cons w rest ih =>
    simp only [List.foldl_cons]
    apply ih
    simp [errors.wrapng, GoError.abciCode_wrapped, h]

theorem GoError.bottom_foldl (ws : List (Nat × String)) (err : GoError) :
    (ws.foldl (fun e p => errors.wrapng p.1 e p.2) err).bottom = err.bottom := by
  induction ws generalizing err with
  | nil => rfl
  | cons w rest ih =>
    simp only [List.foldl_cons]
    rw [ih]
    rfl

theorem GoError.uncomparableType_foldl (ws : List (Nat × String)) (err : GoError)
    (h : err.uncomparableType = none) :
    (ws.foldl (fun e p => errors.wrapng p.1 e p.2) err).uncomparableType = none := by
  induction ws generalizing err with
  | nil => exact h
  | cons w rest ih =>
    simp only [List.foldl_cons]
    apply ih
    rfl

theorem GoError.bothUncomparable_symm (a b : GoError) (h : GoError.bothUncomparable a b) :
    GoError.bothUncomparable b a :=
  ⟨fun h0 => h.1 (h.2.trans h0), h.2.symm⟩

theorem GoError.not_bothUncomparable (a b : GoError)
    (h : a.uncomparableType = none ∨ b.uncomparableType = none) :
    ¬ GoError.bothUncomparable a b := by
  rintro ⟨h1, h2⟩
  rcases h with h | h
  · exact h1 h
  · exact h1 (h2.trans h)

theorem GoError.eq_none_iff (a b : GoError) :
    GoError.eq a b = none ↔ GoError.bothUncomparable a b := by
  unfold GoError.eq GoError.bothUncomparable
  cases ha : a.uncomparableType with
  | none => simp
  | some ta =>
    cases hb : b.uncomparableType with
    | none => simp
    | some tb =>
      by_cases h : ta = tb
      · simp [h]
      · simp [h]

theorem GoError.eq_some (a b : GoError) (r : Bool) (h : GoError.eq a b = some r) :
    r = true ↔ a = b := by
  unfold GoError.eq at h
  cases ha : a.uncomparableType with
  | none =>
    rw [ha] at h
    simp only [Option.some.injEq] at h
    rw [← h]
    simp
  | some ta =>
    cases hb : b.uncomparableType with
    | none =>
      rw [ha, hb] at h
      simp only [Option.some.injEq] at h
      rw [← h]
      simp
    | some tb =>
      rw [ha, hb] at h
      simp only at h
      split_ifs at h with ht
      simp only [Option.some.injEq] at h
      rw [← h]
      constructor
      · intro h0; cases h0
      · intro hab
        rw [hab, hb] at ha
        exact absurd (Option.some.inj ha).symm ht

theorem errors.is_none_iff (a b : GoError) :
    errors.Is a b = none ↔ GoError.bothUncomparable a b := by
  rw [← GoError.eq_none_iff]
  unfold errors.Is
  cases h : GoError.eq a b with
  | none => simp
  | some r =>
    cases r with
    | true => simp
    | false =>
      simp only [reduceCtorEq, iff_false]
      cases a.ABCICode with
      | none => simp
      | some ac =>
        simp only
        split_ifs
        · simp
        · cases b.ABCICode with
          | none => simp
          | some bc =>
            simp only
            split_ifs <;> simp

theorem errors.is_some (a b : GoError) (h : ¬ GoError.bothUncomparable a b) :
    ∃ r, errors.Is a b = some r ∧
      (r = true ↔
        a = b ∨ ∃ c, a.ABCICode = some c ∧ b.ABCICode = some c
          ∧ c ≠ errors.InternalErr.code) := by
  cases he : GoError.eq a b with
  | none => exact absurd ((GoError.eq_none_iff a b).1 he) h
  | some r0 =>
    have hr0 := GoError.eq_some a b r0 he
    unfold errors.Is
    rw [he]
    cases r0 with
    | true => exact ⟨true, rfl, by simp [hr0.1 rfl]⟩
    | false =>
      have hab : a ≠ b := fun hab => by simpa using hr0.2 hab
      simp only [hab, false_or]
      cases ha : a.ABCICode with
      | none => exact ⟨false, rfl, by simp⟩
      | some ac =>
        by_cases hac : ac = errors.InternalErr.code
        · simp only [hac, if_true]
          refine ⟨false, rfl, ?_⟩
          constructor
          · intro h0; cases h0
          · rintro ⟨c, h1, _, h3⟩
            cases h1
            exact absurd rfl h3
        · simp only [hac, if_false]
          cases hb : b.ABCICode with
          | none => exact ⟨false, rfl, by simp⟩
          | some bc =>
            by_cases hbc : bc = errors.InternalErr.code
            · simp only [hbc, if_true]
              refine ⟨false, rfl, ?_⟩
              constructor
              · intro h0; cases h0
              · rintro ⟨c, _, h2, h3⟩
                cases h2
                exact absurd rfl h3
            · simp only [hbc, if_false]
              refine ⟨ac == bc, rfl, ?_⟩
              constructor
              · intro h0
                have : ac = bc := by simpa using h0
                exact ⟨ac, rfl, by rw [this], hac⟩
              · rintro ⟨c, h1, h2, _⟩
                cases h1; cases h2
                simp

theorem errors.is_true_iff (a b : GoError) (h : ¬ GoError.bothUncomparable a b) :
    errors.Is a b = some true ↔
      a = b ∨ ∃ c, a.ABCICode = some c ∧ b.ABCICode = some c ∧ c ≠ errors.InternalErr.code := by
  obtain ⟨r, hr, hiff⟩ := errors.is_some a b h
  rw [hr, ← hiff]
  simp

theorem errors.is_false_iff (a b : GoError) (h : ¬ GoError.bothUncomparable a b) :
    errors.Is a b = some false ↔
      ¬ (a = b ∨ ∃ c, a.ABCICode = some c ∧ b.ABCICode = some c
        ∧ c ≠ errors.InternalErr.code) := by
  obtain ⟨r, hr, hiff⟩ := errors.is_some a b h
  rw [hr, ← hiff]
  simp

theorem errors.is_iff (a b : GoError)
    (h : a.uncomparableType = none ∨ b.uncomparableType = none) :
    errors.Is a b = some true ↔
      a = b ∨ ∃ c, a.ABCICode = some c ∧ b.ABCICode = some c ∧ c ≠ errors.InternalErr.code :=
  errors.is_true_iff a b (GoError.not_bothUncomparable a b h)

theorem errors.is_true_imp (a b : GoError) (h : errors.Is a b = some true) :
    ¬ GoError.bothUncomparable a b
    ∧ (a = b ∨ ∃ c, a.ABCICode = some c ∧ b.ABCICode = some c
        ∧ c ≠ errors.InternalErr.code) := by
  have hne : ¬ GoError.bothUncomparable a b := by
    intro h0
    rw [(errors.is_none_iff a b).2 h0] at h
    cases h
  exact ⟨hne, (errors.is_true_iff a b hne).1 h⟩

theorem Registry.Reachable.code_eq {reg : Registry} (h : Registry.Reachable reg) :
    ∀ k r, reg k = some r → r.code = k := by
  induction h with
  | start => intro k r hk; simp [Registry.empty] at hk
  | call h code description ih =>
    rename_i usedCodes
    intro k r hk
    unfold errors.NewRootError at hk
    split at hk
    · exact ih k r hk
    · simp only at hk
      split_ifs at hk with hkc
      · cases hk; exact hkc.symm
      · exact ih k r hk

theorem Registry.Reachable.register {reg : Registry} (h : Registry.Reachable reg) :
    ∀ (l : List (Nat × String)) (errs : List RootError) (last : Registry),
      errors.register reg l = some (errs, last) → Registry.Reachable last := by
  intro l
  induction l generalizing reg with
  | nil =>
    intro errs last hl
    simp only [errors.register, Option.some.injEq, Prod.mk.injEq] at hl
    rw [← hl.2]; exact h
  | cons w rest ih =>
    obtain ⟨code, description⟩ := w
    intro errs last hl
    have hstep := Registry.Reachable.call h code description
    unfold errors.register at hl
    cases hn : errors.NewRootError reg code description with
    | mk out next =>
      rw [hn] at hl hstep
      cases out with
      | none => simp at hl
      | some err =>
        simp only at hl
        cases hr : errors.register next rest with
        | none => rw [hr] at hl; simp at hl
        | some p =>
          rw [hr] at hl
          obtain ⟨errs', last'⟩ := p
          simp only [Option.some.injEq, Prod.mk.injEq] at hl
          rw [← hl.2]
          exact ih hstep errs' last' hr

theorem errors.register_declarations :
    errors.register Registry.empty errors.declarations
      = some ([errors.InternalErr, errors.UnauthorizedErr, errors.NotFoundErr,
          errors.InvalidMsgErr, errors.InvalidModelErr, errors.InvalidValueErr],
          errors.usedCodes) := rfl

theorem errors.usedCodes_reachable : Registry.Reachable errors.usedCodes :=
  Registry.Reachable.register Registry.Reachable.start _ _ _ errors.register_declarations

theorem Registry.Reachable.code_injective {reg : Registry} (h : Registry.Reachable reg)
    (r1 r2 : RootError) (h1 : reg.Registered r1) (h2 : reg.Registered r2)
    (hc : r1.code = r2.code) : r1 = r2 := by
  obtain ⟨k1, hk1⟩ := h1
  obtain ⟨k2, hk2⟩ := h2
  have e1 := h.code_eq k1 r1 hk1
  have e2 := h.code_eq k2 r2 hk2
  have : k1 = k2 := by rw [← e1, ← e2, hc]
  subst this
  rw [hk1] at hk2
  exact Option.some.inj hk2

/-! ## The error taxonomy: when two errors are of one class -/

/-- C21, the case that fails: an error of a dynamic type that Go cannot compare
is the identical value as itself, and two such errors of one type may expose
one code that is not the internal one; in both cases `errors.Is` panics in its
first line and is not true. -/
theorem is_uncomparable_panics :
    errors.Is (.uncomparable 0 none "a; b") (.uncomparable 0 none "a; b") = none
    ∧ (GoError.uncomparable 0 (some 5) "x").ABCICode = some 5
    ∧ (GoError.uncomparable 0 (some 5) "y").ABCICode = some 5
    ∧ 5 ≠ errors.InternalErr.code
    ∧ errors.Is (.uncomparable 0 (some 5) "x") (.uncomparable 0 (some 5) "y") = none := by
  decide

/-- C21, amended: `errors.Is(a, b)` panics exactly when `a` and `b` are values
of one dynamic type that is not comparable.  In every other case it returns,
and it is true exactly when `a` and `b` are the identical value, or both expose
a code, the two codes are equal and the code is not the internal one; so a root
error other than the internal one wrapped under any description is of the
class of the root, as `InvalidValueErr.New("memo too long")` is of the class of
`InvalidValueErr`. -/
theorem is_same_class_iff (legacy : GoError → GoError) (addr : Nat) :
    (∀ a b : GoError, errors.Is a b = none ↔ GoError.bothUncomparable a b)
    ∧ (∀ a b : GoError, ¬ GoError.bothUncomparable a b →
        (errors.Is a b = some true ↔
          a = b ∨ ∃ c, a.ABCICode = some c ∧ b.ABCICode = some c
            ∧ c ≠ errors.InternalErr.code)
        ∧ (errors.Is a b = some false ↔
          ¬ (a = b ∨ ∃ c, a.ABCICode = some c ∧ b.ABCICode = some c
            ∧ c ≠ errors.InternalErr.code)))
    ∧ (∀ (r : RootError) (d : String), r.code ≠ errors.InternalErr.code →
        ∃ e, r.New legacy addr d = some e ∧ errors.Is e (.root r) = some true)
    ∧ ∃ e, errors.InvalidValueErr.New legacy addr "memo too long" = some e
        ∧ errors.Is e (.root errors.InvalidValueErr) = some true := by
  have hgen : ∀ (r : RootError) (d : String), r.code ≠ errors.InternalErr.code →
      ∃ e, r.New legacy addr d = some e ∧ errors.Is e (.root r) = some true := by
    intro r d hr
    refine ⟨errors.wrapng addr (.root r) d, rfl, ?_⟩
    rw [errors.is_iff (errors.wrapng addr (.root r) d) (.root r) (Or.inr rfl)]
    right
    exact ⟨r.code, by simp [errors.wrapng, GoError.abciCode_wrapped, GoError.ABCICode,
      RootError.ABCICode], rfl, hr⟩
  exact ⟨errors.is_none_iff,
    fun a b h => ⟨errors.is_true_iff a b h, errors.is_false_iff a b h⟩,
    hgen, hgen errors.InvalidValueErr "memo too long" (by decide)⟩

/-- C22, the case that fails: an error of the standard library, which exposes no
code, is of one class with itself. -/
theorem is_external_self :
    (GoError.other 1 none "EOF").ABCICode = none
    ∧ errors.Is (.other 1 none "EOF") (.other 1 none "EOF") = some true := by
  decide

/-- C22, amended: when at least one of `a` and `b` exposes no code,
`errors.Is(a, b)` panics if both are values of one dynamic type that is not
comparable; otherwise it returns false when `a` and `b` are not the identical
value, and true when they are. -/
theorem is_external_false (a b : GoError)
    (h : a.ABCICode = none ∨ b.ABCICode = none) :
    (GoError.bothUncomparable a b → errors.Is a b = none)
    ∧ (¬ GoError.bothUncomparable a b →
        (a ≠ b → errors.Is a b = some false) ∧ (a = b → errors.Is a b = some true)) := by
  refine ⟨(errors.is_none_iff a b).2, fun hcmp => ⟨fun hne => ?_, fun heq => ?_⟩⟩
  · rw [errors.is_false_iff a b hcmp]
    rintro (hab | ⟨c, ha, hb, -⟩)
    · exact hne hab
    · rcases h with h | h
      · rw [h] at ha; cases ha
      · rw [h] at hb; cases hb
  · exact (errors.is_true_iff a b hcmp).2 (Or.inl heq)

theorem is_external_false_witness :
    ((GoError.other 1 none "EOF").ABCICode = none
      ∨ (GoError.root errors.InvalidValueErr).ABCICode = none)
    ∧ GoError.other 1 none "EOF" ≠ GoError.root errors.InvalidValueErr
    ∧ errors.Is (.other 1 none "EOF") (.root errors.InvalidValueErr) = some false :=
  ⟨Or.inl rfl, by decide,
    ((is_external_false (.other 1 none "EOF") (.root errors.InvalidValueErr)
      (Or.inl rfl)).2 (by decide)).1 (by decide)⟩

/-- C23: in a registry the program can be in, two distinct registered root
errors, each wrapped any number of times (also not at all) under any
descriptions, are never of one class. -/
theorem is_distinct_roots_false (legacy : GoError → GoError) (reg : Registry)
    (hreg : Registry.Reachable reg) (r1 r2 : RootError) (h1 : reg.Registered r1)
    (h2 : reg.Registered r2) (hne : r1 ≠ r2) (ws1 ws2 : List (Nat × String)) :
    ∃ e1 e2, errors.wraps legacy (.root r1) ws1 = some e1
      ∧ errors.wraps legacy (.root r2) ws2 = some e2
      ∧ errors.Is e1 e2 = some false := by
  refine ⟨_, _, errors.wraps_eq legacy ws1 _, errors.wraps_eq legacy ws2 _, ?_⟩
  rw [errors.is_false_iff _ _ (GoError.not_bothUncomparable _ _
    (Or.inl (GoError.uncomparableType_foldl ws1 (.root r1) rfl)))]
  intro hab
  rcases hab with hab | ⟨c, ha, hb, -⟩
  · have hb := congrArg GoError.bottom hab
    rw [GoError.bottom_foldl, GoError.bottom_foldl] at hb
    simp only [GoError.bottom, GoError.root.injEq] at hb
    exact hne hb
  · rw [GoError.abciCode_foldl ws1 (.root r1) r1.code rfl] at ha
    rw [GoError.abciCode_foldl ws2 (.root r2) r2.code rfl] at hb
    cases ha
    exact hne (hreg.code_injective r1 r2 h1 h2 (Option.some.inj hb).symm ▸ rfl)

theorem is_distinct_roots_false_witness :
    errors.NotFoundErr ≠ errors.InvalidValueErr
    ∧ ∃ e1 e2, errors.wraps id (.root errors.NotFoundErr) [(1, "no such channel")] = some e1
      ∧ errors.wraps id (.root errors.InvalidValueErr) [(2, "memo too long"), (3, "invalid message")]
          = some e2
      ∧ errors.Is e1 e2 = some false :=
  ⟨by decide, is_distinct_roots_false id errors.usedCodes errors.usedCodes_reachable
    errors.NotFoundErr errors.InvalidValueErr ⟨2, rfl⟩ ⟨5, rfl⟩ (by decide) _ _⟩

/-- C24, the case that fails: two wraps of the internal root error under two
descriptions are not of one class. -/
theorem is_wraps_of_internal_false :
    errors.usedCodes.Registered errors.InternalErr
    ∧ "disk" ≠ "network"
    ∧ errors.Wrap id 1 (.root errors.InternalErr) ["disk"]
        = some (.wrapped 1 "disk" (.root errors.InternalErr))
    ∧ errors.Wrap id 2 (.root errors.InternalErr) ["network"]
        = some (.wrapped 2 "network" (.root errors.InternalErr))
    ∧ errors.Is (.wrapped 1 "disk" (.root errors.InternalErr))
        (.wrapped 2 "network" (.root errors.InternalErr)) = some false :=
  ⟨⟨0, rfl⟩, by decide, rfl, rfl, by decide⟩

/-- C24, amended: two wraps of one root error are of one class when the root's
code is not the internal code; two wraps of a root error with the internal code
are of one class only when they are the identical value. -/
theorem is_wraps_of_root (legacy : GoError → GoError) (r : RootError) (a1 a2 : Nat)
    (d1 d2 : String) :
    ∃ e1 e2, errors.Wrap legacy a1 (.root r) [d1] = some e1
      ∧ errors.Wrap legacy a2 (.root r) [d2] = some e2
      ∧ (r.code ≠ errors.InternalErr.code → errors.Is e1 e2 = some true)
      ∧ (r.code = errors.InternalErr.code → (errors.Is e1 e2 = some true ↔ e1 = e2)) := by
  refine ⟨_, _, rfl, rfl, ?_, ?_⟩
  · intro hr
    rw [errors.is_iff (errors.wrapng a1 (.root r) d1) (errors.wrapng a2 (.root r) d2)
      (Or.inl rfl)]
    right
    exact ⟨r.code, by simp [errors.wrapng, GoError.abciCode_wrapped, GoError.ABCICode,
      RootError.ABCICode], by simp [errors.wrapng, GoError.abciCode_wrapped,
      GoError.ABCICode, RootError.ABCICode], hr⟩
  · intro hr
    rw [errors.is_iff (errors.wrapng a1 (.root r) d1) (errors.wrapng a2 (.root r) d2)
      (Or.inl rfl)]
    constructor
    · rintro (h | ⟨c, ha, -, hc⟩)
      · exact h
      · exfalso
        apply hc
        simp only [errors.wrapng, GoError.abciCode_wrapped, GoError.ABCICode,
          RootError.ABCICode, Option.getD_some, Option.some.injEq] at ha
        rw [← ha, hr]
    · intro h; exact Or.inl h

/-! ## The error taxonomy: codes, logs and texts of wrapped errors -/

/-- C25: a root error wrapped once or more, under any descriptions, has the
code of the root; a cause that exposes no code (an error of another package
without one, or no cause at all) wrapped once or more has the internal
code 0. -/
theorem abciCode_of_wraps (legacy : GoError → GoError) (ws : List (Nat × String))
    (hws : ws ≠ []) :
    (∀ r : RootError, ∃ e, errors.wraps legacy (.root r) ws = some e
        ∧ e.ABCICode = some r.code)
    ∧ (∀ cause : GoError, cause.ABCICode = none →
        ∃ e, errors.wraps legacy cause ws = some e
          ∧ e.ABCICode = some errors.InternalErr.code
          ∧ errors.InternalErr.code = 0) := by
  constructor
  · intro r
    exact ⟨_, errors.wraps_eq legacy ws _, GoError.abciCode_foldl ws (.root r) r.code rfl⟩
  · intro cause hc
    refine ⟨_, errors.wraps_eq legacy ws _, ?_, rfl⟩
    cases ws with
    | nil => exact absurd rfl hws
    | cons w rest =>
      simp only [List.foldl_cons]
      apply GoError.abciCode_foldl
      simp [errors.wrapng, GoError.abciCode_wrapped, hc]

theorem abciCode_of_wraps_witness :
    (∀ r : RootError, ∃ e,
        errors.wraps id (.root r) [(1, "memo too long"), (2, "invalid message")] = some e
        ∧ e.ABCICode = some r.code)
    ∧ (∀ cause : GoError, cause.ABCICode = none →
        ∃ e, errors.wraps id cause [(1, "memo too long"), (2, "invalid message")] = some e
          ∧ e.ABCICode = some errors.InternalErr.code
          ∧ errors.InternalErr.code = 0) :=
  abciCode_of_wraps id [(1, "memo too long"), (2, "invalid message")] (by decide)

/-- C26: the error `Wrap(cause, d)` has the code of its cause, or the internal
code when the cause exposes none; when that code is the internal one its
`ABCILog` is "internal error", whatever `d` and the cause's text, and otherwise
its `ABCILog` is its `Error()`. -/
theorem abciLog_of_wrap (legacy : GoError → GoError) (addr : Nat) (cause : GoError)
    (d : String) :
    ∃ e, errors.Wrap legacy addr cause [d] = some e
      ∧ e.ABCICode = some (cause.ABCICode.getD errors.InternalErr.code)
      ∧ (e.ABCICode = some errors.InternalErr.code → e.ABCILog = some "internal error")
      ∧ (e.ABCICode ≠ some errors.InternalErr.code → e.ABCILog = some e.Error) := by
  refine ⟨_, rfl, GoError.abciCode_wrapped _ _ _, ?_, ?_⟩
  · intro h
    simp only [errors.wrapng] at h ⊢
    simp only [GoError.ABCILog, h, if_true]
  · intro h
    simp only [errors.wrapng] at h ⊢
    simp only [GoError.ABCILog, h, if_false]

/-- C27, the case that fails: the internal root error has the internal code and
its `ABCILog` is its own description "internal", not the generic string. -/
theorem abciLog_of_internal_root :
    errors.usedCodes.Registered errors.InternalErr
    ∧ (GoError.root errors.InternalErr).ABCICode = some errors.InternalErr.code
    ∧ (GoError.root errors.InternalErr).ABCILog = some errors.InternalErr.desc
    ∧ (GoError.root errors.InternalErr).ABCILog ≠ some "internal error" :=
  ⟨⟨0, rfl⟩, rfl, rfl, by decide⟩

/-- C27, amended: the `ABCILog` of a root error is its own description whatever
its code; the `ABCILog` of a wrap of any error is the generic string when the
code of the wrap is the internal one and its `Error()` otherwise. -/
theorem abciLog_of_taxonomy :
    (∀ r : RootError, (GoError.root r).ABCILog = some (GoError.root r).Error
        ∧ (GoError.root r).Error = r.desc)
    ∧ (∀ (addr : Nat) (Msg : String) (Parent : GoError),
        ((GoError.wrapped addr Msg Parent).ABCICode = some errors.InternalErr.code →
          (GoError.wrapped addr Msg Parent).ABCILog = some "internal error")
        ∧ ((GoError.wrapped addr Msg Parent).ABCICode ≠ some errors.InternalErr.code →
          (GoError.wrapped addr Msg Parent).ABCILog
            = some (GoError.wrapped addr Msg Parent).Error)) := by
  refine ⟨fun r => ⟨rfl, rfl⟩, fun addr Msg Parent => ⟨?_, ?_⟩⟩
  · intro h
    simp only [GoError.ABCILog, h, if_true]
  · intro h
    simp only [GoError.ABCILog, h, if_false]

/-- C28: the text of `Wrap(cause, d)` is `d`, a colon, a blank and the text of
the cause when there is a cause, and `d` alone when there is none; and
`r.New(d)` is `Wrap(r, d)`. -/
theorem error_of_wrap (legacy : GoError → GoError) (addr : Nat) (d : String) :
    (∀ cause : GoError, ∃ e, errors.Wrap legacy addr cause [d] = some e
        ∧ (cause ≠ .nil → e.Error = d ++ ": " ++ cause.Error)
        ∧ (cause = .nil → e.Error = d))
    ∧ ∀ r : RootError, r.New legacy addr d = errors.Wrap legacy addr (.root r) [d] := by
  refine ⟨fun cause => ⟨_, rfl, ?_, ?_⟩, fun r => rfl⟩
  · intro h
    exact GoError.error_wrapped addr d cause h
  · intro h
    subst h
    rfl

/-! ## The error taxonomy: the registry of codes -/

/-- C29: `NewRootError(code, description)` panics exactly when `code` is a key
of the registry, and then leaves the registry as it was; otherwise it returns
the root error of that code and description and records it under `code`,
leaving the other keys as they were.  So in every registry the program can be
in, two registered root errors of one code are one root error. -/
theorem newRootError_spec :
    (∀ (usedCodes : Registry) (code : Nat) (description : String),
      ((errors.NewRootError usedCodes code description).1 = none ↔ usedCodes code ≠ none)
      ∧ (usedCodes code ≠ none →
          (errors.NewRootError usedCodes code description).2 = usedCodes)
      ∧ (usedCodes code = none →
          (errors.NewRootError usedCodes code description).1
            = some { code := code, desc := description }
          ∧ (errors.NewRootError usedCodes code description).2 code
            = some { code := code, desc := description }
          ∧ ∀ k, k ≠ code →
            (errors.NewRootError usedCodes code description).2 k = usedCodes k))
    ∧ (∀ usedCodes : Registry, Registry.Reachable usedCodes →
        ∀ r1 r2 : RootError, usedCodes.Registered r1 → usedCodes.Registered r2 →
          r1.code = r2.code → r1 = r2) := by
  constructor
  · intro usedCodes code description
    unfold errors.NewRootError
    cases h : usedCodes code with
    | none =>
      simp only [ne_eq, not_true_eq_false, false_implies, true_and, if_true, true_implies,
        reduceCtorEq]
      intro k hk
      simp only [hk, if_false]
    | some r => simp
  · intro usedCodes h r1 r2 h1 h2 hc
    exact h.code_injective r1 r2 h1 h2 hc

/-! ## The cash messages: helper lemmas -/

theorem Coin.isPositive_false_of_isZero (c : Coin) (h : c.IsZero = true) :
    c.IsPositive = false := by
  simp only [Coin.IsZero, Bool.and_eq_true, beq_iff_eq] at h
  simp [Coin.IsPositive, h.1, h.2]

theorem Coin.isZero_false_of_isPositive (c : Coin) (h : c.IsPositive = true) :
    c.IsZero = false := by
  cases hz : c.IsZero with
  | false => rfl
  | true => rw [Coin.isPositive_false_of_isZero c hz] at h; cases h

theorem isInvalidValue_new (legacy : GoError → GoError) (addr : Nat) (d : String) :
    errors.InvalidValueErr.New legacy addr d
        = some (.wrapped addr d (.root errors.InvalidValueErr))
    ∧ IsInvalidValue (.wrapped addr d (.root errors.InvalidValueErr)) := by
  refine ⟨rfl, ?_⟩
  unfold IsInvalidValue
  rw [errors.is_iff (.wrapped addr d (.root errors.InvalidValueErr))
    (.root errors.InvalidValueErr) (Or.inr rfl)]
  right
  exact ⟨5, by simp [GoError.abciCode_wrapped, GoError.ABCICode, RootError.ABCICode,
    errors.InvalidValueErr], rfl, by decide⟩

theorem isInvalidValue_code (err : GoError) :
    IsInvalidValue err ↔ err.ABCICode = some errors.InvalidValueErr.code := by
  unfold IsInvalidValue
  rw [errors.is_iff err (.root errors.InvalidValueErr) (Or.inr rfl)]
  constructor
  · rintro (h | ⟨c, h1, h2, -⟩)
    · rw [h]; rfl
    · simp only [GoError.ABCICode, RootError.ABCICode, Option.some.injEq] at h2
      rw [h1, h2]
  · intro h
    right
    exact ⟨_, h, rfl, by decide⟩

theorem isInvalidValue_wrapped (addr : Nat) (d : String) (cause : GoError) :
    IsInvalidValue (.wrapped addr d cause) ↔ IsInvalidValue cause := by
  rw [isInvalidValue_code, isInvalidValue_code, GoError.abciCode_wrapped]
  cases h : cause.ABCICode with
  | none => simp [errors.InvalidValueErr, errors.InternalErr]
  | some c => simp

theorem demoExternals_coin (c : Coin) (h : demoExternals.CoinValidate c ≠ .nil) :
    IsInvalidValue (demoExternals.CoinValidate c) := by
  simp only [demoExternals] at h ⊢
  split_ifs at h ⊢ with hc
  · exact absurd rfl h
  · exact (isInvalidValue_new id 0 "invalid currency").2

/-! ## The cash messages: what `SendMsg.Validate` accepts -/

/-- C30: `SendMsg.Validate` returns, without a panic, `nil` exactly for the
messages with a positive amount that `x.Coin.Validate` passes, a valid source,
a valid destination, a memo of at most 128 bytes and a reference of at most 64
bytes.  A missing, empty or non-positive amount gives the invalid-value error
"non-positive amount"; a positive amount that `x.Coin.Validate` refuses gives a
wrap of that refusal, of the invalid-value class as the refusal is; after the
amount, an invalid source and then an invalid destination give a wrap of the
refusal of `weave.Address.Validate`; after the addresses, a memo of more than
128 bytes and then a reference of more than 64 bytes give an invalid-value
error. -/
theorem sendMsg_validate (ext : Externals) (addr : Nat) (s : SendMsg)
    (hcoin : ∀ c, ext.CoinValidate c ≠ .nil → IsInvalidValue (ext.CoinValidate c)) :
    ∃ err, s.Validate ext addr = some err
      ∧ (err = .nil ↔ s.WellFormed ext)
      ∧ ((s.Amount = none ∨ ∃ c, s.Amount = some c ∧ (c.IsZero = true ∨ c.IsPositive = false)) →
          err = .wrapped addr "non-positive amount" (.root errors.InvalidValueErr)
          ∧ IsInvalidValue err)
      ∧ (∀ c, s.Amount = some c → c.IsPositive = true →
          (ext.CoinValidate c ≠ .nil →
            err = .wrapped addr "invalid amount" (ext.CoinValidate c) ∧ IsInvalidValue err)
          ∧ (ext.CoinValidate c = .nil →
            (ext.AddressValidate s.Src ≠ .nil →
              err = .wrapped addr "invalid source address" (ext.AddressValidate s.Src))
            ∧ (ext.AddressValidate s.Src = .nil → ext.AddressValidate s.Dest ≠ .nil →
              err = .wrapped addr "invalid destination address" (ext.AddressValidate s.Dest))
            ∧ (ext.AddressValidate s.Src = .nil → ext.AddressValidate s.Dest = .nil →
              (s.Memo.utf8ByteSize > 128 →
                err = .wrapped addr "memo too long" (.root errors.InvalidValueErr)
                ∧ IsInvalidValue err)
              ∧ (s.Memo.utf8ByteSize ≤ 128 → s.Ref.length > 64 →
                err = .wrapped addr "reference too long" (.root errors.InvalidValueErr)
                ∧ IsInvalidValue err)))) := by
  have hnew := isInvalidValue_new ext.deprecatedLegacyWrap addr
  unfold SendMsg.WellFormed
  cases hamt : s.Amount with
  | none =>
    refine ⟨.wrapped addr "non-positive amount" (.root errors.InvalidValueErr), ?_, ?_, ?_, ?_⟩
    · simp only [SendMsg.Validate, hamt, x.IsEmpty, if_true]
      rfl
    · simp
    · intro _
      exact ⟨rfl, (hnew "non-positive amount").2⟩
    · intro c hc
      cases hc
  | some amt =>
    by_cases hpos : amt.IsPositive = true
    · have hz := Coin.isZero_false_of_isPositive amt hpos
      have hbad : ¬ (some amt = none ∨ ∃ c, some amt = some c
          ∧ (c.IsZero = true ∨ c.IsPositive = false)) := by
        rintro (h | ⟨c, hc, h | h⟩)
        · cases h
        · cases hc; rw [hz] at h; cases h
        · cases hc; rw [hpos] at h; cases h
      by_cases hcv : ext.CoinValidate amt = .nil
      · by_cases hsrc : ext.AddressValidate s.Src = .nil
        · by_cases hdst : ext.AddressValidate s.Dest = .nil
          · by_cases hmemo : s.Memo.utf8ByteSize > 128
            · refine ⟨.wrapped addr "memo too long" (.root errors.InvalidValueErr),
                ?_, ?_, ?_, ?_⟩
              · simp only [SendMsg.Validate, hamt, x.IsEmpty, hz, hpos, hcv, hsrc, hdst,
                  maxMemoSize, hmemo, Bool.not_true, Bool.or_self, Bool.false_eq_true,
                  ne_eq, not_true_eq_false, if_false, if_true]
                rfl
              · simp only [reduceCtorEq, false_iff]
                rintro ⟨c, -, -, -, -, -, h, -⟩
                omega
              · intro h; exact absurd h hbad
              · intro c hc _
                cases hc
                refine ⟨fun h => absurd hcv h, fun _ => ⟨fun h => absurd hsrc h,
                  fun _ h => absurd hdst h, fun _ _ => ⟨fun _ => ⟨rfl, (hnew _).2⟩, ?_⟩⟩⟩
                intro h; omega
            · by_cases href : s.Ref.length > 64
              · refine ⟨.wrapped addr "reference too long" (.root errors.InvalidValueErr),
                  ?_, ?_, ?_, ?_⟩
                · simp only [SendMsg.Validate, hamt, x.IsEmpty, hz, hpos, hcv, hsrc, hdst,
                    maxMemoSize, maxRefSize, hmemo, href, Bool.not_true, Bool.or_self,
                    Bool.false_eq_true, ne_eq, not_true_eq_false, if_false, if_true]
                  rfl
                · simp only [reduceCtorEq, false_iff]
                  rintro ⟨c, -, -, -, -, -, -, h⟩
                  omega
                · intro h; exact absurd h hbad
                · intro c hc _
                  cases hc
                  exact ⟨fun h => absurd hcv h, fun _ => ⟨fun h => absurd hsrc h,
                    fun _ h => absurd hdst h, fun _ _ => ⟨fun h => absurd h hmemo,
                      fun _ _ => ⟨rfl, (hnew _).2⟩⟩⟩⟩
              · refine ⟨.nil, ?_, ?_, ?_, ?_⟩
                · simp only [SendMsg.Validate, hamt, x.IsEmpty, hz, hpos, hcv, hsrc, hdst,
                    maxMemoSize, maxRefSize, hmemo, href, Bool.not_true, Bool.or_self,
                    Bool.false_eq_true, ne_eq, not_true_eq_false, if_false]
                · simp only [true_iff]
                  exact ⟨amt, rfl, hpos, hcv, hsrc, hdst, by omega, by omega⟩
                · intro h; exact absurd h hbad
                · intro c hc _
                  cases hc
                  exact ⟨fun h => absurd hcv h, fun _ => ⟨fun h => absurd hsrc h,
                    fun _ h => absurd hdst h, fun _ _ => ⟨fun h => absurd h hmemo,
                      fun _ h => absurd h href⟩⟩⟩
          · refine ⟨.wrapped addr "invalid destination address" (ext.AddressValidate s.Dest),
              ?_, ?_, ?_, ?_⟩
            · simp only [SendMsg.Validate, hamt, x.IsEmpty, hz, hpos, hcv, hsrc, hdst,
                Bool.not_true, Bool.or_self, Bool.false_eq_true, ne_eq, not_true_eq_false,
                not_false_eq_true, if_false, if_true]
              rfl
            · simp only [reduceCtorEq, false_iff]
              rintro ⟨c, -, -, -, -, h, -⟩
              exact hdst h
            · intro h; exact absurd h hbad
            · intro c hc _
              cases hc
              exact ⟨fun h => absurd hcv h, fun _ => ⟨fun h => absurd hsrc h,
                fun _ _ => rfl, fun _ h => absurd h hdst⟩⟩
        · refine ⟨.wrapped addr "invalid source address" (ext.AddressValidate s.Src),
            ?_, ?_, ?_, ?_⟩
          · simp only [SendMsg.Validate, hamt, x.IsEmpty, hz, hpos, hcv, hsrc,
              Bool.not_true, Bool.or_self, Bool.false_eq_true, ne_eq, not_true_eq_false,
              not_false_eq_true, if_false, if_true]
            rfl
          · simp only [reduceCtorEq, false_iff]
            rintro ⟨c, -, -, -, h, -⟩
            exact hsrc h
          · intro h; exact absurd h hbad
          · intro c hc _
            cases hc
            exact ⟨fun h => absurd hcv h, fun _ => ⟨fun _ => rfl,
              fun h => absurd h hsrc, fun h => absurd h hsrc⟩⟩
      · refine ⟨.wrapped addr "invalid amount" (ext.CoinValidate amt), ?_, ?_, ?_, ?_⟩
        · simp only [SendMsg.Validate, hamt, x.IsEmpty, hz, hpos, hcv,
            Bool.not_true, Bool.or_self, Bool.false_eq_true, ne_eq,
            not_false_eq_true, if_false, if_true]
          rfl
        · simp only [reduceCtorEq, false_iff]
          rintro ⟨c, hc, -, h, -⟩
          cases hc
          exact hcv h
        · intro h; exact absurd h hbad
        · intro c hc _
          cases hc
          refine ⟨fun _ => ⟨rfl, ?_⟩, fun h => absurd h hcv⟩
          exact (isInvalidValue_wrapped _ _ _).2 (hcoin amt hcv)
    · have hneg : amt.IsPositive = false := by simpa using hpos
      refine ⟨.wrapped addr "non-positive amount" (.root errors.InvalidValueErr), ?_, ?_, ?_, ?_⟩
      · simp only [SendMsg.Validate, hamt, x.IsEmpty, hneg, Bool.not_false, Bool.or_true,
          if_true]
        rfl
      · simp only [reduceCtorEq, false_iff]
        rintro ⟨c, hc, h, -⟩
        cases hc
        exact hpos h
      · intro _
        exact ⟨rfl, (hnew "non-positive amount").2⟩
      · intro c hc h
        cases hc
        exact absurd h hpos

theorem sendMsg_validate_witness :
    (∀ c, demoExternals.CoinValidate c ≠ .nil → IsInvalidValue (demoExternals.CoinValidate c))
    ∧ demoSendMsg.Validate demoExternals 1 = some .nil
    ∧ ∃ err, demoUglyMsg.Validate demoExternals 1 = some err
        ∧ err = .wrapped 1 "invalid amount"
            (.wrapped 0 "invalid currency" (.root errors.InvalidValueErr))
        ∧ IsInvalidValue err := by
  refine ⟨demoExternals_coin, by decide, ?_⟩
  obtain ⟨err, hv, -, -, h⟩ := sendMsg_validate demoExternals 1 demoUglyMsg demoExternals_coin
  have h2 := (h ⟨3, 4, "fab9"⟩ rfl (by decide)).1 (by decide)
  exact ⟨err, hv, h2.1, h2.2⟩

/-! ## The cash messages: what `FeeInfo.Validate` accepts -/

theorem Coin.isNonNegative_of_isZero (c : Coin) (h : c.IsZero = true) :
    c.IsNonNegative = true := by
  simp only [Coin.IsZero, Bool.and_eq_true, beq_iff_eq] at h
  simp [Coin.IsNonNegative, h.1, h.2]

/-- C31: `FeeInfo.Validate` returns, without a panic: for a nil `FeeInfo` the error
`errors.ErrUnrecognizedAddress(nil)`; for a `FeeInfo` without fees the
invalid-value error "nil fee"; for a fee that `x.Coin.Validate` refuses a wrap
of that refusal, of the invalid-value class as the refusal is; for a negative
fee an error of the invalid-value class ("negative fee" when
`x.Coin.Validate` passes it); after the fee, for a payer that
`weave.Address.Validate` refuses (a missing payer, when it refuses the empty
address) a wrap of that refusal; and `nil` otherwise, so for a fee of amount
zero that `x.Coin.Validate` passes and a valid payer. -/
theorem feeInfo_validate (ext : Externals) (ErrUnrecognizedAddress : Bytes → GoError)
    (addr : Nat) (f : Option FeeInfo)
    (hcoin : ∀ c, ext.CoinValidate c ≠ .nil → IsInvalidValue (ext.CoinValidate c))
    (herr : ErrUnrecognizedAddress [] ≠ .nil) :
    ∃ err, FeeInfo.Validate ext ErrUnrecognizedAddress addr f = some err
      ∧ (err = .nil ↔ FeeInfo.WellFormed ext f)
      ∧ (f = none → err = ErrUnrecognizedAddress [])
      ∧ ∀ g, f = some g →
          (g.Fees = none →
            err = .wrapped addr "nil fee" (.root errors.InvalidValueErr) ∧ IsInvalidValue err)
          ∧ ∀ fee, g.Fees = some fee →
              (ext.CoinValidate fee ≠ .nil →
                err = .wrapped addr "invali fee" (ext.CoinValidate fee) ∧ IsInvalidValue err)
              ∧ (fee.IsNonNegative = false → IsInvalidValue err)
              ∧ (ext.CoinValidate fee = .nil → fee.IsNonNegative = false →
                err = .wrapped addr "negative fee" (.root errors.InvalidValueErr))
              ∧ (ext.CoinValidate fee = .nil → fee.IsNonNegative = true →
                ext.AddressValidate g.Payer ≠ .nil →
                err = .wrapped addr "invalid payer" (ext.AddressValidate g.Payer))
              ∧ (ext.AddressValidate [] ≠ .nil → ext.CoinValidate fee = .nil →
                fee.IsNonNegative = true → g.Payer = [] →
                err = .wrapped addr "invalid payer" (ext.AddressValidate []))
              ∧ (ext.CoinValidate fee = .nil → fee.IsZero = true →
                ext.AddressValidate g.Payer = .nil → err = .nil) := by
  have hnew := isInvalidValue_new ext.deprecatedLegacyWrap addr
  unfold FeeInfo.WellFormed
  cases f with
  | none =>
    refine ⟨ErrUnrecognizedAddress [], rfl, ?_, fun _ => rfl, ?_⟩
    · constructor
      · intro h; exact absurd h herr
      · rintro ⟨g, fee, h, -⟩; cases h
    · intro g hg; cases hg
  | some g =>
    cases hfee : g.Fees with
    | none =>
      refine ⟨.wrapped addr "nil fee" (.root errors.InvalidValueErr), ?_, ?_, ?_, ?_⟩
      · simp only [FeeInfo.Validate, hfee]
        rfl
      · simp only [reduceCtorEq, false_iff]
        rintro ⟨g1, fee, h1, h2, -⟩
        cases h1
        rw [hfee] at h2
        cases h2
      · intro h; cases h
      · intro g1 hg
        cases hg
        refine ⟨fun _ => ⟨rfl, (hnew _).2⟩, ?_⟩
        intro fee h2
        rw [hfee] at h2
        cases h2
    | some fee =>
      by_cases hcv : ext.CoinValidate fee = .nil
      · by_cases hnn : fee.IsNonNegative = true
        · by_cases hp : ext.AddressValidate g.Payer = .nil
          · refine ⟨.nil, ?_, ?_, ?_, ?_⟩
            · simp only [FeeInfo.Validate, hfee, hcv, hnn, hp, ne_eq, not_true_eq_false,
                if_false, Bool.not_true, Bool.false_eq_true]
            · simp only [true_iff]
              exact ⟨g, fee, rfl, hfee, hcv, hnn, hp⟩
            · intro h; cases h
            · intro g1 hg
              cases hg
              refine ⟨fun h => ?_, ?_⟩
              · rw [hfee] at h; cases h
              · intro fee1 h1
                rw [hfee] at h1
                cases h1
                refine ⟨fun h => absurd hcv h, fun h => ?_, fun _ h => ?_, fun _ _ h => absurd hp h,
                  fun hr _ _ he => ?_, fun _ _ _ => rfl⟩
                · rw [hnn] at h; cases h
                · rw [hnn] at h; cases h
                · rw [he] at hp; exact absurd hp hr
          · refine ⟨.wrapped addr "invalid payer" (ext.AddressValidate g.Payer), ?_, ?_, ?_, ?_⟩
            · simp only [FeeInfo.Validate, hfee, hcv, hnn, hp, ne_eq, not_true_eq_false,
                not_false_eq_true, if_false, if_true, Bool.not_true, Bool.false_eq_true]
              rfl
            · simp only [reduceCtorEq, false_iff]
              rintro ⟨g1, fee1, h1, -, -, -, h5⟩
              cases h1
              exact hp h5
            · intro h; cases h
            · intro g1 hg
              cases hg
              refine ⟨fun h => ?_, ?_⟩
              · rw [hfee] at h; cases h
              · intro fee1 h1
                rw [hfee] at h1
                cases h1
                refine ⟨fun h => absurd hcv h, fun h => ?_, fun _ h => ?_, fun _ _ _ => rfl,
                  fun _ _ _ he => ?_, fun _ _ h => absurd h hp⟩
                · rw [hnn] at h; cases h
                · rw [hnn] at h; cases h
                · rw [he]
        · have hneg : fee.IsNonNegative = false := by simpa using hnn
          refine ⟨.wrapped addr "negative fee" (.root errors.InvalidValueErr), ?_, ?_, ?_, ?_⟩
          · simp only [FeeInfo.Validate, hfee, hcv, hneg, ne_eq, not_true_eq_false, if_false,
              Bool.not_false, if_true]
            rfl
          · simp only [reduceCtorEq, false_iff]
            rintro ⟨g1, fee1, h1, h2, -, h4, -⟩
            cases h1
            rw [hfee] at h2
            cases h2
            exact hnn h4
          · intro h; cases h
          · intro g1 hg
            cases hg
            refine ⟨fun h => ?_, ?_⟩
            · rw [hfee] at h; cases h
            · intro fee1 h1
              rw [hfee] at h1
              cases h1
              refine ⟨fun h => absurd hcv h, fun _ => (hnew _).2, fun _ _ => rfl,
                fun _ h => absurd h hnn, fun _ _ h => absurd h hnn, fun _ hz _ => ?_⟩
              exact absurd (Coin.isNonNegative_of_isZero _ hz) hnn
      · refine ⟨.wrapped addr "invali fee" (ext.CoinValidate fee), ?_, ?_, ?_, ?_⟩
        · simp only [FeeInfo.Validate, hfee, hcv, ne_eq, not_false_eq_true, if_true]
          rfl
        · simp only [reduceCtorEq, false_iff]
          rintro ⟨g1, fee1, h1, h2, h3, -⟩
          cases h1
          rw [hfee] at h2
          cases h2
          exact hcv h3
        · intro h; cases h
        · intro g1 hg
          cases hg
          have hiv : IsInvalidValue (.wrapped addr "invali fee" (ext.CoinValidate fee)) :=
            (isInvalidValue_wrapped _ _ _).2 (hcoin fee hcv)
          refine ⟨fun h => ?_, ?_⟩
          · rw [hfee] at h; cases h
          · intro fee1 h1
            rw [hfee] at h1
            cases h1
            exact ⟨fun _ => ⟨rfl, hiv⟩, fun _ => hiv, fun h => absurd h hcv,
              fun h => absurd h hcv, fun _ h => absurd h hcv, fun h => absurd h hcv⟩

theorem feeInfo_validate_witness :
    (∀ c, demoExternals.CoinValidate c ≠ .nil → IsInvalidValue (demoExternals.CoinValidate c))
    ∧ demoErrUnrecognizedAddress [] ≠ .nil
    ∧ FeeInfo.Validate demoExternals demoErrUnrecognizedAddress 1 (some demoZeroFee) = some .nil
    ∧ FeeInfo.Validate demoExternals demoErrUnrecognizedAddress 1 none
        = some (demoErrUnrecognizedAddress []) := by
  obtain ⟨err, hv, -, -, h⟩ := feeInfo_validate demoExternals demoErrUnrecognizedAddress 1
    (some demoZeroFee) demoExternals_coin (by decide)
  refine ⟨demoExternals_coin, by decide, ?_, rfl⟩
  rw [hv, ((h demoZeroFee rfl).2 ⟨0, 0, "BAR"⟩ rfl).2.2.2.2.2 (by decide) (by decide) (by decide)]

/-! ## The cash messages: `SendMsg.DefaultSource` -/

/-- C32: `DefaultSource(addr)` on a message with a source returns the pointer it
was called on, the message as it was; on a message without a source it
returns a newly allocated message with `Src = addr` and the `Dest`, `Amount`,
`Memo` and `Ref` of the original.  So for a non-empty `a`, a second call
`DefaultSource(b)` on what `DefaultSource(a)` returned returns that same
message, whose source is `a` when the message had none (and the message's own
source when it had one). -/
theorem defaultSource_spec (fresh : Nat) (s : SendMsgPtr) :
    (∀ addr : Bytes, s.msg.Src ≠ [] → SendMsg.DefaultSource fresh s addr = s)
    ∧ (∀ addr : Bytes, s.msg.Src = [] →
        SendMsg.DefaultSource fresh s addr
          = { addr := fresh
              msg := { Src := addr, Dest := s.msg.Dest, Amount := s.msg.Amount,
                       Memo := s.msg.Memo, Ref := s.msg.Ref } })
    ∧ ∀ (a b : Bytes) (fresh2 : Nat), a ≠ [] →
        SendMsg.DefaultSource fresh2 (SendMsg.DefaultSource fresh s a) b
          = SendMsg.DefaultSource fresh s a
        ∧ (s.msg.Src = [] →
            (SendMsg.DefaultSource fresh2 (SendMsg.DefaultSource fresh s a) b).msg.Src = a)
        ∧ (s.msg.Src ≠ [] →
            (SendMsg.DefaultSource fresh2 (SendMsg.DefaultSource fresh s a) b).msg.Src
              = s.msg.Src) := by
  have h1 : ∀ (f : Nat) (t : SendMsgPtr) (addr : Bytes), t.msg.Src ≠ [] →
      SendMsg.DefaultSource f t addr = t := by
    intro f t addr h
    simp [SendMsg.DefaultSource, h]
  have h2 : ∀ addr : Bytes, s.msg.Src = [] →
      SendMsg.DefaultSource fresh s addr
        = { addr := fresh
            msg := { Src := addr, Dest := s.msg.Dest, Amount := s.msg.Amount,
                     Memo := s.msg.Memo, Ref := s.msg.Ref } } := by
    intro addr h
    simp [SendMsg.DefaultSource, h]
  refine ⟨h1 fresh s, h2, ?_⟩
  intro a b fresh2 ha
  by_cases hs : s.msg.Src = []
  · have hsrc : (SendMsg.DefaultSource fresh s a).msg.Src = a := by rw [h2 a hs]
    have hne : (SendMsg.DefaultSource fresh s a).msg.Src ≠ [] := by rw [hsrc]; exact ha
    rw [h1 fresh2 _ b hne]
    exact ⟨rfl, fun _ => hsrc, fun h => absurd hs h⟩
  · have he := h1 fresh s a hs
    rw [he, h1 fresh2 s b hs]
    exact ⟨rfl, fun h => absurd h hs, fun _ => rfl⟩

/-! ## Transfers: the transferred amount only grows -/

theorem Coin.compare_neg_of_not_equals {a b : Coin} (hs : a.SameType b = true)
    (hle : a.Compare b ≤ 0) (hne : a.Equals b = false) : a.Compare b < 0 := by
  have hnot : ¬ (a.Whole = b.Whole ∧ a.Fractional = b.Fractional) := by
    rintro ⟨h1, h2⟩
    have : a.Equals b = true := by
      simp only [Coin.SameType, beq_iff_eq] at hs
      simp [Coin.Equals, hs, h1, h2]
    rw [this] at hne
    cases hne
  unfold Coin.Compare at hle ⊢
  split_ifs at hle ⊢ <;> omega

theorem transfer_validate_of_deliver_ok {h : Handler} {ctx : Context} {db : Store} {tx : Tx}
    {out : DeliverOut}
    (hout : transferPaymentChannelHandler.Deliver h ctx db tx = some out)
    (hok : out.err = none) :
    ∃ m, transferPaymentChannelHandler.validate h ctx db tx = some (m, none) := by
  cases hv : transferPaymentChannelHandler.validate h ctx db tx with
  | none => simp [transferPaymentChannelHandler.Deliver, hv] at hout
  | some r =>
    obtain ⟨m, e⟩ := r
    cases e with
    | none => exact ⟨m, rfl⟩
    | some err =>
      simp only [transferPaymentChannelHandler.Deliver, hv, Option.some.injEq] at hout
      rw [← hout] at hok
      simp at hok

/-- C33: when `Deliver` of the transfer handler succeeds, the message named a
stored channel with `0 ≤ Transferred ≤ Total` and carried an amount above
`Transferred` and not above `Total`; if the amount equals `Total` the record
is deleted, and if not it is stored under the same ID with the amount
as its `Transferred`, strictly between the old `Transferred` and `Total`,
with the latest memo and every other field, `Total` included, as it was; the
stored record passes `Validate` again. -/
theorem transfer_deliver_monotone (h : Handler) (ctx : Context) (db : Store) (tx : Tx)
    (out : DeliverOut)
    (hout : transferPaymentChannelHandler.Deliver h ctx db tx = some out)
    (hok : out.err = none) :
    ∃ msg payment pc amount total transferred,
      tx.GetMsg = .ok (.transfer msg) ∧ msg.Payment = some payment ∧
      payment.Amount = some amount ∧ db.paychans payment.ChannelId = some pc ∧
      pc.Total = some total ∧ pc.Transferred = some transferred ∧
      transferred.IsNonNegative = true ∧ transferred.Compare total ≤ 0 ∧
      0 < amount.Compare transferred ∧ amount.Compare total ≤ 0 ∧
      (amount.Equals total = true → out.db.paychans payment.ChannelId = none) ∧
      (amount.Equals total = false →
        amount.Compare total < 0 ∧ amount.IsNonNegative = true ∧
        out.db.paychans payment.ChannelId
          = some { pc with Transferred := some amount, Memo := payment.Memo } ∧
        ({ pc with Transferred := some amount, Memo := payment.Memo }
          : PaymentChannel).Validate = none) := by
  obtain ⟨m, hv⟩ := transfer_validate_of_deliver_ok hout hok
  obtain ⟨msg, payment, pc, amount, total, transferred, -, acc⟩ := transfer_validate_accepted hv
  have v := acc.valid
  have hpc := (PaymentChannelBucket.getPaymentChannel_ok_iff.mp acc.channel).1
  have hst : transferred.SameType total = true := by
    cases hc : transferred.SameType total with
    | true => rfl
    | false =>
      rw [transfer_deliver_of_mismatch acc hc, Option.some.injEq] at hout
      rw [← hout] at hok
      simp at hok
  refine ⟨msg, payment, pc, amount, total, transferred, acc.getMsg, acc.hasPayment,
    acc.hasAmount, hpc, acc.hasTotal, acc.hasTransferred, v.nonNegative, v.leTotal,
    acc.gtTransferred, acc.leTotal, ?_, ?_⟩
  · intro heq
    rw [transfer_deliver_of_accepted acc hst] at hout
    simp only [heq, if_true] at hout
    split_ifs at hout with hz
    · simp only [Option.some.injEq] at hout
      rw [← hout] at hok
      simp at hok
    · split at hout
      · simp only [Option.some.injEq] at hout
        rw [← hout] at hok
        simp at hok
      · simp only [Option.some.injEq] at hout
        rw [← hout]
        simp [PaymentChannelBucket.Delete]
  · intro hne
    rw [transfer_deliver_of_accepted acc hst] at hout
    simp only [hne, Bool.false_eq_true, if_false] at hout
    split_ifs at hout with hz
    · simp only [Option.some.injEq] at hout
      rw [← hout] at hok
      simp at hok
    · split at hout
      · simp only [Option.some.injEq] at hout
        rw [← hout] at hok
        simp at hok
      · simp only [Option.some.injEq] at hout
        rw [← hout] at hok ⊢
        simp only [PaymentChannelBucket.Save, orm.Bucket.Save] at hok ⊢
        cases hval : ({ pc with Transferred := some amount, Memo := payment.Memo }
            : PaymentChannel).Validate with
        | some err =>
          rw [hval] at hok
          simp at hok
        | none =>
          obtain ⟨t1, a1, v1⟩ := PaymentChannel.valid_of_validate hval
          have e1 : a1 = amount := Option.some.inj v1.hasTransferred.symm
          subst e1
          refine ⟨Coin.compare_neg_of_not_equals acc.sameType acc.leTotal hne, v1.nonNegative,
            ?_, rfl⟩
          simp

/-- C33, witness: on the channel with 40 of 100 FOO transferred, the signed
transfer for the cumulative amount 70 succeeds. -/
theorem transfer_deliver_monotone_witness :
    ∃ out,
      transferPaymentChannelHandler.Deliver demoHandler demoCtx (demoStore 40)
        (demoTransferTx 70 (some (seqKey 1))) = some out ∧
      out.err = none ∧
      ∃ msg payment pc amount total transferred,
        (demoTransferTx 70 (some (seqKey 1))).GetMsg = .ok (.transfer msg) ∧
        msg.Payment = some payment ∧
        payment.Amount = some amount ∧ (demoStore 40).paychans payment.ChannelId = some pc ∧
        pc.Total = some total ∧ pc.Transferred = some transferred ∧
        transferred.IsNonNegative = true ∧ transferred.Compare total ≤ 0 ∧
        0 < amount.Compare transferred ∧ amount.Compare total ≤ 0 ∧
        (amount.Equals total = true → out.db.paychans payment.ChannelId = none) ∧
        (amount.Equals total = false →
          amount.Compare total < 0 ∧ amount.IsNonNegative = true ∧
          out.db.paychans payment.ChannelId
            = some { pc with Transferred := some amount, Memo := payment.Memo } ∧
          ({ pc with Transferred := some amount, Memo := payment.Memo }
            : PaymentChannel).Validate = none) := by
  refine ⟨_, rfl, rfl, ?_⟩
  exact transfer_deliver_monotone demoHandler demoCtx (demoStore 40)
    (demoTransferTx 70 (some (seqKey 1))) _ rfl rfl

/-! ## Transfers: the guard on the difference -/

theorem Coin.isPositive_ofUnits {u : Int} (hu : 0 < u) (t : String) :
    (Coin.ofUnits u t).IsPositive = true := by
  have h1 : u.tdiv 1000000000 = u / 1000000000 := Int.tdiv_eq_ediv (le_of_lt hu) (by decide)
  have h2 : u.tmod 1000000000 = u % 1000000000 := Int.tmod_eq_emod (le_of_lt hu) (by decide)
  simp only [Coin.IsPositive, Coin.ofUnits, FracUnit, h1, h2, Bool.or_eq_true,
    decide_eq_true_eq, Bool.and_eq_true, beq_iff_eq]
  omega

/-- C34, as stated, fails: the stored record with a total of 100 FOO and 40 BAR
transferred passes `PaymentChannel.Validate`, the signed transfer for 70 FOO
on it passes `validate`, and `Payment.Amount.Subtract(Transferred)` returns an
error, so `Deliver` takes the branch and answers with the invalid-amount
error, the store as it was. -/
theorem transfer_guard_taken_on_mixed_tickers :
    demoMixedChannel.Validate = none ∧
    demoMixedStore.paychans (seqKey 1) = some demoMixedChannel ∧
    transferPaymentChannelHandler.validate demoHandler demoCtx demoMixedStore
        (demoTransferTx 70 (some (seqKey 1)))
      = some (some { Payment := some { ChainId := "chain", ChannelId := seqKey 1,
                                       Amount := some ⟨70, 0, "FOO"⟩, Memo := "latest" }
                     Signature := some (seqKey 1) }, none) ∧
    Coin.Subtract ⟨70, 0, "FOO"⟩ ⟨40, 0, "BAR"⟩ = .error (.code .invalidValue "invalid currency") ∧
    transferPaymentChannelHandler.Deliver demoHandler demoCtx demoMixedStore
        (demoTransferTx 70 (some (seqKey 1)))
      = some ⟨{}, some (ErrInvalidAmount (some ⟨70, 0, "FOO"⟩)), demoMixedStore⟩ :=
  ⟨by decide, rfl, rfl, rfl, rfl⟩

/-- C34, amended: for a message that passes `validate` against a stored channel
whose `Transferred` is of the currency of its `Total`, the two amounts being
coins within bounds, `Payment.Amount.Subtract(Transferred)` returns no error
and a coin that is not zero but strictly positive, of
`Amount - Transferred` units: the guard `err != nil || diff.IsZero()` is
false. -/
theorem transfer_guard_not_taken (h : Handler) (ctx : Context) (db : Store) (tx : Tx)
    (msg : TransferPaymentChannelMsg) (payment : Payment) (pc : PaymentChannel)
    (amount total transferred : Coin)
    (acc : TransferAccepted h ctx db tx msg payment pc amount total transferred)
    (hst : transferred.SameType total = true)
    (hamt : amount.inBounds = true) (htr : transferred.inBounds = true) :
    pc.Validate = none ∧
    ∃ diff, amount.Subtract transferred = .ok diff ∧ diff.IsZero = false ∧
      diff.IsPositive = true ∧ diff.units = amount.units - transferred.units ∧
      (match amount.Subtract transferred with
        | .error _ => true
        | .ok d => d.IsZero) = false := by
  have hsub := Coin.subtract_of_sameType (Coin.sameType_trans_symm acc.sameType hst)
  have hz := Coin.ofUnits_isZero_false hamt htr acc.gtTransferred amount.Ticker
  have hlt := Coin.units_lt_of_compare_pos hamt htr acc.gtTransferred
  refine ⟨(PaymentChannelBucket.getPaymentChannel_ok_iff.mp acc.channel).2,
    Coin.ofUnits (amount.units - transferred.units) amount.Ticker, hsub, hz,
    Coin.isPositive_ofUnits (by omega) _, Coin.units_ofUnits _ _, ?_⟩
  rw [hsub]
  exact hz

/-- C34 amended, witness: on the channel with 40 of 100 FOO transferred, the signed
transfer for the cumulative amount 70. -/
theorem transfer_guard_not_taken_witness :
    (demoChannel 40).Validate = none ∧
    ∃ diff, Coin.Subtract ⟨70, 0, "FOO"⟩ ⟨40, 0, "FOO"⟩ = .ok diff ∧ diff.IsZero = false ∧
      diff.IsPositive = true ∧
      diff.units = Coin.units ⟨70, 0, "FOO"⟩ - Coin.units ⟨40, 0, "FOO"⟩ ∧
      (match Coin.Subtract ⟨70, 0, "FOO"⟩ ⟨40, 0, "FOO"⟩ with
        | .error _ => true
        | .ok d => d.IsZero) = false :=
  transfer_guard_not_taken demoHandler demoCtx (demoStore 40)
    (demoTransferTx 70 (some (seqKey 1))) _ _ (demoChannel 40) ⟨70, 0, "FOO"⟩ ⟨100, 0, "FOO"⟩
    ⟨40, 0, "FOO"⟩
    (demo_transfer_accepted (demoStore 40) 40 70 rfl (by decide) (by decide) (by decide))
    (by decide) (by decide) (by decide)

/-! ## The error taxonomy: `Is` is an equivalence -/

/-- C35, the case that fails: an error of a dynamic type that Go cannot compare
is not of one class with itself, the comparison panics; and two such errors of
one type that are each of the class of `InvalidValueErr` are not of one class
with each other, their comparison panics too. -/
theorem is_not_reflexive_on_uncomparable :
    errors.Is (.uncomparable 7 none "s") (.uncomparable 7 none "s") = none
    ∧ errors.Is (.uncomparable 0 (some 5) "a") (.root errors.InvalidValueErr) = some true
    ∧ errors.Is (.root errors.InvalidValueErr) (.uncomparable 0 (some 5) "c") = some true
    ∧ errors.Is (.uncomparable 0 (some 5) "a") (.uncomparable 0 (some 5) "c") = none := by
  decide

/-- C35, amended: `errors.Is(a, a)` is true for every error `a` of a comparable
dynamic type, the nil error among them, and panics for every other `a`; the nil
error is of one class with nothing but itself, and no comparison with it
panics; `errors.Is(a, b)` and `errors.Is(b, a)` are the same outcome, a panic
included; and when `errors.Is(a, b)` and `errors.Is(b, c)` are true,
`errors.Is(a, c)` is true unless `a` and `c` are of one dynamic type that is
not comparable, in which case it panics. -/
theorem is_equivalence :
    (∀ a : GoError, a.uncomparableType = none → errors.Is a a = some true)
    ∧ (∀ a : GoError, a.uncomparableType ≠ none → errors.Is a a = none)
    ∧ errors.Is .nil .nil = some true
    ∧ (∀ e : GoError, (errors.Is .nil e = some true ↔ e = .nil)
        ∧ (errors.Is e .nil = some true ↔ e = .nil)
        ∧ errors.Is .nil e ≠ none ∧ errors.Is e .nil ≠ none)
    ∧ (∀ a b : GoError, errors.Is a b = errors.Is b a)
    ∧ (∀ a b c : GoError, errors.Is a b = some true → errors.Is b c = some true →
        (¬ GoError.bothUncomparable a c → errors.Is a c = some true)
        ∧ (GoError.bothUncomparable a c → errors.Is a c = none)) := by
  have hP : ∀ a b : GoError,
      (a = b ∨ ∃ c, a.ABCICode = some c ∧ b.ABCICode = some c
        ∧ c ≠ errors.InternalErr.code) →
      (b = a ∨ ∃ c, b.ABCICode = some c ∧ a.ABCICode = some c
        ∧ c ≠ errors.InternalErr.code) := by
    rintro a b (h | ⟨c, ha, hb, hc⟩)
    · exact Or.inl h.symm
    · exact Or.inr ⟨c, hb, ha, hc⟩
  have hsymm : ∀ a b : GoError, errors.Is a b = errors.Is b a := by
    intro a b
    by_cases hcmp : GoError.bothUncomparable a b
    · rw [(errors.is_none_iff a b).2 hcmp,
        (errors.is_none_iff b a).2 (GoError.bothUncomparable_symm a b hcmp)]
    · have hcmp2 : ¬ GoError.bothUncomparable b a :=
        fun h => hcmp (GoError.bothUncomparable_symm b a h)
      obtain ⟨r1, h1, i1⟩ := errors.is_some a b hcmp
      obtain ⟨r2, h2, i2⟩ := errors.is_some b a hcmp2
      rw [h1, h2]
      congr 1
      rw [Bool.eq_iff_iff, i1, i2]
      exact ⟨hP a b, hP b a⟩
  have hnil : ∀ e : GoError, errors.Is .nil e = some true ↔ e = .nil := by
    intro e
    rw [errors.is_iff .nil e (Or.inl rfl)]
    constructor
    · rintro (h | ⟨c, ha, -, -⟩)
      · exact h.symm
      · simp [GoError.ABCICode] at ha
    · intro h; exact Or.inl h.symm
  have hnn : ∀ e : GoError, errors.Is .nil e ≠ none := by
    intro e h
    exact GoError.not_bothUncomparable .nil e (Or.inl rfl) ((errors.is_none_iff _ _).1 h)
  refine ⟨fun a ha => (errors.is_iff a a (Or.inl ha)).2 (Or.inl rfl),
    fun a ha => (errors.is_none_iff a a).2 ⟨ha, rfl⟩,
    (hnil .nil).2 rfl, fun e => ⟨hnil e, ?_, hnn e, ?_⟩, hsymm, ?_⟩
  · rw [hsymm e .nil]; exact hnil e
  · rw [hsymm e .nil]; exact hnn e
  · intro a b c hab hbc
    refine ⟨fun hcmp => ?_, (errors.is_none_iff a c).2⟩
    obtain ⟨-, hab⟩ := errors.is_true_imp a b hab
    obtain ⟨-, hbc⟩ := errors.is_true_imp b c hbc
    rw [errors.is_true_iff a c hcmp]
    rcases hab with hab | ⟨k, ha, hb, hk⟩
    · subst hab; exact hbc
    · rcases hbc with hbc | ⟨k2, hb2, hc2, -⟩
      · subst hbc; exact Or.inr ⟨k, ha, hb, hk⟩
      · rw [hb] at hb2
        cases hb2
        exact Or.inr ⟨k, ha, hc2, hk⟩

end Weave
